import Mathlib

/-!
# Failover outbound group (protocol/group/failover.go)

A shallow embedding of the failover engine: the engine record, its
constructor and lifecycle, the stream dial and packet listen paths, the
switch decision and the primary recovery probe.

Conventions of the embedding.

* `atomic.Int32` cells hold an `Int`; `Add` and the conversion `int32(..)`
  go through `wrapInt32` (two's complement, 32 bits), `Add` on an
  `atomic.Int64` cell through `wrapInt64`. Go `int` values (`maxFailures`,
  indices, lengths) are `Int`/`Nat`.
* A function returns `Option _`; `none` is a Go run-time panic (an index
  out of range, a ticker with a non-positive period).
* What the engine does to its collaborators (delegated dials, the logger,
  the interrupt group, the platform interface) is returned as a list of
  `Event`s in program order.
* What the collaborators answer (the outcome of a delegated dial, whether
  the context got cancelled while a probe was running) is a parameter.
-/

namespace Group

/-! ## Data model -/

/-- Go `error` values, identified by their message. -/
abbrev Error := String

/-- A `net.Conn` handed out by an outbound. -/
structure Conn where
  id : Nat
  deriving DecidableEq, Repr

/-- A `net.PacketConn` handed out by an outbound. -/
structure PacketConn where
  id : Nat
  deriving DecidableEq, Repr

/-- Result of `interruptGroup.NewConn(conn, isExternal)`. -/
structure InterruptConn where
  conn : Conn
  isExternal : Bool
  deriving DecidableEq, Repr

/-- Result of `interruptGroup.NewPacketConn(conn, isExternal)`. -/
structure InterruptPacketConn where
  conn : PacketConn
  isExternal : Bool
  deriving DecidableEq, Repr

/-- An `adapter.Outbound` handle: its `Tag()` and the optional handler capabilities. -/
structure Outbound where
  tag : String
  connectionHandlerEx : Bool
  packetConnectionHandlerEx : Bool
  deriving DecidableEq, Repr

/-- The type `option.FailoverOutboundOptions` (option/group.go). -/
structure FailoverOutboundOptions where
  Outbounds : List String
  MaxFailures : Int
  RecoveryInterval : Int
  RecoveryURL : String
  InterruptExistConnections : Bool
  deriving DecidableEq, Repr

/-- Logger levels used by the engine. -/
inductive Level where
  | debug
  | info
  | warn
  | error
  deriving DecidableEq, Repr

/-- Effects of the engine on its collaborators. -/
inductive Event where
  | log (level : Level) (msg : String)
  | dialContext (idx : Nat) (network : String) (destination : String)
  | listenPacket (idx : Nat) (destination : String)
  | urlTest (idx : Nat) (url : String)
  | connClose (conn : Conn)
  | interrupt (interruptExternalConnections : Bool)
  | onNodeSwitched (fromNode toNode : String)
  | onAllNodesFailed
  | cancel
  | closeChan
  | tickerStop
  | closeOnHandshakeFailure (err : Error)
  | handlerNewConnectionEx (tag : String)
  | managerNewConnection (tag : String)
  | handlerNewPacketConnectionEx (tag : String)
  | managerNewPacketConnection (tag : String)
  deriving DecidableEq, Repr

/-- The type `Failover`. `platformInterface` is whether
`service.FromContext[platform.Interface](f.ctx)` is non-nil, `ctxErr` whether
`f.ctx.Err() != nil`, `recoveryTicker` is `none` for nil and `some running`
otherwise, `closeClosed` whether the `close` channel is closed, `closeOnce`
whether the once-guard has fired, `wg` the wait-group count. -/
structure Failover where
  tags : List String
  maxFailures : Int
  recoveryInterval : Int
  recoveryURL : String
  outbounds : List Outbound
  selected : Int
  consecutiveFailures : List Int
  interruptExternalConnections : Bool
  platformInterface : Bool
  ctxErr : Bool
  recoveryTicker : Option Bool
  closeClosed : Bool
  closeOnce : Bool
  started : Bool
  wg : Nat
  deriving DecidableEq, Repr

/-- What a call leaves behind: the engine afterwards, the effects in program
order, and the returned value. -/
structure Ret (α : Type) where
  state : Failover
  events : List Event
  value : α
  deriving Repr

/-! ## Machine integers and slices -/

/-- Two's-complement reduction to the range of `int32`. -/
def wrapInt32 (x : Int) : Int :=
  (x + 2147483648) % 4294967296 - 2147483648

/-- Two's-complement reduction to the range of `int64`. -/
def wrapInt64 (x : Int) : Int :=
  (x + 9223372036854775808) % 18446744073709551616 - 9223372036854775808

/-- Go slice read `xs[i]`: `none` when the index is out of range. -/
def index? {α : Type} (xs : List α) (i : Int) : Option α :=
  if i < 0 then none else xs[i.toNat]?

/-- Go slice write `xs[i] = v` on the counter vector: `none` when out of range. -/
def store? (xs : List Int) (i : Int) (v : Int) : Option (List Int) :=
  if 0 ≤ i ∧ i.toNat < xs.length then some (xs.set i.toNat v) else none

/-! ## switchToNext -/

/-- The `for i := 1; i < len(f.outbounds); i++` loop of `switchToNext`, over
the remaining values of `i`: the first `nextIdx` whose counter is below the
threshold, `some none` when the loop runs out, `none` on a panic. -/
def switchScan (f : Failover) (currentIdx : Nat) : List Nat → Option (Option Nat)
  | [] => some none
  | i :: rest =>
    let nextIdx := (currentIdx + i) % f.outbounds.length
    match f.consecutiveFailures[nextIdx]? with
    | none => none
    | some c =>
      if c ≥ f.maxFailures then switchScan f currentIdx rest
      else some (some nextIdx)

/-- The platform notification of the switch branch. -/
def notifySwitched (f : Failover) (fromNode toNode : String) : List Event :=
  if f.platformInterface then
    [Event.log Level.warn ("🔔 calling OnNodeSwitched callback: " ++ fromNode ++ " -> " ++ toNode),
     Event.onNodeSwitched fromNode toNode]
  else
    [Event.log Level.error "❌ platformInterface is nil, cannot notify iOS!"]

/-- The platform notification of the reset branch. -/
def notifyAllFailed (f : Failover) : List Event :=
  if f.platformInterface then
    [Event.log Level.warn "🔔 calling OnAllNodesFailed callback",
     Event.onAllNodesFailed]
  else
    [Event.log Level.error "❌ platformInterface is nil, cannot notify iOS about all nodes failed!"]

/-- The method `Failover.switchToNext`. -/
def switchToNext (f : Failover) (currentIdx : Int) : Option (Ret Unit) :=
  match index? f.tags currentIdx with
  | none => none
  | some fromNode =>
    match switchScan f currentIdx.toNat (List.range' 1 (f.outbounds.length - 1)) with
    | none => none
    | some (some nextIdx) =>
      match f.tags[nextIdx]? with
      | none => none
      | some toNode =>
        some {
          state := { f with selected := wrapInt32 nextIdx }
          events :=
            [Event.log Level.warn ("🔄 switched from " ++ fromNode ++ " to " ++ toNode),
             Event.interrupt f.interruptExternalConnections]
            ++ notifySwitched f fromNode toNode
          value := () }
    | some none =>
      some {
        state := { f with
          consecutiveFailures := f.consecutiveFailures.map (fun _ => 0)
          selected := 0 }
        events :=
          [Event.log Level.error "all outbounds failed, resetting and retry from primary",
           Event.interrupt f.interruptExternalConnections]
          ++ notifyAllFailed f
        value := () }

/-! ## DialContext and ListenPacket -/

/-- The warning logged when a delegated dial fails. -/
def dialFailedMsg (tag : String) (failures maxFailures : Int) (err : Error) : String :=
  "outbound " ++ tag ++ " dial failed (" ++ toString failures ++ "/" ++
    toString maxFailures ++ "): " ++ err

/-- The warning logged when a delegated listen fails. -/
def listenFailedMsg (tag : String) (failures maxFailures : Int) (err : Error) : String :=
  "outbound " ++ tag ++ " listen packet failed (" ++ toString failures ++ "/" ++
    toString maxFailures ++ "): " ++ err

/-- The method `Failover.DialContext`. `first idx` is what
`f.outbounds[idx].DialContext` answers to the first attempt, `retry idx` what
it answers to the attempt after a switch; `isExternal` is
`interrupt.IsExternalConnectionFromContext(ctx)`. -/
def DialContext (f : Failover) (first retry : Nat → Except Error Conn)
    (isExternal : Bool) (network destination : String) :
    Option (Ret (Except Error InterruptConn)) :=
  let idx := f.selected
  if idx ≥ f.outbounds.length then
    some { state := f, events := [], value := Except.error "no available outbound" }
  else
    match index? f.outbounds idx with
    | none => none
    | some selected =>
      let ev1 := [Event.dialContext idx.toNat network destination]
      match first idx.toNat with
      | Except.error err =>
        match index? f.consecutiveFailures idx with
        | none => none
        | some c =>
          let failures := wrapInt32 (c + 1)
          let f1 := { f with consecutiveFailures := f.consecutiveFailures.set idx.toNat failures }
          let ev2 := ev1 ++ [Event.log Level.warn (dialFailedMsg selected.tag failures f.maxFailures err)]
          if failures ≥ f.maxFailures then
            match switchToNext f1 idx with
            | none => none
            | some sw =>
              let f2 := sw.state
              let ev3 := ev2 ++ sw.events
              let newIdx := f2.selected
              if newIdx ≠ idx ∧ newIdx < f2.outbounds.length then
                match index? f2.outbounds newIdx with
                | none => none
                | some _ =>
                  let ev4 := ev3 ++ [Event.dialContext newIdx.toNat network destination]
                  match retry newIdx.toNat with
                  | Except.ok conn =>
                    match store? f2.consecutiveFailures newIdx 0 with
                    | none => none
                    | some cs =>
                      some { state := { f2 with consecutiveFailures := cs }, events := ev4,
                             value := Except.ok { conn := conn, isExternal := isExternal } }
                  | Except.error err2 =>
                    some { state := f2, events := ev4, value := Except.error err2 }
              else
                some { state := f2, events := ev3, value := Except.error err }
          else
            some { state := f1, events := ev2, value := Except.error err }
      | Except.ok conn =>
        match store? f.consecutiveFailures idx 0 with
        | none => none
        | some cs =>
          some { state := { f with consecutiveFailures := cs }, events := ev1,
                 value := Except.ok { conn := conn, isExternal := isExternal } }

/-- The method `Failover.ListenPacket`; `first` and `retry` as in `DialContext`,
for `ListenPacket` of the outbounds. -/
def ListenPacket (f : Failover) (first retry : Nat → Except Error PacketConn)
    (isExternal : Bool) (destination : String) :
    Option (Ret (Except Error InterruptPacketConn)) :=
  let idx := f.selected
  if idx ≥ f.outbounds.length then
    some { state := f, events := [], value := Except.error "no available outbound" }
  else
    match index? f.outbounds idx with
    | none => none
    | some selected =>
      let ev1 := [Event.listenPacket idx.toNat destination]
      match first idx.toNat with
      | Except.error err =>
        match index? f.consecutiveFailures idx with
        | none => none
        | some c =>
          let failures := wrapInt32 (c + 1)
          let f1 := { f with consecutiveFailures := f.consecutiveFailures.set idx.toNat failures }
          let ev2 := ev1 ++ [Event.log Level.warn (listenFailedMsg selected.tag failures f.maxFailures err)]
          if failures ≥ f.maxFailures then
            match switchToNext f1 idx with
            | none => none
            | some sw =>
              let f2 := sw.state
              let ev3 := ev2 ++ sw.events
              let newIdx := f2.selected
              if newIdx ≠ idx ∧ newIdx < f2.outbounds.length then
                match index? f2.outbounds newIdx with
                | none => none
                | some _ =>
                  let ev4 := ev3 ++ [Event.listenPacket newIdx.toNat destination]
                  match retry newIdx.toNat with
                  | Except.ok conn =>
                    match store? f2.consecutiveFailures newIdx 0 with
                    | none => none
                    | some cs =>
                      some { state := { f2 with consecutiveFailures := cs }, events := ev4,
                             value := Except.ok { conn := conn, isExternal := isExternal } }
                  | Except.error err2 =>
                    some { state := f2, events := ev4, value := Except.error err2 }
              else
                some { state := f2, events := ev3, value := Except.error err }
          else
            some { state := f1, events := ev2, value := Except.error err }
      | Except.ok conn =>
        match store? f.consecutiveFailures idx 0 with
        | none => none
        | some cs =>
          some { state := { f with consecutiveFailures := cs }, events := ev1,
                 value := Except.ok { conn := conn, isExternal := isExternal } }

/-! ## Recovery probe -/

/-- The probe of `checkPrimaryRecovery` (the `if f.recoveryURL != ""` block):
its effects and the resulting `err`, `none` for nil. `urlTest idx` and
`dial idx` are what `urltest.URLTest(.., f.outbounds[idx])` and
`f.outbounds[idx].DialContext` answer. -/
def probePrimary (f : Failover) (urlTest : Nat → Except Error Nat)
    (dial : Nat → Except Error Conn) : List Event × Option Error :=
  if f.recoveryURL ≠ "" then
    ([Event.urlTest 0 f.recoveryURL],
      match urlTest 0 with
      | Except.ok _ => none
      | Except.error e => some e)
  else
    match dial 0 with
    | Except.ok conn =>
      ([Event.dialContext 0 "tcp" "1.1.1.1:443", Event.connClose conn], none)
    | Except.error e =>
      ([Event.dialContext 0 "tcp" "1.1.1.1:443"], some e)

/-- The method `Failover.checkPrimaryRecovery`. `ctxErrAfter` is
`f.ctx.Err() != nil` at the check that follows the probe. -/
def checkPrimaryRecovery (f : Failover) (urlTest : Nat → Except Error Nat)
    (dial : Nat → Except Error Conn) (ctxErrAfter : Bool) : Option (Ret Unit) :=
  if f.ctxErr then
    some { state := f, events := [], value := () }
  else if f.selected = 0 then
    some { state := f, events := [], value := () }
  else
    match f.outbounds with
    | [] => some { state := f, events := [], value := () }
    | primary :: _ =>
      let probe := probePrimary f urlTest dial
      if ctxErrAfter then
        some { state := f, events := probe.1, value := () }
      else
        match probe.2 with
        | some _ => some { state := f, events := probe.1, value := () }
        | none =>
          match store? f.consecutiveFailures 0 0 with
          | none => none
          | some cs =>
            some {
              state := { f with selected := 0, consecutiveFailures := cs }
              events := probe.1 ++
                [Event.log Level.info ("✅ primary outbound " ++ primary.tag ++ " recovered, switching back"),
                 Event.interrupt f.interruptExternalConnections]
              value := () }

/-! ## Construction and lifecycle -/

/-- The caller-supplied `context.Context`: whether it is already cancelled and
whether it carries a `platform.Interface`. -/
structure Context where
  err : Bool
  platformInterface : Bool
  deriving DecidableEq, Repr

/-- The constructor `NewFailover`. -/
def NewFailover (ctx : Context) (options : FailoverOutboundOptions) : Except Error Failover :=
  if options.Outbounds.length = 0 then
    Except.error "missing outbounds"
  else
    let maxFailures := if options.MaxFailures = 0 then 3 else options.MaxFailures
    let recoveryInterval :=
      if options.RecoveryInterval = 0 then 5 * 60000000000 else options.RecoveryInterval
    Except.ok {
      tags := options.Outbounds
      maxFailures := maxFailures
      recoveryInterval := recoveryInterval
      recoveryURL := options.RecoveryURL
      outbounds := []
      selected := 0
      consecutiveFailures := List.replicate options.Outbounds.length 0
      interruptExternalConnections := options.InterruptExistConnections
      platformInterface := ctx.platformInterface
      ctxErr := ctx.err
      recoveryTicker := none
      closeClosed := false
      closeOnce := false
      started := false
      wg := 0 }

/-- The `for i, tag := range f.tags` loop of `Start`: the outbounds resolved
so far, and the index and tag that failed to resolve, if any. -/
def resolveTags (outboundManager : String → Option Outbound) :
    List String → Nat → List Outbound → List Outbound × Option (Nat × String)
  | [], _, acc => (acc, none)
  | tag :: rest, i, acc =>
    match outboundManager tag with
    | none => (acc, some (i, tag))
    | some detour => resolveTags outboundManager rest (i + 1) (acc ++ [detour])

/-- The method `Failover.Start`. `outboundManager tag` is
`f.outboundManager.Outbound(tag)`. -/
def Start (f : Failover) (outboundManager : String → Option Outbound) :
    Option (Ret (Except Error Unit)) :=
  match resolveTags outboundManager f.tags 0 [] with
  | (outbounds, some (i, tag)) =>
    some { state := { f with outbounds := outbounds }, events := [],
           value := Except.error ("outbound " ++ toString i ++ " not found: " ++ tag) }
  | (outbounds, none) =>
    if f.recoveryInterval ≤ 0 then none
    else
      match f.tags[0]? with
      | none => none
      | some primaryTag =>
        some {
          state := { f with
            outbounds := outbounds
            selected := 0
            started := true
            recoveryTicker := some true
            wg := f.wg + 1 }
          events :=
            [Event.log Level.info ("failover started with " ++ toString outbounds.length ++
              " outbounds, primary: " ++ primaryTag)]
          value := Except.ok () }

/-- The method `Failover.Close`. `exited` is whether the recovery goroutine
is gone within the three-second grace. -/
def Close (f : Failover) (exited : Bool) : Ret (Except Error Unit) :=
  if f.closeOnce then
    { state := f, events := [], value := Except.ok () }
  else
    let stop : List Event := if f.recoveryTicker.isSome then [Event.tickerStop] else []
    let done : Bool := f.wg = 0 || exited
    { state := { f with
        closeOnce := true
        ctxErr := true
        closeClosed := true
        recoveryTicker := f.recoveryTicker.map (fun _ => false)
        wg := if done then 0 else f.wg }
      events := [Event.cancel, Event.closeChan] ++ stop ++
        [if done then Event.log Level.debug "failover goroutine exited cleanly"
         else Event.log Level.warn "failover goroutine exit timeout"]
      value := Except.ok () }

/-- The method `Failover.getSelected`. -/
def getSelected (f : Failover) : Option Outbound :=
  let idx := f.selected
  if idx ≥ 0 ∧ idx < f.outbounds.length then f.outbounds[idx.toNat]? else none

/-- The method `Failover.NewConnectionEx`. -/
def NewConnectionEx (f : Failover) : Ret Unit :=
  match getSelected f with
  | none =>
    { state := f, events := [Event.closeOnHandshakeFailure "no available outbound"], value := () }
  | some selected =>
    if selected.connectionHandlerEx then
      { state := f, events := [Event.handlerNewConnectionEx selected.tag], value := () }
    else
      { state := f, events := [Event.managerNewConnection selected.tag], value := () }

/-- The method `Failover.NewPacketConnectionEx`. -/
def NewPacketConnectionEx (f : Failover) : Ret Unit :=
  match getSelected f with
  | none =>
    { state := f, events := [Event.closeOnHandshakeFailure "no available outbound"], value := () }
  | some selected =>
    if selected.packetConnectionHandlerEx then
      { state := f, events := [Event.handlerNewPacketConnectionEx selected.tag], value := () }
    else
      { state := f, events := [Event.managerNewPacketConnection selected.tag], value := () }

/-! ## Engine states -/

/-- The range of `int32`. -/
def IsInt32 (x : Int) : Prop := -2147483648 ≤ x ∧ x ≤ 2147483647

instance (x : Int) : Decidable (IsInt32 x) := by
  unfold IsInt32; infer_instance

/-- The value of `f.consecutiveFailures[i].Load()`. -/
def counter (f : Failover) (i : Nat) : Int := f.consecutiveFailures.getD i 0

/-- A started engine whose indices fit the 32-bit selection cell: `Start` has
resolved one handle per tag, the counter vector has one cell per tag, there
are at most 2147483648 tags (a bound neither `NewFailover` nor `Start`
checks), the selection names a candidate and every counter holds an `int32`. -/
def Started (f : Failover) : Prop :=
  f.started = true ∧
  1 ≤ f.tags.length ∧ f.tags.length ≤ 2147483648 ∧
  f.outbounds.length = f.tags.length ∧
  f.consecutiveFailures.length = f.tags.length ∧
  0 ≤ f.selected ∧ f.selected < f.tags.length ∧
  ∀ c ∈ f.consecutiveFailures, IsInt32 c

instance (f : Failover) : Decidable (Started f) := by
  unfold Started; infer_instance

/-! ## Executions -/

/-- One operation of the engine, run to completion. -/
inductive Step : Failover → Failover → Prop where
  | dialContext (f : Failover) (first retry : Nat → Except Error Conn) (isExternal : Bool)
      (network destination : String) (r : Ret (Except Error InterruptConn)) :
      DialContext f first retry isExternal network destination = some r → Step f r.state
  | listenPacket (f : Failover) (first retry : Nat → Except Error PacketConn)
      (isExternal : Bool) (destination : String) (r : Ret (Except Error InterruptPacketConn)) :
      ListenPacket f first retry isExternal destination = some r → Step f r.state
  | switchToNext (f : Failover) (currentIdx : Int) (r : Ret Unit) :
      switchToNext f currentIdx = some r → Step f r.state
  | checkPrimaryRecovery (f : Failover) (urlTest : Nat → Except Error Nat)
      (dial : Nat → Except Error Conn) (ctxErrAfter : Bool) (r : Ret Unit) :
      checkPrimaryRecovery f urlTest dial ctxErrAfter = some r → Step f r.state
  | newConnectionEx (f : Failover) : Step f (NewConnectionEx f).state
  | newPacketConnectionEx (f : Failover) : Step f (NewPacketConnectionEx f).state
  | close (f : Failover) (exited : Bool) : Step f (Close f exited).state

/-- The engine states an execution can be in after `NewFailover` and a
successful `Start`. -/
inductive Reachable (ctx : Context) (options : FailoverOutboundOptions)
    (outboundManager : String → Option Outbound) : Failover → Prop where
  | start (f0 : Failover) (r : Ret (Except Error Unit)) :
      NewFailover ctx options = Except.ok f0 →
      Start f0 outboundManager = some r →
      r.value = Except.ok () →
      Reachable ctx options outboundManager r.state
  | step (s t : Failover) :
      Reachable ctx options outboundManager s → Step s t →
      Reachable ctx options outboundManager t

/-- How often the interrupt group is triggered in a run of effects. -/
def interruptCount (events : List Event) : Nat :=
  events.countP (fun e =>
    match e with
    | Event.interrupt _ => true
    | _ => false)

/-! ## Concrete engines -/

/-- A caller context that is live and carries a platform interface. -/
def ctxPlatform : Context := { err := false, platformInterface := true }

/-- The configuration of scenarios S2 to S4: `outbounds=[A,B]`, `max_failures=1`. -/
def optionsAB : FailoverOutboundOptions :=
  { Outbounds := ["A", "B"]
    MaxFailures := 1
    RecoveryInterval := 0
    RecoveryURL := ""
    InterruptExistConnections := false }


/-- An outbound handle with the given tag and no handler capability. -/
def outboundOf (tag : String) : Outbound :=
  { tag := tag, connectionHandlerEx := false, packetConnectionHandlerEx := false }

/-- An outbound manager that knows every tag. -/
def resolveAll : String → Option Outbound := fun tag => some (outboundOf tag)

/-- A started engine over `tags` with the given threshold, selection and counters. -/
def engineOf (tags : List String) (maxFailures selected : Int) (counters : List Int) : Failover :=
  { tags := tags
    maxFailures := maxFailures
    recoveryInterval := 5 * 60000000000
    recoveryURL := ""
    outbounds := tags.map outboundOf
    selected := selected
    consecutiveFailures := counters
    interruptExternalConnections := false
    platformInterface := true
    ctxErr := false
    recoveryTicker := some true
    closeClosed := false
    closeOnce := false
    started := true
    wg := 1 }

/-- Scenarios S2 and S3: `outbounds=[A,B]`, `max_failures=1`, freshly started. -/
def engineAB : Failover := engineOf ["A", "B"] 1 0 [0, 0]

/-- Scenario S1: `outbounds=[A,B,C]`, `max_failures=2`, freshly started. -/
def engineABC : Failover := engineOf ["A", "B", "C"] 2 0 [0, 0, 0]

/-- Scenario S1 after its two failures of A, before the switch decision. -/
def engineABCFailed : Failover := engineOf ["A", "B", "C"] 2 0 [2, 0, 0]

/-- A threshold of 3, selection on B with two failures, A saturated. -/
def engineRecovering : Failover := engineOf ["A", "B"] 3 1 [3, 2]

/-- Scenario S4 before its second dial: selection on B, A saturated. -/
def engineOnB : Failover := engineOf ["A", "B"] 1 1 [1, 0]

/-- Scenario S4 after its second failure: selection on B, both saturated. -/
def engineAllFailed : Failover := engineOf ["A", "B"] 1 1 [1, 1]

/-- A threshold beyond the counters' range, candidate A at the largest `int32`. -/
def engineAtMaxInt32 : Failover := engineOf ["A", "B"] 2147483650 0 [2147483647, 0]

/-- A delegate that fails with `err` for every candidate. -/
def failWith {α : Type} (err : Error) : Nat → Except Error α := fun _ => Except.error err

/-- A delegate that hands out connection `id` for every candidate. -/
def connect (id : Nat) : Nat → Except Error Conn := fun _ => Except.ok { id := id }

/-- An outbound manager that knows the tag `A` only. -/
def resolveOnlyA : String → Option Outbound :=
  fun tag => if tag = "A" then some (outboundOf tag) else none

/-- The configuration of `optionsAB` with `max_failures=-1`. -/
def optionsNegativeThreshold : FailoverOutboundOptions :=
  { optionsAB with MaxFailures := -1 }

/-- The configuration of `optionsAB` with a negative `recovery_interval`. -/
def optionsNegativeInterval : FailoverOutboundOptions :=
  { optionsAB with RecoveryInterval := -1000000000 }

/-! ## Observations on effects and executions -/

/-- How often an outbound's `DialContext` is invoked in a run of effects. -/
def dialCount (events : List Event) : Nat :=
  events.countP (fun e =>
    match e with
    | Event.dialContext _ _ _ => true
    | _ => false)

/-- The interrupts and platform callbacks in a run of effects, in order. -/
def signals (events : List Event) : List Event :=
  events.filter (fun e =>
    match e with
    | Event.interrupt _ => true
    | Event.onNodeSwitched _ _ => true
    | Event.onAllNodesFailed => true
    | _ => false)

/-- The error of an answer, `none` for a success. -/
def errorOf {α : Type} : Except Error α → Option Error
  | Except.ok _ => none
  | Except.error e => some e

/-- Calls of `Close` one after the other; the list holds, per call, whether
the recovery goroutine is gone within the grace. The result collects the
effects and the returned values of all calls. -/
def closeTimes (f : Failover) : List Bool → Ret (List (Except Error Unit))
  | [] => { state := f, events := [], value := [] }
  | exited :: rest =>
    let r := Close f exited
    let rs := closeTimes r.state rest
    { state := rs.state, events := r.events ++ rs.events, value := r.value :: rs.value }

/-- One operation of real traffic or of the recovery loop, run to completion. -/
inductive TrafficStep : Failover → Failover → Prop where
  | dialContext (f : Failover) (first retry : Nat → Except Error Conn) (isExternal : Bool)
      (network destination : String) (r : Ret (Except Error InterruptConn)) :
      DialContext f first retry isExternal network destination = some r → TrafficStep f r.state
  | listenPacket (f : Failover) (first retry : Nat → Except Error PacketConn)
      (isExternal : Bool) (destination : String) (r : Ret (Except Error InterruptPacketConn)) :
      ListenPacket f first retry isExternal destination = some r → TrafficStep f r.state
  | checkPrimaryRecovery (f : Failover) (urlTest : Nat → Except Error Nat)
      (dial : Nat → Except Error Conn) (ctxErrAfter : Bool) (r : Ret Unit) :
      checkPrimaryRecovery f urlTest dial ctxErrAfter = some r → TrafficStep f r.state

/-- The engine states reached from `NewFailover` and a successful `Start` by
dials, listens and recovery probes, one after the other. -/
inductive TrafficReachable (ctx : Context) (options : FailoverOutboundOptions)
    (outboundManager : String → Option Outbound) : Failover → Prop where
  | start (f0 : Failover) (r : Ret (Except Error Unit)) :
      NewFailover ctx options = Except.ok f0 →
      Start f0 outboundManager = some r →
      r.value = Except.ok () →
      TrafficReachable ctx options outboundManager r.state
  | step (s t : Failover) :
      TrafficReachable ctx options outboundManager s → TrafficStep s t →
      TrafficReachable ctx options outboundManager t

/-- A single outbound `A` under a threshold of 2147483648, one more than the
largest `int32`. -/
def optionsHugeThreshold : FailoverOutboundOptions :=
  { Outbounds := ["A"]
    MaxFailures := 2147483648
    RecoveryInterval := 0
    RecoveryURL := ""
    InterruptExistConnections := false }

/-- The tag of the `i`-th of many outbounds. -/
def tagOf (i : Nat) : String := "o" ++ toString i

/-- A configuration of `n` outbounds `o0`, `o1`, ... with `max_failures=1`. -/
def optionsMany (n : Nat) : FailoverOutboundOptions :=
  { Outbounds := (List.range n).map tagOf
    MaxFailures := 1
    RecoveryInterval := 0
    RecoveryURL := ""
    InterruptExistConnections := false }

/-- The started engine of `optionsMany n` with every counter at 0 and the
given value in the selection cell. -/
def engineMany (n : Nat) (selected : Int) : Failover :=
  engineOf ((List.range n).map tagOf) 1 selected (List.replicate n 0)

/-- Every counter lies between 0 and the threshold, and the selected
candidate is below the threshold. -/
def WithinBudget (f : Failover) : Prop :=
  (∀ i : Nat, i < f.tags.length → 0 ≤ counter f i ∧ counter f i ≤ f.maxFailures) ∧
  counter f f.selected.toNat < f.maxFailures

/-- The single outbound `A` of `optionsHugeThreshold`, started, with `c` in
its counter. -/
def engineHuge (c : Int) : Failover := engineOf ["A"] 2147483648 0 [c]

/-- The engine `NewFailover` builds from `optionsAB`, before `Start`. -/
def engineABFresh : Failover :=
  { engineAB with outbounds := [], recoveryTicker := none, started := false, wg := 0 }

end Group

/-!
# Outbound health tracker (common/tracker)

The tracker of `outbound_tracker.go` and the package functions of `api.go`.
The map `stats` is a partial function from tags; the record a `*outboundStats`
points to is written back under its tag after every update. `Add(1)` on an
`atomic.Int64` cell goes through `Group.wrapInt64`, on the `atomic.Int32`
cell through `Group.wrapInt32`. The value of `time.Now().Unix()` is a
parameter, and a nil `error` is `none`.
-/

namespace Tracker

/-- The type `outboundStats`; `LastError` is `none` while nothing is stored. -/
structure outboundStats where
  Tag : String
  TotalAttempts : Int
  SuccessCount : Int
  FailureCount : Int
  LastSuccess : Int
  LastFailure : Int
  LastError : Option String
  ConsecutiveFailures : Int
  deriving DecidableEq, Repr

/-- The type `outboundTracker`. -/
structure outboundTracker where
  stats : String → Option outboundStats

/-- The variable `globalTracker` at program start. -/
def globalTracker : outboundTracker := { stats := fun _ => none }

/-- The assignment `t.stats[tag] = stats`. -/
def outboundTracker.put (t : outboundTracker) (tag : String) (stats : outboundStats) :
    outboundTracker :=
  { stats := fun k => if k = tag then some stats else t.stats k }

/-- The method `outboundTracker.GetOrCreateStats`: the read under the read
lock, the second read under the write lock, then the insertion. -/
def outboundTracker.GetOrCreateStats (t : outboundTracker) (tag : String) :
    outboundTracker × outboundStats :=
  match t.stats tag with
  | some stats => (t, stats)
  | none =>
    match t.stats tag with
    | some stats => (t, stats)
    | none =>
      let stats : outboundStats :=
        { Tag := tag, TotalAttempts := 0, SuccessCount := 0, FailureCount := 0,
          LastSuccess := 0, LastFailure := 0, LastError := none, ConsecutiveFailures := 0 }
      (t.put tag stats, stats)

/-- The method `outboundStats.RecordSuccess`. -/
def outboundStats.RecordSuccess (s : outboundStats) (now : Int) : outboundStats :=
  { s with
    TotalAttempts := Group.wrapInt64 (s.TotalAttempts + 1)
    SuccessCount := Group.wrapInt64 (s.SuccessCount + 1)
    LastSuccess := now
    ConsecutiveFailures := 0 }

/-- The method `outboundStats.RecordFailure`. -/
def outboundStats.RecordFailure (s : outboundStats) (err : Option String) (now : Int) :
    outboundStats :=
  { s with
    TotalAttempts := Group.wrapInt64 (s.TotalAttempts + 1)
    FailureCount := Group.wrapInt64 (s.FailureCount + 1)
    LastFailure := now
    ConsecutiveFailures := Group.wrapInt32 (s.ConsecutiveFailures + 1)
    LastError :=
      match err with
      | some msg => some msg
      | none => s.LastError }

/-- The method `outboundStats.GetStatus`; `now1` and `now2` are the two
readings of the clock. -/
def outboundStats.GetStatus (s : outboundStats) (now1 now2 : Int) : Int :=
  if s.ConsecutiveFailures ≥ 1 then 2
  else if s.LastSuccess > 0 ∧ now1 - s.LastSuccess < 30 then 1
  else if s.LastFailure > 0 ∧ now2 - s.LastFailure < 10 then 0
  else 0

/-- The method `outboundStats.GetConsecutiveFailures`. -/
def outboundStats.GetConsecutiveFailures (s : outboundStats) : Int :=
  s.ConsecutiveFailures

/-- The method `outboundStats.GetStats`. -/
def outboundStats.GetStats (s : outboundStats) : Int × Int × Int :=
  (s.TotalAttempts, s.SuccessCount, s.FailureCount)

/-- What a package function leaves behind: the tracker afterwards, the lines
given to `log.Printf`, and the returned value. -/
structure Tracked (α : Type) where
  tracker : outboundTracker
  log : List String
  value : α

/-- The function `RecordOutboundSuccess`. -/
def RecordOutboundSuccess (t : outboundTracker) (tag : String) (now : Int) : Tracked Unit :=
  let (t1, stats) := t.GetOrCreateStats tag
  { tracker := t1.put tag (stats.RecordSuccess now)
    log := ["✅ [Tracker] " ++ tag ++ " 连接成功"]
    value := () }

/-- The function `RecordOutboundFailure`. -/
def RecordOutboundFailure (t : outboundTracker) (tag : String) (err : Option String)
    (now : Int) : Tracked Unit :=
  let (t1, stats) := t.GetOrCreateStats tag
  let stats1 := stats.RecordFailure err now
  { tracker := t1.put tag stats1
    log := ["❌ [Tracker] " ++ tag ++ " 连接失败 (连续: " ++
      toString stats1.GetConsecutiveFailures ++ ", 错误: " ++ err.getD "<nil>" ++ ")"]
    value := () }

/-- The function `GetOutboundStatus`. -/
def GetOutboundStatus (t : outboundTracker) (tag : String) (now1 now2 : Int) : Tracked Int :=
  let (t1, stats) := t.GetOrCreateStats tag
  { tracker := t1, log := [], value := stats.GetStatus now1 now2 }

/-- The function `GetConsecutiveFailures`. -/
def GetConsecutiveFailures (t : outboundTracker) (tag : String) : Tracked Int :=
  let (t1, stats) := t.GetOrCreateStats tag
  { tracker := t1, log := [], value := stats.GetConsecutiveFailures }

/-- The function `GetOutboundStats`. -/
def GetOutboundStats (t : outboundTracker) (tag : String) : Tracked (Int × Int × Int) :=
  let (t1, stats) := t.GetOrCreateStats tag
  { tracker := t1, log := [], value := stats.GetStats }

/-- A recording call of the host process, with the clock reading it sees. -/
inductive Call where
  | success (tag : String) (now : Int)
  | failure (tag : String) (err : Option String) (now : Int)
  deriving DecidableEq, Repr

/-- The tracker after one recording call. -/
def record (t : outboundTracker) : Call → outboundTracker
  | Call.success tag now => (RecordOutboundSuccess t tag now).tracker
  | Call.failure tag err now => (RecordOutboundFailure t tag err now).tracker

/-- The tracker after a sequence of recording calls, first to last. -/
def recordAll (t : outboundTracker) (calls : List Call) : outboundTracker :=
  calls.foldl record t

/-- The number of `RecordOutboundSuccess` calls for `tag` in a sequence. -/
def successCalls (tag : String) (calls : List Call) : Nat :=
  calls.countP (fun c =>
    match c with
    | Call.success t _ => t = tag
    | Call.failure _ _ _ => false)

/-- The number of `RecordOutboundFailure` calls for `tag` in a sequence. -/
def failureCalls (tag : String) (calls : List Call) : Nat :=
  calls.countP (fun c =>
    match c with
    | Call.success _ _ => false
    | Call.failure t _ _ => t = tag)

/-- Whether a call is `RecordOutboundSuccess` for `tag`. -/
def Call.isSuccessFor (tag : String) : Call → Bool
  | Call.success t _ => t = tag
  | Call.failure _ _ _ => false

/-- The calls made after the most recent `RecordOutboundSuccess` for `tag`,
all of them when there was none. -/
def sinceLastSuccess (tag : String) (calls : List Call) : List Call :=
  (calls.reverse.takeWhile (fun c => !c.isSuccessFor tag)).reverse

/-- The number of `RecordOutboundFailure` calls for `tag` made after its most
recent `RecordOutboundSuccess`. -/
def failuresSinceLastSuccess (tag : String) (calls : List Call) : Nat :=
  failureCalls tag (sinceLastSuccess tag calls)

/-- The record the tracker holds for `tag` once the tag has been referenced. -/
def statsOf (t : outboundTracker) (tag : String) : outboundStats :=
  (t.GetOrCreateStats tag).2

end Tracker

namespace Group

/-! ## Machine integers and slices: lemmas -/

theorem wrapInt32_of_isInt32 {x : Int} (h : IsInt32 x) : wrapInt32 x = x := by
  unfold IsInt32 at h
  unfold wrapInt32
  omega

theorem wrapInt32_isInt32 (x : Int) : IsInt32 (wrapInt32 x) := by
  unfold IsInt32 wrapInt32
  omega

theorem wrapInt32_natCast {j : Nat} (h : j < 2147483648) : wrapInt32 (j : Int) = (j : Int) := by
  unfold wrapInt32
  omega

theorem index?_natCast {α : Type} (xs : List α) (i : Nat) : index? xs (i : Int) = xs[i]? := by
  unfold index?
  simp

theorem store?_natCast (xs : List Int) (i : Nat) (v : Int) (h : i < xs.length) :
    store? xs (i : Int) v = some (xs.set i v) := by
  unfold store?
  simp [h]

theorem getElem?_counter {f : Failover} {i : Nat} (h : i < f.consecutiveFailures.length) :
    f.consecutiveFailures[i]? = some (counter f i) := by
  unfold counter
  simp [List.getD_eq_getElem?_getD, List.getElem?_eq_getElem h]

theorem counter_isInt32 {f : Failover} (hf : Started f) (i : Nat) : IsInt32 (counter f i) := by
  obtain ⟨-, -, -, -, -, -, -, hc⟩ := hf
  unfold counter
  by_cases h : i < f.consecutiveFailures.length
  · rw [List.getD_eq_getElem _ _ h]
    exact hc _ (List.getElem_mem h)
  · rw [List.getD_eq_default _ _ (by omega)]
    unfold IsInt32; omega

theorem counter_set_self (f : Failover) (i : Nat) (v : Int)
    (h : i < f.consecutiveFailures.length) :
    counter { f with consecutiveFailures := f.consecutiveFailures.set i v } i = v := by
  unfold counter
  simp [List.getD_eq_getElem?_getD, h]

theorem counter_set_ne (f : Failover) (i j : Nat) (v : Int) (h : j ≠ i) :
    counter { f with consecutiveFailures := f.consecutiveFailures.set i v } j = counter f j := by
  unfold counter
  simp [List.getD_eq_getElem?_getD, List.getElem?_set_ne (Ne.symm h)]

theorem counter_map_zero (f : Failover) (sel : Int) (j : Nat) :
    counter { f with consecutiveFailures := f.consecutiveFailures.map (fun _ => 0),
                     selected := sel } j = 0 := by
  unfold counter
  simp only [List.getD_eq_getElem?_getD, List.getElem?_map]
  cases f.consecutiveFailures[j]? <;> rfl

/-! ## Round-robin offsets -/

theorem rot_ne {n cur k : Nat} (hcur : cur < n) (hk1 : 1 ≤ k) (hk2 : k < n) :
    (cur + k) % n ≠ cur := by
  by_cases h : cur + k < n
  · rw [Nat.mod_eq_of_lt h]; omega
  · have e : cur + k = (cur + k - n) + n := by omega
    rw [e, Nat.add_mod_right, Nat.mod_eq_of_lt (by omega)]
    omega

theorem rot_surj {n cur j : Nat} (hcur : cur < n) (hj : j < n) (hne : j ≠ cur) :
    ∃ k, 1 ≤ k ∧ k < n ∧ (cur + k) % n = j := by
  by_cases h : cur < j
  · exact ⟨j - cur, by omega, by omega, by
      rw [show cur + (j - cur) = j by omega, Nat.mod_eq_of_lt hj]⟩
  · exact ⟨j + n - cur, by omega, by omega, by
      rw [show cur + (j + n - cur) = j + n by omega, Nat.add_mod_right, Nat.mod_eq_of_lt hj]⟩
theorem switchScan_spec (f : Failover) (cur : Nat)
    (hlen : f.consecutiveFailures.length = f.outbounds.length)
    (hn : 0 < f.outbounds.length) (is : List Nat) :
    (switchScan f cur is = some none ∧
      ∀ i ∈ is, f.maxFailures ≤ counter f ((cur + i) % f.outbounds.length)) ∨
    (∃ pre k post, is = pre ++ k :: post ∧
      switchScan f cur is = some (some ((cur + k) % f.outbounds.length)) ∧
      counter f ((cur + k) % f.outbounds.length) < f.maxFailures ∧
      ∀ i ∈ pre, f.maxFailures ≤ counter f ((cur + i) % f.outbounds.length)) := by
  induction is with
  | nil => left; simp [switchScan]
  | cons i rest ih =>
    have hlt : (cur + i) % f.outbounds.length < f.consecutiveFailures.length := by
      rw [hlen]; exact Nat.mod_lt _ hn
    by_cases hsat : f.maxFailures ≤ counter f ((cur + i) % f.outbounds.length)
    · rcases ih with ⟨h1, h2⟩ | ⟨pre, k, post, h1, h2, h3, h4⟩
      · left
        refine ⟨?_, ?_⟩
        · simp only [switchScan, getElem?_counter hlt, ge_iff_le, hsat, if_true, h1]
        · intro j hj
          rcases List.mem_cons.mp hj with rfl | hj
          · exact hsat
          · exact h2 j hj
      · right
        refine ⟨i :: pre, k, post, by simp [h1], ?_, h3, ?_⟩
        · simp only [switchScan, getElem?_counter hlt, ge_iff_le, hsat, if_true, h2]
        · intro j hj
          rcases List.mem_cons.mp hj with rfl | hj
          · exact hsat
          · exact h4 j hj
    · right
      refine ⟨[], i, rest, by simp, ?_, by omega, by simp⟩
      simp only [switchScan, getElem?_counter hlt, ge_iff_le, hsat, if_false]

theorem range'_split {n : Nat} {pre post : List Nat} {k : Nat}
    (h : List.range' 1 (n - 1) = pre ++ k :: post) :
    1 ≤ k ∧ k < n ∧ ∀ i, 1 ≤ i → i < k → i ∈ pre := by
  have hk : k ∈ List.range' 1 (n - 1) := by rw [h]; simp
  rw [List.mem_range'_1] at hk
  obtain ⟨m, hm, hpre, hpost⟩ := List.range'_eq_append_iff.mp h
  have hk' := (List.range'_eq_cons_iff.mp hpost.symm).1
  refine ⟨hk.1, by omega, ?_⟩
  intro i hi1 hi2
  rw [hpre, List.mem_range'_1]
  omega

/-- The two outcomes of `switchToNext` on a started engine. -/
theorem switchToNext_spec (f : Failover) (cur : Nat) (hf : Started f)
    (hcur : cur < f.tags.length) :
    ∃ fromNode, f.tags[cur]? = some fromNode ∧
    ((∃ k toNode, 1 ≤ k ∧ k < f.tags.length ∧
        counter f ((cur + k) % f.tags.length) < f.maxFailures ∧
        (∀ i, 1 ≤ i → i < k → f.maxFailures ≤ counter f ((cur + i) % f.tags.length)) ∧
        f.tags[(cur + k) % f.tags.length]? = some toNode ∧
        switchToNext f (cur : Int) = some {
          state := { f with selected := (((cur + k) % f.tags.length : Nat) : Int) }
          events :=
            [Event.log Level.warn ("🔄 switched from " ++ fromNode ++ " to " ++ toNode),
             Event.interrupt f.interruptExternalConnections]
            ++ notifySwitched f fromNode toNode
          value := () }) ∨
     ((∀ i, 1 ≤ i → i < f.tags.length →
          f.maxFailures ≤ counter f ((cur + i) % f.tags.length)) ∧
        switchToNext f (cur : Int) = some {
          state := { f with
            consecutiveFailures := f.consecutiveFailures.map (fun _ => 0)
            selected := 0 }
          events :=
            [Event.log Level.error "all outbounds failed, resetting and retry from primary",
             Event.interrupt f.interruptExternalConnections]
            ++ notifyAllFailed f
          value := () })) := by
  obtain ⟨-, h1, hmax, ho, hc, -, -, -⟩ := hf
  refine ⟨f.tags[cur], List.getElem?_eq_getElem hcur, ?_⟩
  have hscan := switchScan_spec f cur (hc.trans ho.symm) (by omega)
    (List.range' 1 (f.outbounds.length - 1))
  rw [ho] at hscan
  rcases hscan with ⟨hs, hall⟩ | ⟨pre, k, post, hsplit, hs, hk, hpre⟩
  · right
    refine ⟨?_, ?_⟩
    · intro i hi1 hi2
      exact hall i (by rw [List.mem_range'_1]; omega)
    · unfold switchToNext
      simp only [index?_natCast, List.getElem?_eq_getElem hcur, Int.toNat_ofNat, ho, hs]
  · left
    obtain ⟨hk1, hk2, hmem⟩ := range'_split hsplit
    have hj : (cur + k) % f.tags.length < f.tags.length := Nat.mod_lt _ (by omega)
    refine ⟨k, f.tags[(cur + k) % f.tags.length], hk1, hk2, hk,
      fun i hi1 hi2 => hpre i (hmem i hi1 hi2), List.getElem?_eq_getElem hj, ?_⟩
    unfold switchToNext
    simp only [index?_natCast, List.getElem?_eq_getElem hcur, Int.toNat_ofNat, ho, hs,
      List.getElem?_eq_getElem hj, wrapInt32_natCast (show (cur + k) % f.tags.length < 2147483648 by omega)]

/-! ## Started engines are closed under the engine's updates -/

theorem started_set_counter {f : Failover} (hf : Started f) (i : Nat) {v : Int}
    (hv : IsInt32 v) :
    Started { f with consecutiveFailures := f.consecutiveFailures.set i v } := by
  obtain ⟨h0, h1, h2, h3, h4, h5, h6, h7⟩ := hf
  refine ⟨h0, h1, h2, h3, by simpa using h4, h5, h6, ?_⟩
  intro c hc
  rcases List.mem_or_eq_of_mem_set hc with h | h
  · exact h7 c h
  · exact h ▸ hv

theorem started_selected {f : Failover} (hf : Started f) :
    ∃ i : Nat, f.selected = (i : Int) ∧ i < f.tags.length := by
  obtain ⟨-, -, -, -, -, h5, h6, -⟩ := hf
  refine ⟨f.selected.toNat, (Int.toNat_of_nonneg h5).symm, ?_⟩
  omega

theorem switchToNext_started {f : Failover} {cur : Nat} {sw : Ret Unit} (hf : Started f)
    (hcur : cur < f.tags.length) (h : switchToNext f (cur : Int) = some sw) :
    Started sw.state ∧ sw.state.tags = f.tags ∧ sw.state.outbounds = f.outbounds ∧
      sw.state.maxFailures = f.maxFailures := by
  obtain ⟨fromNode, -, hsp⟩ := switchToNext_spec f cur hf hcur
  obtain ⟨h0, h1, h2, h3, h4, h5, h6, h7⟩ := hf
  rcases hsp with ⟨k, toNode, hk1, hk2, -, -, -, hsw⟩ | ⟨-, hsw⟩
  · rw [hsw] at h
    cases h
    have hj : (cur + k) % f.tags.length < f.tags.length := Nat.mod_lt _ (by omega)
    refine ⟨⟨h0, h1, h2, h3, h4, ?_, ?_, h7⟩, rfl, rfl, rfl⟩
    · exact Int.natCast_nonneg _
    · show (((cur + k) % f.tags.length : Nat) : Int) < (f.tags.length : Int)
      exact_mod_cast hj
  · rw [hsw] at h
    cases h
    refine ⟨⟨h0, h1, h2, h3, by simpa using h4, le_refl _, ?_, ?_⟩, rfl, rfl, rfl⟩
    · show (0 : Int) < f.tags.length
      omega
    · intro c hc
      simp only [List.mem_map] at hc
      obtain ⟨_, _, rfl⟩ := hc
      unfold IsInt32; omega

/-! ## DialContext, case by case -/

/-- The engine after `f.consecutiveFailures[i].Add(1)`. -/
theorem addFailure_started {f : Failover} (hf : Started f) (i : Nat) :
    Started { f with consecutiveFailures :=
      f.consecutiveFailures.set i (wrapInt32 (counter f i + 1)) } :=
  started_set_counter hf i (wrapInt32_isInt32 _)

theorem DialContext_ok (f : Failover) (first retry : Nat → Except Error Conn)
    (isExternal : Bool) (network destination : String) (i : Nat) (conn : Conn)
    (hf : Started f) (hsel : f.selected = (i : Int)) (hok : first i = Except.ok conn) :
    DialContext f first retry isExternal network destination =
      some { state := { f with consecutiveFailures := f.consecutiveFailures.set i 0 }
             events := [Event.dialContext i network destination]
             value := Except.ok { conn := conn, isExternal := isExternal } } := by
  obtain ⟨-, h1, -, ho, hc, h0, hlt, -⟩ := hf
  rw [hsel] at hlt
  have hi : i < f.tags.length := by exact_mod_cast hlt
  obtain ⟨ob, hob⟩ : ∃ ob, f.outbounds[i]? = some ob :=
    ⟨f.outbounds[i], List.getElem?_eq_getElem (by omega)⟩
  unfold DialContext
  simp only [hsel, Int.toNat_ofNat, index?_natCast, hob, hok, store?_natCast _ _ _ (hc ▸ hi)]
  simp
  omega

theorem DialContext_below (f : Failover) (first retry : Nat → Except Error Conn)
    (isExternal : Bool) (network destination : String) (i : Nat) (err : Error)
    (hf : Started f) (hsel : f.selected = (i : Int)) (herr : first i = Except.error err)
    (hlow : wrapInt32 (counter f i + 1) < f.maxFailures) :
    ∃ selected, f.outbounds[i]? = some selected ∧
    DialContext f first retry isExternal network destination =
      some { state := { f with consecutiveFailures :=
                f.consecutiveFailures.set i (wrapInt32 (counter f i + 1)) }
             events := [Event.dialContext i network destination,
               Event.log Level.warn (dialFailedMsg selected.tag
                 (wrapInt32 (counter f i + 1)) f.maxFailures err)]
             value := Except.error err } := by
  obtain ⟨-, h1, -, ho, hc, h0, hlt, -⟩ := hf
  rw [hsel] at hlt
  have hi : i < f.tags.length := by exact_mod_cast hlt
  have hob : f.outbounds[i]? = some f.outbounds[i] := List.getElem?_eq_getElem (by omega)
  refine ⟨f.outbounds[i], hob, ?_⟩
  unfold DialContext
  have hge : ¬ ((i : Int) ≥ (f.outbounds.length : Int)) := by omega
  simp only [hsel, Int.toNat_ofNat, index?_natCast, hob, herr, getElem?_counter (hc ▸ hi),
    hge, if_false, ge_iff_le, not_le.mpr hlow, List.cons_append, List.nil_append]

theorem DialContext_retry (f : Failover) (first retry : Nat → Except Error Conn)
    (isExternal : Bool) (network destination : String) (i i' : Nat) (err : Error)
    (sw : Ret Unit)
    (hf : Started f) (hsel : f.selected = (i : Int)) (herr : first i = Except.error err)
    (hthr : f.maxFailures ≤ wrapInt32 (counter f i + 1))
    (hsw : switchToNext { f with consecutiveFailures :=
        f.consecutiveFailures.set i (wrapInt32 (counter f i + 1)) } (i : Int) = some sw)
    (hsel' : sw.state.selected = (i' : Int)) (hne : i' ≠ i) :
    ∃ selected, f.outbounds[i]? = some selected ∧
    DialContext f first retry isExternal network destination =
      match retry i' with
      | Except.ok conn =>
        some { state := { sw.state with
                 consecutiveFailures := sw.state.consecutiveFailures.set i' 0 }
               events := [Event.dialContext i network destination,
                 Event.log Level.warn (dialFailedMsg selected.tag
                   (wrapInt32 (counter f i + 1)) f.maxFailures err)] ++ sw.events ++
                 [Event.dialContext i' network destination]
               value := Except.ok { conn := conn, isExternal := isExternal } }
      | Except.error err2 =>
        some { state := sw.state
               events := [Event.dialContext i network destination,
                 Event.log Level.warn (dialFailedMsg selected.tag
                   (wrapInt32 (counter f i + 1)) f.maxFailures err)] ++ sw.events ++
                 [Event.dialContext i' network destination]
               value := Except.error err2 } := by
  have hf1 := addFailure_started hf i
  obtain ⟨-, h1, -, ho, hc, h0, hlt, -⟩ := hf
  rw [hsel] at hlt
  have hi : i < f.tags.length := by exact_mod_cast hlt
  obtain ⟨hsws, -, -, -⟩ := switchToNext_started hf1 hi hsw
  obtain ⟨-, -, -, ho', hc', -, hlt', -⟩ := hsws
  rw [hsel'] at hlt'
  have hi' : i' < sw.state.tags.length := by exact_mod_cast hlt'
  have hob : f.outbounds[i]? = some f.outbounds[i] := List.getElem?_eq_getElem (by omega)
  have hob' : sw.state.outbounds[i']? = some sw.state.outbounds[i'] :=
    List.getElem?_eq_getElem (by omega)
  refine ⟨f.outbounds[i], hob, ?_⟩
  unfold DialContext
  have hge : ¬ ((i : Int) ≥ (f.outbounds.length : Int)) := by omega
  have hsw' := hsw
  simp only [hsel] at hsw'
  simp only [hsel, Int.toNat_ofNat, index?_natCast, hob, herr, getElem?_counter (hc ▸ hi),
    hge, if_false, ge_iff_le, hthr, if_true, hsw', hsel', hob', store?_natCast _ _ _ (hc' ▸ hi')]
  have hcond : ((i' : Int) ≠ (i : Int) ∧ (i' : Int) < (sw.state.outbounds.length : Int)) := by
    refine ⟨by exact_mod_cast hne, ?_⟩
    rw [ho']; exact_mod_cast hi'
  rw [if_pos hcond]
  cases retry i' <;> rfl

theorem ListenPacket_state (f : Failover) (first retry : Nat → Except Error PacketConn)
    (isExternal : Bool) (network destination : String) :
    (ListenPacket f first retry isExternal destination).map (fun r => r.state) =
    (DialContext f (fun i => (first i).map (fun p => { id := p.id }))
      (fun i => (retry i).map (fun p => { id := p.id })) isExternal network destination).map
      (fun r => r.state) := by
  unfold ListenPacket DialContext
  simp only []
  split
  · rfl
  · cases index? f.outbounds f.selected with
    | none => rfl
    | some selected =>
      simp only []
      cases first f.selected.toNat with
      | ok conn =>
        simp only [Except.map]
        cases store? f.consecutiveFailures f.selected 0 <;> rfl
      | error err =>
        simp only [Except.map]
        cases index? f.consecutiveFailures f.selected with
        | none => rfl
        | some c =>
          simp only []
          split
          · cases switchToNext { f with consecutiveFailures :=
                f.consecutiveFailures.set f.selected.toNat (wrapInt32 (c + 1)) } f.selected with
            | none => rfl
            | some sw =>
              simp only []
              split
              · cases index? sw.state.outbounds sw.state.selected with
                | none => rfl
                | some _ =>
                  simp only []
                  cases retry sw.state.selected.toNat with
                  | ok conn =>
                    simp only [Except.map]
                    cases store? sw.state.consecutiveFailures sw.state.selected 0 <;> rfl
                  | error e2 => rfl
              · rfl
          · rfl

theorem switchToNext_total {f : Failover} {cur : Nat} (hf : Started f)
    (hcur : cur < f.tags.length) : ∃ sw, switchToNext f (cur : Int) = some sw := by
  obtain ⟨_, -, hsp⟩ := switchToNext_spec f cur hf hcur
  rcases hsp with ⟨_, _, -, -, -, -, -, hsw⟩ | ⟨-, hsw⟩
  · exact ⟨_, hsw⟩
  · exact ⟨_, hsw⟩

theorem DialContext_no_retry (f : Failover) (first retry : Nat → Except Error Conn)
    (isExternal : Bool) (network destination : String) (i : Nat) (err : Error)
    (sw : Ret Unit)
    (hf : Started f) (hsel : f.selected = (i : Int)) (herr : first i = Except.error err)
    (hthr : f.maxFailures ≤ wrapInt32 (counter f i + 1))
    (hsw : switchToNext { f with consecutiveFailures :=
        f.consecutiveFailures.set i (wrapInt32 (counter f i + 1)) } (i : Int) = some sw)
    (hsel' : sw.state.selected = (i : Int)) :
    ∃ selected, f.outbounds[i]? = some selected ∧
    DialContext f first retry isExternal network destination =
      some { state := sw.state
             events := [Event.dialContext i network destination,
               Event.log Level.warn (dialFailedMsg selected.tag
                 (wrapInt32 (counter f i + 1)) f.maxFailures err)] ++ sw.events
             value := Except.error err } := by
  obtain ⟨-, h1, -, ho, hc, h0, hlt, -⟩ := hf
  rw [hsel] at hlt
  have hi : i < f.tags.length := by exact_mod_cast hlt
  have hob : f.outbounds[i]? = some f.outbounds[i] := List.getElem?_eq_getElem (by omega)
  refine ⟨f.outbounds[i], hob, ?_⟩
  unfold DialContext
  have hge : ¬ ((i : Int) ≥ (f.outbounds.length : Int)) := by omega
  have hsw' := hsw
  simp only [hsel] at hsw'
  simp only [hsel, Int.toNat_ofNat, index?_natCast, hob, herr, getElem?_counter (hc ▸ hi),
    hge, if_false, ge_iff_le, hthr, if_true, hsw', hsel']
  rw [if_neg (by simp)]
  rfl

/-- The method `DialContext` keeps a started engine started, over the same tags. -/
theorem DialContext_started {f : Failover} {first retry : Nat → Except Error Conn}
    {isExternal : Bool} {network destination : String}
    {r : Ret (Except Error InterruptConn)} (hf : Started f)
    (h : DialContext f first retry isExternal network destination = some r) :
    Started r.state ∧ r.state.tags = f.tags := by
  obtain ⟨i, hsel, hi⟩ := started_selected hf
  cases hfirst : first i with
  | ok conn =>
    rw [DialContext_ok f first retry isExternal network destination i conn hf hsel hfirst] at h
    cases h
    exact ⟨started_set_counter hf i (by unfold IsInt32; omega), rfl⟩
  | error err =>
    by_cases hthr : f.maxFailures ≤ wrapInt32 (counter f i + 1)
    · have hf1 := addFailure_started hf i
      obtain ⟨sw, hsw⟩ := switchToNext_total hf1 hi
      obtain ⟨hsws, htags, -, -⟩ := switchToNext_started hf1 hi hsw
      obtain ⟨i', hsel', hi'⟩ := started_selected hsws
      by_cases hne : i' = i
      · subst hne
        obtain ⟨_, -, hd⟩ := DialContext_no_retry f first retry isExternal network destination
          i' err sw hf hsel hfirst hthr hsw hsel'
        rw [hd] at h
        cases h
        exact ⟨hsws, htags⟩
      · obtain ⟨_, -, hd⟩ := DialContext_retry f first retry isExternal network destination
          i i' err sw hf hsel hfirst hthr hsw hsel' hne
        rw [hd] at h
        cases hretry : retry i' with
        | ok conn =>
          rw [hretry] at h
          cases h
          exact ⟨started_set_counter hsws i' (by unfold IsInt32; omega), htags⟩
        | error e2 =>
          rw [hretry] at h
          cases h
          exact ⟨hsws, htags⟩
    · obtain ⟨_, -, hd⟩ := DialContext_below f first retry isExternal network destination
        i err hf hsel hfirst (by omega)
      rw [hd] at h
      cases h
      exact ⟨addFailure_started hf i, rfl⟩

/-- The method `ListenPacket` keeps a started engine started, over the same tags. -/
theorem ListenPacket_started {f : Failover} {first retry : Nat → Except Error PacketConn}
    {isExternal : Bool} {destination : String}
    {r : Ret (Except Error InterruptPacketConn)} (hf : Started f)
    (h : ListenPacket f first retry isExternal destination = some r) :
    Started r.state ∧ r.state.tags = f.tags := by
  have hst := ListenPacket_state f first retry isExternal "udp" destination
  rw [h] at hst
  cases hd : DialContext f (fun i => (first i).map (fun p => { id := p.id }))
      (fun i => (retry i).map (fun p => { id := p.id })) isExternal "udp" destination with
  | none => rw [hd] at hst; cases hst
  | some r' =>
    rw [hd] at hst
    simp only [Option.map_some', Option.some.injEq] at hst
    rw [hst]
    exact DialContext_started hf hd

/-- The method `checkPrimaryRecovery` keeps a started engine started, over the same tags. -/
theorem checkPrimaryRecovery_started {f : Failover} {urlTest : Nat → Except Error Nat}
    {dial : Nat → Except Error Conn} {ctxErrAfter : Bool} {r : Ret Unit} (hf : Started f)
    (h : checkPrimaryRecovery f urlTest dial ctxErrAfter = some r) :
    Started r.state ∧ r.state.tags = f.tags := by
  unfold checkPrimaryRecovery at h
  split at h
  · cases h; exact ⟨hf, rfl⟩
  · split at h
    · cases h; exact ⟨hf, rfl⟩
    · split at h
      · cases h; exact ⟨hf, rfl⟩
      · simp only [] at h
        split at h
        · cases h; exact ⟨hf, rfl⟩
        · split at h
          · cases h; exact ⟨hf, rfl⟩
          · split at h
            · cases h
            · rename_i cs hcs
              cases h
              unfold store? at hcs
              split at hcs
              · cases hcs
                obtain ⟨h0, h1, h2, h3, h4, h5, h6, h7⟩ := hf
                refine ⟨⟨h0, h1, h2, h3, by simpa using h4, le_refl _, ?_, ?_⟩, rfl⟩
                · show (0 : Int) < (f.tags.length : Int)
                  omega
                · intro c hc
                  rcases List.mem_or_eq_of_mem_set hc with hm | hm
                  · exact h7 c hm
                  · subst hm
                    unfold IsInt32; omega
              · cases hcs

/-- Every operation keeps a started engine started, over the same tags. -/
theorem Step_started {s t : Failover} (hs : Started s) (h : Step s t) :
    Started t ∧ t.tags = s.tags := by
  cases h with
  | dialContext first retry isExternal network destination r h => exact DialContext_started hs h
  | listenPacket first retry isExternal destination r h => exact ListenPacket_started hs h
  | switchToNext currentIdx r h =>
    have hcur : ∃ cur : Nat, currentIdx = (cur : Int) ∧ cur < s.tags.length := by
      unfold switchToNext index? at h
      by_cases hneg : currentIdx < 0
      · simp [hneg] at h
      · refine ⟨currentIdx.toNat, by omega, ?_⟩
        by_contra hlt
        simp [hneg, List.getElem?_eq_none (not_lt.mp hlt)] at h
    obtain ⟨cur, rfl, hcur⟩ := hcur
    obtain ⟨h1, h2, -, -⟩ := switchToNext_started hs hcur h
    exact ⟨h1, h2⟩
  | checkPrimaryRecovery urlTest dial ctxErrAfter r h => exact checkPrimaryRecovery_started hs h
  | newConnectionEx =>
    have : (NewConnectionEx s).state = s := by
      unfold NewConnectionEx
      split
      · rfl
      · split <;> rfl
    rw [this]; exact ⟨hs, rfl⟩
  | newPacketConnectionEx =>
    have : (NewPacketConnectionEx s).state = s := by
      unfold NewPacketConnectionEx
      split
      · rfl
      · split <;> rfl
    rw [this]; exact ⟨hs, rfl⟩
  | close exited =>
    unfold Close
    split
    · exact ⟨hs, rfl⟩
    · obtain ⟨h0, h1, h2, h3, h4, h5, h6, h7⟩ := hs
      exact ⟨⟨h0, h1, h2, h3, h4, h5, h6, h7⟩, rfl⟩

theorem resolveTags_length (outboundManager : String → Option Outbound) (tags : List String)
    (i : Nat) (acc outbounds : List Outbound)
    (h : resolveTags outboundManager tags i acc = (outbounds, none)) :
    outbounds.length = acc.length + tags.length := by
  induction tags generalizing i acc with
  | nil =>
    simp only [resolveTags, Prod.mk.injEq, and_true] at h
    simp [h]
  | cons tag rest ih =>
    unfold resolveTags at h
    cases hm : outboundManager tag with
    | none => simp [hm] at h
    | some detour =>
      simp only [hm] at h
      have := ih _ _ h
      simp at this ⊢
      omega

/-- What a successful `Start` does to the engine. -/
theorem Start_ok {f0 : Failover} {outboundManager : String → Option Outbound}
    {r : Ret (Except Error Unit)}
    (hstart : Start f0 outboundManager = some r) (hok : r.value = Except.ok ()) :
    r.state = { f0 with
      outbounds := r.state.outbounds
      selected := 0
      started := true
      recoveryTicker := some true
      wg := f0.wg + 1 } ∧
    r.state.outbounds.length = f0.tags.length := by
  unfold Start at hstart
  generalize hres : resolveTags outboundManager f0.tags 0 [] = res at hstart
  obtain ⟨outbounds, failed⟩ := res
  cases failed with
  | some p =>
    obtain ⟨i, tag⟩ := p
    simp only [Option.some.injEq] at hstart
    subst hstart
    cases hok
  | none =>
    simp only [] at hstart
    by_cases hint : f0.recoveryInterval ≤ 0
    · simp only [hint, if_true] at hstart
      cases hstart
    · simp only [hint, if_false] at hstart
      cases htag : f0.tags[0]? with
      | none => simp only [htag] at hstart; cases hstart
      | some primaryTag =>
        simp only [htag, Option.some.injEq] at hstart
        subst hstart
        have hl := resolveTags_length _ _ _ _ _ hres
        exact ⟨rfl, by simpa using hl⟩

/-- A successful `Start` after `NewFailover` yields a started engine over the configured tags. -/
theorem Start_started {ctx : Context} {options : FailoverOutboundOptions}
    {outboundManager : String → Option Outbound} {f0 : Failover}
    {r : Ret (Except Error Unit)} (hn : options.Outbounds.length ≤ 2147483648)
    (hnew : NewFailover ctx options = Except.ok f0)
    (hstart : Start f0 outboundManager = some r) (hok : r.value = Except.ok ()) :
    Started r.state ∧ r.state.tags = options.Outbounds := by
  obtain ⟨hst, hlen⟩ := Start_ok hstart hok
  unfold NewFailover at hnew
  split at hnew
  · cases hnew
  · rename_i hne
    simp only [Except.ok.injEq] at hnew
    subst hnew
    rw [hst]
    refine ⟨⟨rfl, ?_, hn, hlen, by simp, le_refl _, ?_, ?_⟩, rfl⟩
    · show 1 ≤ options.Outbounds.length
      omega
    · show (0 : Int) < (options.Outbounds.length : Int)
      omega
    · intro c hc
      have := List.eq_of_mem_replicate hc
      subst this
      unfold IsInt32; omega

/-- The outcome of `switchToNext` in terms of the other candidates' counters:
with some other candidate below the threshold only the selection changes, and
it moves to such a candidate; otherwise every counter is cleared and the
selection is 0. -/
theorem switchToNext_cases {f : Failover} {cur : Nat} {sw : Ret Unit} (hf : Started f)
    (hcur : cur < f.tags.length) (h : switchToNext f (cur : Int) = some sw) :
    ((∃ j, j < f.tags.length ∧ j ≠ cur ∧ counter f j < f.maxFailures) →
      ∃ j, j < f.tags.length ∧ j ≠ cur ∧ counter f j < f.maxFailures ∧
        sw.state = { f with selected := (j : Int) }) ∧
    ((∀ j, j < f.tags.length → j ≠ cur → f.maxFailures ≤ counter f j) →
      sw.state = { f with
        consecutiveFailures := f.consecutiveFailures.map (fun _ => 0)
        selected := 0 }) := by
  obtain ⟨fromNode, -, hsp⟩ := switchToNext_spec f cur hf hcur
  have hn : 0 < f.tags.length := by omega
  rcases hsp with ⟨k, toNode, hk1, hk2, hk, -, -, hsw⟩ | ⟨hall, hsw⟩
  · rw [hsw] at h
    cases h
    refine ⟨fun _ => ⟨(cur + k) % f.tags.length, Nat.mod_lt _ hn, rot_ne hcur hk1 hk2, hk, rfl⟩, ?_⟩
    intro hsat
    have := hsat _ (Nat.mod_lt _ hn) (rot_ne hcur hk1 hk2)
    omega
  · rw [hsw] at h
    cases h
    refine ⟨?_, fun _ => rfl⟩
    rintro ⟨j, hj, hne, hlow⟩
    obtain ⟨k, hk1, hk2, rfl⟩ := rot_surj hcur hj hne
    have := hall k hk1 hk2
    omega

/-! ## Stream dial: claims -/

/-- C1 (amended): on a started engine, when the dial against the selected
candidate `i` fails with `e1`, the failure count reaches `maxFailures`,
`switchToNext` moves the selection to `i' ≠ i` and the single retry against
`i'` fails with `e2`, `DialContext` returns `e2`, the error of the retry. -/
theorem DialContext_retry_failure_returns_retry_error (f : Failover)
    (first retry : Nat → Except Error Conn) (isExternal : Bool)
    (network destination : String) (i i' : Nat) (e1 e2 : Error) (sw : Ret Unit)
    (hf : Started f) (hsel : f.selected = (i : Int)) (herr : first i = Except.error e1)
    (hthr : f.maxFailures ≤ wrapInt32 (counter f i + 1))
    (hsw : switchToNext { f with consecutiveFailures :=
        f.consecutiveFailures.set i (wrapInt32 (counter f i + 1)) } (i : Int) = some sw)
    (hsel' : sw.state.selected = (i' : Int)) (hne : i' ≠ i)
    (hretry : retry i' = Except.error e2) :
    ∃ r, DialContext f first retry isExternal network destination = some r ∧
      r.value = Except.error e2 := by
  obtain ⟨selected, -, h⟩ := DialContext_retry f first retry isExternal network destination
    i i' e1 sw hf hsel herr hthr hsw hsel' hne
  rw [hretry] at h
  exact ⟨_, h, rfl⟩

/-- C1, witness: scenario S3 with errors `e1` and `e2`. -/
theorem DialContext_retry_failure_returns_retry_error_witness :
    Started engineAB ∧
    ∃ r, DialContext engineAB (failWith "e1") (failWith "e2") false "tcp" "example.org:443"
        = some r ∧ r.value = Except.error "e2" :=
  ⟨by decide, DialContext_retry_failure_returns_retry_error engineAB (failWith "e1") (failWith "e2")
    false "tcp" "example.org:443" 0 1 "e1" "e2"
    { state := { engineAB with consecutiveFailures := [1, 0], selected := 1 }
      events :=
        [Event.log Level.warn "🔄 switched from A to B", Event.interrupt false,
         Event.log Level.warn "🔔 calling OnNodeSwitched callback: A -> B",
         Event.onNodeSwitched "A" "B"]
      value := () }
    (by decide) rfl rfl (by decide) rfl rfl (by decide) rfl⟩

/-- C1, counterexample: in scenario S3 (`outbounds=[A,B]`, `max_failures=1`, A
fails with `e1`, the switch moves to B, B fails with `e2`) the caller gets
`e2`, not the original error `e1`. -/
theorem DialContext_original_error_not_returned :
    Started engineAB ∧ engineAB.selected = 0 ∧
    engineAB.maxFailures ≤ wrapInt32 (counter engineAB 0 + 1) ∧
    (switchToNext { engineAB with consecutiveFailures :=
        engineAB.consecutiveFailures.set 0 (wrapInt32 (counter engineAB 0 + 1)) } 0).map
      (fun sw => sw.state.selected) = some 1 ∧
    (DialContext engineAB (failWith "e1") (failWith "e2") false "tcp" "example.org:443").map
      (fun r => r.value) = some (Except.error "e2") ∧
    (Except.error "e2" : Except Error InterruptConn) ≠ Except.error "e1" :=
  ⟨by decide, rfl, by decide, rfl, rfl, by simp⟩

/-- C2 (amended): in the situation of C1 the failed retry is not counted.
The engine is left exactly as `switchToNext` left it, with the selection on
`i'`; `consecutiveFailures[i']` is its value from before the call when some
other candidate was still below the threshold (the switch branch), and after
the all-failed reset `i'` is 0 and every counter is 0. -/
theorem DialContext_retry_failure_not_counted (f : Failover)
    (first retry : Nat → Except Error Conn) (isExternal : Bool)
    (network destination : String) (i i' : Nat) (e1 e2 : Error) (sw : Ret Unit)
    (hf : Started f) (hsel : f.selected = (i : Int)) (herr : first i = Except.error e1)
    (hthr : f.maxFailures ≤ wrapInt32 (counter f i + 1))
    (hsw : switchToNext { f with consecutiveFailures :=
        f.consecutiveFailures.set i (wrapInt32 (counter f i + 1)) } (i : Int) = some sw)
    (hsel' : sw.state.selected = (i' : Int)) (hne : i' ≠ i)
    (hretry : retry i' = Except.error e2) :
    ∃ r, DialContext f first retry isExternal network destination = some r ∧
      r.state = sw.state ∧ r.state.selected = (i' : Int) ∧
      ((∃ j, j < f.tags.length ∧ j ≠ i ∧ counter f j < f.maxFailures) →
        counter r.state i' = counter f i') ∧
      ((∀ j, j < f.tags.length → j ≠ i → f.maxFailures ≤ counter f j) →
        i' = 0 ∧ ∀ j, counter r.state j = 0) := by
  obtain ⟨selected, -, h⟩ := DialContext_retry f first retry isExternal network destination
    i i' e1 sw hf hsel herr hthr hsw hsel' hne
  rw [hretry] at h
  have hi : i < f.tags.length := by
    obtain ⟨-, -, -, -, -, -, hlt, -⟩ := hf
    rw [hsel] at hlt
    exact_mod_cast hlt
  obtain ⟨hsome, hnone⟩ := switchToNext_cases (addFailure_started hf i) hi hsw
  refine ⟨_, h, rfl, hsel', ?_, ?_⟩
  · rintro ⟨j, hj, hji, hlow⟩
    obtain ⟨j', -, -, -, hst⟩ := hsome ⟨j, hj, hji, by rwa [counter_set_ne f i j _ hji]⟩
    show counter sw.state i' = counter f i'
    rw [hst]
    exact counter_set_ne f i i' _ hne
  · intro hall
    have hst := hnone (fun j hj hji => by rw [counter_set_ne f i j _ hji]; exact hall j hj hji)
    have h0 : sw.state.selected = 0 := by rw [hst]
    refine ⟨by rw [hsel'] at h0; exact_mod_cast h0, ?_⟩
    intro j
    show counter sw.state j = 0
    rw [hst]
    exact counter_map_zero _ 0 j

/-- C2, witness: scenario S3. -/
theorem DialContext_retry_failure_not_counted_witness :
    Started engineAB ∧
    ∃ r, DialContext engineAB (failWith "e1") (failWith "e2") false "tcp" "example.org:443"
        = some r ∧
      r.state = { engineAB with consecutiveFailures := [1, 0], selected := 1 } ∧
      r.state.selected = ((1 : Nat) : Int) ∧
      ((∃ j, j < engineAB.tags.length ∧ j ≠ 0 ∧ counter engineAB j < engineAB.maxFailures) →
        counter r.state 1 = counter engineAB 1) ∧
      ((∀ j, j < engineAB.tags.length → j ≠ 0 → engineAB.maxFailures ≤ counter engineAB j) →
        1 = 0 ∧ ∀ j, counter r.state j = 0) :=
  ⟨by decide, DialContext_retry_failure_not_counted engineAB (failWith "e1") (failWith "e2")
    false "tcp" "example.org:443" 0 1 "e1" "e2"
    { state := { engineAB with consecutiveFailures := [1, 0], selected := 1 }
      events :=
        [Event.log Level.warn "🔄 switched from A to B", Event.interrupt false,
         Event.log Level.warn "🔔 calling OnNodeSwitched callback: A -> B",
         Event.onNodeSwitched "A" "B"]
      value := () }
    (by decide) rfl rfl (by decide) rfl rfl (by decide) rfl⟩

/-- C2, counterexample: in scenario S3 the failed retry against B leaves
`consecutiveFailures[B]` at 0, its value before the call, with the selection
on B. -/
theorem DialContext_retry_failure_leaves_counter :
    Started engineAB ∧ engineAB.selected = 0 ∧ counter engineAB 1 = 0 ∧
    (DialContext engineAB (failWith "e1") (failWith "e2") false "tcp" "example.org:443").map
      (fun r => (r.value, r.state.selected, counter r.state 1)) =
      some (Except.error "e2", 1, 0) :=
  ⟨by decide, rfl, rfl, rfl⟩

/-- C3: on a started engine with selection `i`, whatever the counters hold, a
delegated dial against `i` that succeeds with `conn` makes `DialContext` return
`conn` (wrapped for interrupt), leaves `consecutiveFailures[i] = 0`, changes
neither the selection nor any other counter nor any other field, and the only
effect is the one delegated dial: no interrupt, no platform callback. -/
theorem DialContext_success_resets_counter (f : Failover)
    (first retry : Nat → Except Error Conn) (isExternal : Bool)
    (network destination : String) (i : Nat) (conn : Conn)
    (hf : Started f) (hsel : f.selected = (i : Int)) (hok : first i = Except.ok conn) :
    ∃ r, DialContext f first retry isExternal network destination = some r ∧
      r.value = Except.ok { conn := conn, isExternal := isExternal } ∧
      counter r.state i = 0 ∧
      r.state.selected = f.selected ∧
      (∀ j, j ≠ i → counter r.state j = counter f j) ∧
      r.state = { f with consecutiveFailures := f.consecutiveFailures.set i 0 } ∧
      r.events = [Event.dialContext i network destination] := by
  have hi : i < f.consecutiveFailures.length := by
    obtain ⟨-, -, -, -, hc, -, hlt, -⟩ := hf
    rw [hsel] at hlt
    rw [hc]
    exact_mod_cast hlt
  refine ⟨_, DialContext_ok f first retry isExternal network destination i conn hf hsel hok,
    rfl, counter_set_self f i 0 hi, rfl, fun j hj => counter_set_ne f i j 0 hj, rfl, rfl⟩

/-- C3, witness: B is selected with two recorded failures and its dial succeeds. -/
theorem DialContext_success_resets_counter_witness :
    Started engineRecovering ∧
    ∃ r, DialContext engineRecovering (connect 7) (connect 8) true
        "tcp" "example.org:443" = some r ∧
      r.value = Except.ok { conn := { id := 7 }, isExternal := true } ∧
      counter r.state 1 = 0 ∧
      r.state.selected = engineRecovering.selected ∧
      (∀ j, j ≠ 1 → counter r.state j = counter engineRecovering j) ∧
      r.state = { engineRecovering with consecutiveFailures :=
        engineRecovering.consecutiveFailures.set 1 0 } ∧
      r.events = [Event.dialContext 1 "tcp" "example.org:443"] :=
  ⟨by decide, DialContext_success_resets_counter engineRecovering
    (connect 7) (connect 8) true "tcp" "example.org:443" 1 { id := 7 } (by decide) rfl rfl⟩

/-- C4 (amended): on a started engine with selection `i`, for every delegate
error `e` (a cancellation error is an error like any other): if the dial
against `i` fails with `e`, `consecutiveFailures[i] + 1 < maxFailures`, and
`consecutiveFailures[i]` is not the largest `int32`, then afterwards
`consecutiveFailures[i]` is larger by exactly 1, the selection, the other
counters and every other field are unchanged, the effects are the delegated
dial and one warning (no interrupt, no platform callback), and the caller
gets exactly `e`. -/
theorem DialContext_failure_below_threshold (f : Failover)
    (first retry : Nat → Except Error Conn) (isExternal : Bool)
    (network destination : String) (i : Nat) (e : Error)
    (hf : Started f) (hsel : f.selected = (i : Int)) (herr : first i = Except.error e)
    (hlow : counter f i + 1 < f.maxFailures) (hfit : counter f i ≠ 2147483647) :
    ∃ r selected, f.outbounds[i]? = some selected ∧
      DialContext f first retry isExternal network destination = some r ∧
      r.value = Except.error e ∧
      counter r.state i = counter f i + 1 ∧
      r.state.selected = f.selected ∧
      (∀ j, j ≠ i → counter r.state j = counter f j) ∧
      r.state = { f with consecutiveFailures :=
        f.consecutiveFailures.set i (counter f i + 1) } ∧
      r.events = [Event.dialContext i network destination,
        Event.log Level.warn (dialFailedMsg selected.tag (counter f i + 1) f.maxFailures e)] := by
  have hi : i < f.consecutiveFailures.length := by
    obtain ⟨-, -, -, -, hc, -, hlt, -⟩ := hf
    rw [hsel] at hlt
    rw [hc]
    exact_mod_cast hlt
  have hw : wrapInt32 (counter f i + 1) = counter f i + 1 := by
    have := counter_isInt32 hf i
    apply wrapInt32_of_isInt32
    unfold IsInt32 at this ⊢
    omega
  obtain ⟨selected, hob, h⟩ := DialContext_below f first retry isExternal network destination
    i e hf hsel herr (by rw [hw]; exact hlow)
  rw [hw] at h
  exact ⟨_, selected, hob, h, rfl, counter_set_self f i _ hi, rfl,
    fun j hj => counter_set_ne f i j _ hj, rfl, rfl⟩

/-- C4, witness: scenario S1, first failure of A, by cancellation. -/
theorem DialContext_failure_below_threshold_witness :
    Started engineABC ∧
    ∃ r selected, engineABC.outbounds[0]? = some selected ∧
      DialContext engineABC (failWith "context canceled")
        (failWith "unused") false "tcp" "example.org:443" = some r ∧
      r.value = Except.error "context canceled" ∧
      counter r.state 0 = counter engineABC 0 + 1 ∧
      r.state.selected = engineABC.selected ∧
      (∀ j, j ≠ 0 → counter r.state j = counter engineABC j) ∧
      r.state = { engineABC with consecutiveFailures :=
        engineABC.consecutiveFailures.set 0 (counter engineABC 0 + 1) } ∧
      r.events = [Event.dialContext 0 "tcp" "example.org:443",
        Event.log Level.warn (dialFailedMsg selected.tag
          (counter engineABC 0 + 1)
          engineABC.maxFailures "context canceled")] :=
  ⟨by decide, DialContext_failure_below_threshold engineABC
    (failWith "context canceled") (failWith "unused") false "tcp" "example.org:443" 0
    "context canceled" (by decide) rfl rfl (by decide) (by decide)⟩

/-- C4, counterexample: with `consecutiveFailures[A] = 2147483647` and a
threshold of 2147483650, a failed dial against A is below the threshold, yet
the 32-bit counter wraps to -2147483648 instead of growing by 1. -/
theorem DialContext_failure_counter_wraps :
    Started engineAtMaxInt32 ∧ engineAtMaxInt32.selected = 0 ∧
    counter engineAtMaxInt32 0 = 2147483647 ∧
    counter engineAtMaxInt32 0 + 1 < engineAtMaxInt32.maxFailures ∧
    (DialContext engineAtMaxInt32 (failWith "e") (failWith "e") false "tcp"
      "example.org:443").map (fun r => (r.value, counter r.state 0)) =
      some (Except.error "e", -2147483648) :=
  ⟨by decide, rfl, rfl, by decide, rfl⟩

/-- C5 (amended): on a started engine, when the dial against the selected
candidate `i` fails and brings the failure count to `maxFailures`,
`switchToNext` moves the selection to `i' ≠ i` and the retry against `i'`
succeeds with `conn`, `DialContext` returns `conn` (wrapped for interrupt),
the selection is `i'` and `consecutiveFailures[i'] = 0`. When some other
candidate was below the threshold (the switch branch),
`consecutiveFailures[i]` keeps the value reached by the failure; when none
was (the all-failed reset), `i'` is 0 and every counter, that of `i`
included, is 0. -/
theorem DialContext_retry_success (f : Failover)
    (first retry : Nat → Except Error Conn) (isExternal : Bool)
    (network destination : String) (i i' : Nat) (e1 : Error) (conn : Conn) (sw : Ret Unit)
    (hf : Started f) (hsel : f.selected = (i : Int)) (herr : first i = Except.error e1)
    (hthr : f.maxFailures ≤ wrapInt32 (counter f i + 1))
    (hsw : switchToNext { f with consecutiveFailures :=
        f.consecutiveFailures.set i (wrapInt32 (counter f i + 1)) } (i : Int) = some sw)
    (hsel' : sw.state.selected = (i' : Int)) (hne : i' ≠ i)
    (hretry : retry i' = Except.ok conn) :
    ∃ r, DialContext f first retry isExternal network destination = some r ∧
      r.value = Except.ok { conn := conn, isExternal := isExternal } ∧
      r.state.selected = (i' : Int) ∧
      counter r.state i' = 0 ∧
      ((∃ j, j < f.tags.length ∧ j ≠ i ∧ counter f j < f.maxFailures) →
        counter r.state i = wrapInt32 (counter f i + 1)) ∧
      ((∀ j, j < f.tags.length → j ≠ i → f.maxFailures ≤ counter f j) →
        i' = 0 ∧ ∀ j, counter r.state j = 0) := by
  obtain ⟨selected, -, h⟩ := DialContext_retry f first retry isExternal network destination
    i i' e1 sw hf hsel herr hthr hsw hsel' hne
  rw [hretry] at h
  have hi : i < f.tags.length := by
    obtain ⟨-, -, -, -, -, -, hlt, -⟩ := hf
    rw [hsel] at hlt
    exact_mod_cast hlt
  have hf1 := addFailure_started hf i
  obtain ⟨hsws, -, -, -⟩ := switchToNext_started hf1 hi hsw
  have hi' : i' < sw.state.consecutiveFailures.length := by
    obtain ⟨-, -, -, -, hc, -, hlt, -⟩ := hsws
    rw [hsel'] at hlt
    rw [hc]
    exact_mod_cast hlt
  obtain ⟨hsome, hnone⟩ := switchToNext_cases hf1 hi hsw
  refine ⟨_, h, rfl, hsel', counter_set_self sw.state i' 0 hi', ?_, ?_⟩
  · rintro ⟨j, hj, hji, hlow⟩
    obtain ⟨j', -, -, -, hst⟩ := hsome ⟨j, hj, hji, by rwa [counter_set_ne f i j _ hji]⟩
    show counter { sw.state with consecutiveFailures := sw.state.consecutiveFailures.set i' 0 } i
      = wrapInt32 (counter f i + 1)
    rw [counter_set_ne sw.state i' i 0 (Ne.symm hne), hst]
    obtain ⟨-, -, -, -, hc, -, -, -⟩ := hf
    exact counter_set_self f i _ (by omega)
  · intro hall
    have hst := hnone (fun j hj hji => by rw [counter_set_ne f i j _ hji]; exact hall j hj hji)
    have h0 : sw.state.selected = 0 := by rw [hst]
    refine ⟨by rw [hsel'] at h0; exact_mod_cast h0, ?_⟩
    intro j
    show counter { sw.state with consecutiveFailures := sw.state.consecutiveFailures.set i' 0 } j
      = 0
    by_cases hj : j = i'
    · subst hj
      exact counter_set_self sw.state j 0 hi'
    · rw [counter_set_ne sw.state i' j 0 hj, hst]
      exact counter_map_zero _ 0 j

/-- C5, witness: scenario S2. -/
theorem DialContext_retry_success_witness :
    Started engineAB ∧
    ∃ r, DialContext engineAB (failWith "e1") (connect 9) false "tcp" "example.org:443"
        = some r ∧
      r.value = Except.ok { conn := { id := 9 }, isExternal := false } ∧
      r.state.selected = ((1 : Nat) : Int) ∧
      counter r.state 1 = 0 ∧
      ((∃ j, j < engineAB.tags.length ∧ j ≠ 0 ∧ counter engineAB j < engineAB.maxFailures) →
        counter r.state 0 = wrapInt32 (counter engineAB 0 + 1)) ∧
      ((∀ j, j < engineAB.tags.length → j ≠ 0 → engineAB.maxFailures ≤ counter engineAB j) →
        1 = 0 ∧ ∀ j, counter r.state j = 0) :=
  ⟨by decide, DialContext_retry_success engineAB (failWith "e1") (connect 9)
    false "tcp" "example.org:443" 0 1 "e1" { id := 9 }
    { state := { engineAB with consecutiveFailures := [1, 0], selected := 1 }
      events :=
        [Event.log Level.warn "🔄 switched from A to B", Event.interrupt false,
         Event.log Level.warn "🔔 calling OnNodeSwitched callback: A -> B",
         Event.onNodeSwitched "A" "B"]
      value := () }
    (by decide) rfl rfl (by decide) rfl rfl (by decide) rfl⟩

/-- C5, counterexample: scenario S4 followed by a successful retry. With the
selection on B and A saturated (`max_failures=1`), the failed dial brings
`consecutiveFailures[B]` to 1, `switchToNext` resets and moves the selection
to A, the retry against A succeeds, and `consecutiveFailures[B]` is 0
afterwards, not `max_failures`. -/
theorem DialContext_retry_success_after_reset :
    Started engineOnB ∧ engineOnB.selected = 1 ∧
    wrapInt32 (counter engineOnB 1 + 1) = engineOnB.maxFailures ∧
    (switchToNext { engineOnB with consecutiveFailures :=
        engineOnB.consecutiveFailures.set 1 (wrapInt32 (counter engineOnB 1 + 1)) } 1).map
      (fun sw => sw.state.selected) = some 0 ∧
    (DialContext engineOnB (failWith "e1") (connect 9) false "tcp" "example.org:443").map
      (fun r => (r.value, r.state.selected, counter r.state 1, r.state.maxFailures)) =
      some (Except.ok { conn := { id := 9 }, isExternal := false }, 0, 0, 1) :=
  ⟨by decide, rfl, rfl, rfl, rfl⟩

/-! ## Switch decision: claims -/

/-- C6 (amended): on a started engine with at most 2147483648 candidates and
for every `currentIdx` in range, if some offset `k` in `1..n-1` has
`consecutiveFailures[(currentIdx + k) mod n] < maxFailures`, then
`switchToNext currentIdx` sets the selection to `(currentIdx + kstar) mod n`
for the smallest such offset `kstar` (an index the conversion to `int32`
keeps as it is), changes nothing else (every counter is
kept), triggers the interrupt group once, and with a platform interface
registered calls `OnNodeSwitched(tags[currentIdx], tags[new selection])` once
and `OnAllNodesFailed` not at all. The candidate selected is below the
threshold. -/
theorem switchToNext_selects_first_available (f : Failover) (currentIdx k : Nat)
    (hf : Started f) (hn : f.tags.length ≤ 2147483648) (hcur : currentIdx < f.tags.length)
    (hk1 : 1 ≤ k) (hk2 : k < f.tags.length)
    (hk : counter f ((currentIdx + k) % f.tags.length) < f.maxFailures) :
    ∃ kstar fromNode toNode, 1 ≤ kstar ∧ kstar ≤ k ∧
      wrapInt32 (((currentIdx + kstar) % f.tags.length : Nat) : Int) =
        (((currentIdx + kstar) % f.tags.length : Nat) : Int) ∧
      counter f ((currentIdx + kstar) % f.tags.length) < f.maxFailures ∧
      (∀ i, 1 ≤ i → i < kstar →
        f.maxFailures ≤ counter f ((currentIdx + i) % f.tags.length)) ∧
      f.tags[currentIdx]? = some fromNode ∧
      f.tags[(currentIdx + kstar) % f.tags.length]? = some toNode ∧
      switchToNext f (currentIdx : Int) = some {
        state := { f with selected := (((currentIdx + kstar) % f.tags.length : Nat) : Int) }
        events :=
          [Event.log Level.warn ("🔄 switched from " ++ fromNode ++ " to " ++ toNode),
           Event.interrupt f.interruptExternalConnections] ++
          (if f.platformInterface then
            [Event.log Level.warn
               ("🔔 calling OnNodeSwitched callback: " ++ fromNode ++ " -> " ++ toNode),
             Event.onNodeSwitched fromNode toNode]
           else
            [Event.log Level.error "❌ platformInterface is nil, cannot notify iOS!"])
        value := () } := by
  obtain ⟨fromNode, hfrom, hsp⟩ := switchToNext_spec f currentIdx hf hcur
  rcases hsp with ⟨kstar, toNode, hs1, hs2, hlow, hmin, hto, hsw⟩ | ⟨hall, -⟩
  · refine ⟨kstar, fromNode, toNode, hs1, ?_, ?_, hlow, hmin, hfrom, hto, hsw⟩
    · by_contra hlt
      have := hmin k hk1 (by omega)
      omega
    · exact wrapInt32_natCast (lt_of_lt_of_le (Nat.mod_lt _ (by omega)) hn)
  · have := hall k hk1 hk2
    omega

/-- C6, witness: scenario S1 at the moment of the switch; B is selected and
`OnNodeSwitched("A","B")` fires once. -/
theorem switchToNext_selects_first_available_witness :
    Started engineABCFailed ∧ engineABCFailed.tags.length ≤ 2147483648 ∧
    counter engineABCFailed ((0 + 2) % engineABCFailed.tags.length)
      < engineABCFailed.maxFailures ∧
    ∃ kstar fromNode toNode, 1 ≤ kstar ∧ kstar ≤ 2 ∧
      wrapInt32 (((0 + kstar) % engineABCFailed.tags.length : Nat) : Int) =
        (((0 + kstar) % engineABCFailed.tags.length : Nat) : Int) ∧
      counter engineABCFailed ((0 + kstar) % engineABCFailed.tags.length)
        < engineABCFailed.maxFailures ∧
      (∀ i, 1 ≤ i → i < kstar → engineABCFailed.maxFailures ≤
        counter engineABCFailed ((0 + i) % engineABCFailed.tags.length)) ∧
      engineABCFailed.tags[0]? = some fromNode ∧
      engineABCFailed.tags[(0 + kstar) % engineABCFailed.tags.length]? = some toNode ∧
      switchToNext engineABCFailed ((0 : Nat) : Int) = some {
        state := { engineABCFailed with
          selected := (((0 + kstar) % engineABCFailed.tags.length : Nat) : Int) }
        events :=
          [Event.log Level.warn ("🔄 switched from " ++ fromNode ++ " to " ++ toNode),
           Event.interrupt engineABCFailed.interruptExternalConnections] ++
          (if engineABCFailed.platformInterface then
            [Event.log Level.warn
               ("🔔 calling OnNodeSwitched callback: " ++ fromNode ++ " -> " ++ toNode),
             Event.onNodeSwitched fromNode toNode]
           else
            [Event.log Level.error "❌ platformInterface is nil, cannot notify iOS!"])
        value := () } :=
  ⟨by decide, by decide, by decide,
    switchToNext_selects_first_available engineABCFailed 0 2 (by decide) (by decide)
      (by decide) (by decide) (by decide) (by decide)⟩

/-- C7: on a started engine and for every `currentIdx` in range, if every
candidate other than `currentIdx` has `consecutiveFailures ≥ maxFailures`
(none at all when `n = 1`), `switchToNext currentIdx` clears every counter,
sets the selection to 0, triggers the interrupt group once, and with a
platform interface registered calls `OnAllNodesFailed` once and
`OnNodeSwitched` not at all. In every other case the counters are left as
they are and neither the reset line is logged nor `OnAllNodesFailed` called. -/
theorem switchToNext_reset_iff_all_others_failed (f : Failover) (currentIdx : Nat)
    (hf : Started f) (hcur : currentIdx < f.tags.length) :
    ((∀ j, j < f.tags.length → j ≠ currentIdx → f.maxFailures ≤ counter f j) →
      switchToNext f (currentIdx : Int) = some {
        state := { f with
          consecutiveFailures := f.consecutiveFailures.map (fun _ => 0)
          selected := 0 }
        events :=
          [Event.log Level.error "all outbounds failed, resetting and retry from primary",
           Event.interrupt f.interruptExternalConnections] ++
          (if f.platformInterface then
            [Event.log Level.warn "🔔 calling OnAllNodesFailed callback",
             Event.onAllNodesFailed]
           else
            [Event.log Level.error
              "❌ platformInterface is nil, cannot notify iOS about all nodes failed!"])
        value := () } ∧
      ∀ j, counter { f with
          consecutiveFailures := f.consecutiveFailures.map (fun _ => 0)
          selected := 0 } j = 0) ∧
    ((∃ j, j < f.tags.length ∧ j ≠ currentIdx ∧ counter f j < f.maxFailures) →
      ∃ r, switchToNext f (currentIdx : Int) = some r ∧
        r.state.consecutiveFailures = f.consecutiveFailures ∧
        Event.onAllNodesFailed ∉ r.events ∧
        Event.log Level.error "all outbounds failed, resetting and retry from primary"
          ∉ r.events) := by
  obtain ⟨fromNode, hfrom, hsp⟩ := switchToNext_spec f currentIdx hf hcur
  have hn : 0 < f.tags.length := by omega
  rcases hsp with ⟨k, toNode, hk1, hk2, hk, -, -, hsw⟩ | ⟨hall, hsw⟩
  · constructor
    · intro hsat
      have := hsat _ (Nat.mod_lt _ hn) (rot_ne hcur hk1 hk2)
      omega
    · intro _
      refine ⟨_, hsw, rfl, ?_, ?_⟩
      · unfold notifySwitched
        split <;> simp
      · unfold notifySwitched
        split <;> simp
  · constructor
    · intro _
      exact ⟨hsw, fun j => counter_map_zero f 0 j⟩
    · rintro ⟨j, hj, hne, hlow⟩
      obtain ⟨k, hk1, hk2, rfl⟩ := rot_surj hcur hj hne
      have := hall k hk1 hk2
      omega

/-- C7, witness: scenario S4 at the moment B reaches the threshold with A
still saturated. -/
theorem switchToNext_reset_iff_all_others_failed_witness :
    Started engineAllFailed ∧
    (switchToNext engineAllFailed ((1 : Nat) : Int)).map
      (fun r => (r.state.selected, r.state.consecutiveFailures, r.events)) =
      some (0, [0, 0],
        [Event.log Level.error "all outbounds failed, resetting and retry from primary",
         Event.interrupt false,
         Event.log Level.warn "🔔 calling OnAllNodesFailed callback",
         Event.onAllNodesFailed]) :=
  ⟨by decide, by
    rw [((switchToNext_reset_iff_all_others_failed engineAllFailed 1
      (by decide) (by decide)).1 (by decide)).1]
    rfl⟩

/-- C8 (amended): on a started engine with at most 2147483648 candidates, for
`switchToNext` called with the index the selection is on: either the switch
branch is taken, where the selection after the call names a candidate and
differs from the selection held before the call, and any
`OnNodeSwitched(a, b)` has `a` the tag of the previously selected candidate
and `b` the tag of the newly selected one (and is made when a platform
interface is registered); or the call resets the selection to 0 without any
`OnNodeSwitched`. -/
theorem switchToNext_moves_off_currentIdx (f : Failover) (currentIdx : Nat)
    (hf : Started f) (hn : f.tags.length ≤ 2147483648) (hcur : currentIdx < f.tags.length)
    (hsel : f.selected = (currentIdx : Int)) :
    ∃ r, switchToNext f (currentIdx : Int) = some r ∧
      ((∃ j fromNode toNode, j < f.tags.length ∧
          r.state.selected = (j : Int) ∧ r.state.selected ≠ f.selected ∧
          index? f.tags f.selected = some fromNode ∧
          index? r.state.tags r.state.selected = some toNode ∧
          (∀ a b, Event.onNodeSwitched a b ∈ r.events → a = fromNode ∧ b = toNode) ∧
          (f.platformInterface = true → Event.onNodeSwitched fromNode toNode ∈ r.events)) ∨
       (r.state.selected = 0 ∧ ∀ a b, Event.onNodeSwitched a b ∉ r.events)) := by
  obtain ⟨fromNode, hfrom, hsp⟩ := switchToNext_spec f currentIdx hf hcur
  have hpos : 0 < f.tags.length := by omega
  rcases hsp with ⟨k, toNode, hk1, hk2, -, -, hto, hsw⟩ | ⟨-, hsw⟩
  · have hne := rot_ne hcur hk1 hk2
    refine ⟨_, hsw, Or.inl ⟨(currentIdx + k) % f.tags.length, fromNode, toNode,
      Nat.mod_lt _ hpos, rfl, ?_, ?_, ?_, ?_, ?_⟩⟩
    · show (((currentIdx + k) % f.tags.length : Nat) : Int) ≠ f.selected
      rw [hsel]
      exact_mod_cast hne
    · rw [hsel, index?_natCast]
      exact hfrom
    · show index? f.tags (((currentIdx + k) % f.tags.length : Nat) : Int) = some toNode
      rw [index?_natCast]
      exact hto
    · intro a b hab
      unfold notifySwitched at hab
      split at hab <;> simp at hab
      exact hab
    · intro hp
      unfold notifySwitched
      simp [hp]
  · refine ⟨_, hsw, Or.inr ⟨rfl, ?_⟩⟩
    intro a b
    unfold notifyAllFailed
    split <;> simp

/-- C8, witness: scenario S1 at the moment of the switch, the selection on A. -/
theorem switchToNext_moves_off_currentIdx_witness :
    Started engineABCFailed ∧ engineABCFailed.tags.length ≤ 2147483648 ∧
    engineABCFailed.selected = ((0 : Nat) : Int) ∧
    ∃ r, switchToNext engineABCFailed ((0 : Nat) : Int) = some r ∧
      ((∃ j fromNode toNode, j < engineABCFailed.tags.length ∧
          r.state.selected = (j : Int) ∧ r.state.selected ≠ engineABCFailed.selected ∧
          index? engineABCFailed.tags engineABCFailed.selected = some fromNode ∧
          index? r.state.tags r.state.selected = some toNode ∧
          (∀ a b, Event.onNodeSwitched a b ∈ r.events → a = fromNode ∧ b = toNode) ∧
          (engineABCFailed.platformInterface = true →
            Event.onNodeSwitched fromNode toNode ∈ r.events)) ∨
       (r.state.selected = 0 ∧ ∀ a b, Event.onNodeSwitched a b ∉ r.events)) :=
  ⟨by decide, by decide, rfl,
    switchToNext_moves_off_currentIdx engineABCFailed 0 (by decide) (by decide)
      (by decide) rfl⟩

/-! ## Selection invariant and recovery probe: claims -/

/-- The freshly started engine of scenarios S2 to S4 is what `NewFailover`
and `Start` produce. -/
theorem engineAB_reachable : Reachable ctxPlatform optionsAB resolveAll engineAB :=
  Reachable.start
    { engineAB with outbounds := [], recoveryTicker := none, started := false, wg := 0 }
    { state := engineAB
      events := [Event.log Level.info "failover started with 2 outbounds, primary: A"]
      value := Except.ok () }
    rfl rfl rfl

/-- The engine with its selection on B and A saturated is reached by one
dial in which A and then B fail. -/
theorem engineOnB_reachable : Reachable ctxPlatform optionsAB resolveAll engineOnB :=
  Reachable.step engineAB engineOnB engineAB_reachable
    (Step.dialContext engineAB (failWith "e1") (failWith "e2") false "tcp" "example.org:443"
      { state := engineOnB
        events :=
          [Event.dialContext 0 "tcp" "example.org:443",
           Event.log Level.warn "outbound A dial failed (1/1): e1",
           Event.log Level.warn "🔄 switched from A to B",
           Event.interrupt false,
           Event.log Level.warn "🔔 calling OnNodeSwitched callback: A -> B",
           Event.onNodeSwitched "A" "B",
           Event.dialContext 1 "tcp" "example.org:443"]
        value := Except.error "e2" }
      rfl)

/-- C9 (amended): for every configuration `NewFailover` accepts with at most
2147483648 tags (at least one tag, the list short enough for 32-bit indices),
the selection satisfies
`0 ≤ selected < n` in every state reachable from a successful `Start` by any
sequence of dial, listen, switch, recovery-probe, new-connection and close
steps, whatever the delegates answer. -/
theorem selection_in_range (ctx : Context) (options : FailoverOutboundOptions)
    (outboundManager : String → Option Outbound) (s : Failover)
    (hn : options.Outbounds.length ≤ 2147483648)
    (h : Reachable ctx options outboundManager s) :
    1 ≤ options.Outbounds.length ∧ 0 ≤ s.selected ∧
      s.selected < (options.Outbounds.length : Int) := by
  have key : Started s ∧ s.tags = options.Outbounds := by
    induction h with
    | start f0 r hnew hstart hok => exact Start_started hn hnew hstart hok
    | step s t _ hstep ih =>
      obtain ⟨h1, h2⟩ := Step_started ih.1 hstep
      exact ⟨h1, h2.trans ih.2⟩
  obtain ⟨⟨-, h1, -, -, -, h5, h6, -⟩, htags⟩ := key
  rw [htags] at h1 h6
  exact ⟨h1, h5, h6⟩

/-- C9, witness: after the double failure of scenario S3 the selection is 1 of 2. -/
theorem selection_in_range_witness :
    optionsAB.Outbounds.length ≤ 2147483648 ∧
    (1 ≤ optionsAB.Outbounds.length ∧ 0 ≤ engineOnB.selected ∧
      engineOnB.selected < (optionsAB.Outbounds.length : Int)) :=
  ⟨by decide, selection_in_range ctxPlatform optionsAB resolveAll engineOnB (by decide)
    engineOnB_reachable⟩

theorem probePrimary_events (f : Failover) (urlTest : Nat → Except Error Nat)
    (dial : Nat → Except Error Conn) :
    interruptCount (probePrimary f urlTest dial).1 = 0 ∧
    (∀ idx network destination,
      Event.dialContext idx network destination ∈ (probePrimary f urlTest dial).1 → idx = 0) ∧
    (∀ idx url, Event.urlTest idx url ∈ (probePrimary f urlTest dial).1 → idx = 0) := by
  unfold probePrimary
  split
  · refine ⟨by simp [interruptCount], ?_, ?_⟩
    · intro idx network destination h
      simp at h
    · intro idx url h
      simp at h
      exact h.1
  · cases dial 0 with
    | ok conn =>
      refine ⟨by simp [interruptCount], ?_, ?_⟩
      · intro idx network destination h
        simp at h
        exact h.1
      · intro idx url h
        simp at h
    | error e =>
      refine ⟨by simp [interruptCount], ?_, ?_⟩
      · intro idx network destination h
        simp at h
        exact h.1
      · intro idx url h
        simp at h

/-- The cases of `checkPrimaryRecovery` on a started engine, by the verdict
of `probePrimary`. -/
theorem checkPrimaryRecovery_by_probe (f : Failover)
    (urlTest : Nat → Except Error Nat) (dial : Nat → Except Error Conn) (ctxErrAfter : Bool)
    (hf : Started f) :
    ∃ r, checkPrimaryRecovery f urlTest dial ctxErrAfter = some r ∧
      (r.state ≠ f ↔
        (f.selected ≠ 0 ∧ f.ctxErr = false ∧ ctxErrAfter = false ∧
          (probePrimary f urlTest dial).2 = none)) ∧
      ((f.selected ≠ 0 ∧ f.ctxErr = false ∧ ctxErrAfter = false ∧
          (probePrimary f urlTest dial).2 = none) →
        r.state = { f with selected := 0,
                           consecutiveFailures := f.consecutiveFailures.set 0 0 } ∧
        counter r.state 0 = 0 ∧
        (∀ j, j ≠ 0 → counter r.state j = counter f j) ∧
        interruptCount r.events = 1 ∧
        ∃ primary, f.outbounds[0]? = some primary ∧
          r.events = (probePrimary f urlTest dial).1 ++
            [Event.log Level.info
               ("✅ primary outbound " ++ primary.tag ++ " recovered, switching back"),
             Event.interrupt f.interruptExternalConnections]) ∧
      (¬ (f.selected ≠ 0 ∧ f.ctxErr = false ∧ ctxErrAfter = false ∧
          (probePrimary f urlTest dial).2 = none) →
        r.state = f ∧ interruptCount r.events = 0) ∧
      (∀ idx network destination,
        Event.dialContext idx network destination ∈ r.events → idx = 0) ∧
      (∀ idx url, Event.urlTest idx url ∈ r.events → idx = 0) := by
  obtain ⟨hp0, hp1, hp2⟩ := probePrimary_events f urlTest dial
  obtain ⟨-, h1, -, ho, hc, -, -, -⟩ := hf
  have hlen : 0 < f.consecutiveFailures.length := by omega
  obtain ⟨primary, rest, hout⟩ : ∃ primary rest, f.outbounds = primary :: rest := by
    cases hob : f.outbounds with
    | nil => rw [hob] at ho; simp at ho; omega
    | cons a b => exact ⟨a, b, rfl⟩
  have hstore : store? f.consecutiveFailures 0 0 = some (f.consecutiveFailures.set 0 0) :=
    store?_natCast f.consecutiveFailures 0 0 hlen
  unfold checkPrimaryRecovery
  by_cases hctx : f.ctxErr = true
  · simp only [hctx, if_true]
    refine ⟨_, rfl, ?_, ?_, ?_, ?_, ?_⟩
    · simp
    · rintro ⟨-, h, -⟩; cases h
    · intro _; exact ⟨rfl, by simp [interruptCount]⟩
    · intro idx network destination h; simp at h
    · intro idx url h; simp at h
  · have hctx' : f.ctxErr = false := by simpa using hctx
    by_cases hsel : f.selected = 0
    · simp only [hctx', hsel, if_true, Bool.false_eq_true, if_false]
      refine ⟨_, rfl, ?_, ?_, ?_, ?_, ?_⟩
      · simp
      · rintro ⟨h, -⟩; exact absurd rfl h
      · intro _; exact ⟨rfl, by simp [interruptCount]⟩
      · intro idx network destination h; simp at h
      · intro idx url h; simp at h
    · simp only [hctx', hsel, Bool.false_eq_true, if_false, hout]
      by_cases hafter : ctxErrAfter = true
      · simp only [hafter, if_true]
        refine ⟨_, rfl, ?_, ?_, ?_, hp1, hp2⟩
        · simp
        · rintro ⟨-, -, h, -⟩; cases h
        · intro _; exact ⟨rfl, hp0⟩
      · have hafter' : ctxErrAfter = false := by simpa using hafter
        simp only [hafter', Bool.false_eq_true, if_false]
        cases hprobe : (probePrimary f urlTest dial).2 with
        | some e =>
          simp only []
          refine ⟨_, rfl, ?_, ?_, ?_, hp1, hp2⟩
          · simp
          · rintro ⟨-, -, -, h⟩; cases h
          · intro _; exact ⟨rfl, hp0⟩
        | none =>
          simp only [hstore]
          refine ⟨_, rfl, ?_, ?_, ?_, ?_, ?_⟩
          · simp only [ne_eq, hsel, not_false_eq_true, and_self, iff_true]
            intro h
            have := congrArg Failover.selected h
            exact hsel this.symm
          · intro _
            refine ⟨rfl, counter_set_self f 0 0 hlen, fun j hj => counter_set_ne f 0 j 0 hj,
              ?_, primary, by simp [hout], rfl⟩
            unfold interruptCount at hp0 ⊢
            simp [List.countP_append, hp0, List.countP_cons]
          · intro h
            simp [hsel] at h
          · intro idx network destination h
            simp only [List.mem_append, List.mem_cons, List.mem_singleton, reduceCtorEq,
              or_self, or_false, List.not_mem_nil] at h
            exact hp1 idx network destination h
          · intro idx url h
            simp only [List.mem_append, List.mem_cons, List.mem_singleton, reduceCtorEq,
              or_self, or_false, List.not_mem_nil] at h
            exact hp2 idx url h

/-- The verdict of the probe is the answer of candidate 0: of its URL test
when a recovery URL is configured, of its TCP handshake otherwise; and these
are the probe's only effects. -/
theorem probePrimary_ok_iff (f : Failover) (urlTest : Nat → Except Error Nat)
    (dial : Nat → Except Error Conn) :
    ((probePrimary f urlTest dial).2 = none ↔
      ((f.recoveryURL ≠ "" ∧ ∃ d, urlTest 0 = Except.ok d) ∨
       (f.recoveryURL = "" ∧ ∃ c, dial 0 = Except.ok c))) ∧
    ((f.recoveryURL ≠ "" ∧ (probePrimary f urlTest dial).1 = [Event.urlTest 0 f.recoveryURL]) ∨
     (f.recoveryURL = "" ∧
       ((∃ c, dial 0 = Except.ok c ∧ (probePrimary f urlTest dial).1 =
          [Event.dialContext 0 "tcp" "1.1.1.1:443", Event.connClose c]) ∨
        (∃ e, dial 0 = Except.error e ∧ (probePrimary f urlTest dial).1 =
          [Event.dialContext 0 "tcp" "1.1.1.1:443"])))) := by
  unfold probePrimary
  by_cases hurl : f.recoveryURL = ""
  · have hn : ¬ (f.recoveryURL ≠ "") := fun h => h hurl
    rw [if_neg hn]
    cases hd : dial 0 with
    | ok c =>
      refine ⟨⟨fun _ => Or.inr ⟨hurl, c, rfl⟩, fun _ => rfl⟩, Or.inr ⟨hurl, Or.inl ⟨c, rfl, rfl⟩⟩⟩
    | error e =>
      refine ⟨⟨fun h => (by cases h), ?_⟩, Or.inr ⟨hurl, Or.inr ⟨e, rfl, rfl⟩⟩⟩
      rintro (⟨h, -⟩ | ⟨-, c, hc⟩)
      · exact absurd hurl h
      · cases hc
  · rw [if_pos hurl]
    cases hu : urlTest 0 with
    | ok d =>
      refine ⟨⟨fun _ => Or.inl ⟨hurl, d, rfl⟩, fun _ => rfl⟩, Or.inl ⟨hurl, rfl⟩⟩
    | error e =>
      refine ⟨⟨fun h => (by cases h), ?_⟩, Or.inl ⟨hurl, rfl⟩⟩
      rintro (⟨-, d, hd⟩ | ⟨h, -⟩)
      · cases hd
      · exact absurd h hurl

/-- C10: on a started engine `checkPrimaryRecovery` changes the engine if and
only if the selection is not 0, the engine context is cancelled neither before
nor after the probe, and the probe succeeds: the URL test through candidate 0
when a recovery URL is configured, the TCP handshake through candidate 0
otherwise. In that case the selection becomes 0, `consecutiveFailures[0]`
becomes 0, nothing else changes, and the interrupt group is triggered exactly
once, after the probe and the recovery line. Otherwise the engine is unchanged
and no interrupt is triggered. Every probe goes to candidate 0, never to the
selected one. -/
theorem checkPrimaryRecovery_changes_state_iff (f : Failover)
    (urlTest : Nat → Except Error Nat) (dial : Nat → Except Error Conn) (ctxErrAfter : Bool)
    (hf : Started f) :
    ∃ r, checkPrimaryRecovery f urlTest dial ctxErrAfter = some r ∧
      (r.state ≠ f ↔
        (f.selected ≠ 0 ∧ f.ctxErr = false ∧ ctxErrAfter = false ∧
          ((f.recoveryURL ≠ "" ∧ ∃ d, urlTest 0 = Except.ok d) ∨
           (f.recoveryURL = "" ∧ ∃ c, dial 0 = Except.ok c)))) ∧
      ((f.selected ≠ 0 ∧ f.ctxErr = false ∧ ctxErrAfter = false ∧
          ((f.recoveryURL ≠ "" ∧ ∃ d, urlTest 0 = Except.ok d) ∨
           (f.recoveryURL = "" ∧ ∃ c, dial 0 = Except.ok c))) →
        r.state = { f with selected := 0,
                           consecutiveFailures := f.consecutiveFailures.set 0 0 } ∧
        counter r.state 0 = 0 ∧
        (∀ j, j ≠ 0 → counter r.state j = counter f j) ∧
        interruptCount r.events = 1 ∧
        ∃ primary probe, f.outbounds[0]? = some primary ∧
          r.events = probe ++
            [Event.log Level.info
               ("✅ primary outbound " ++ primary.tag ++ " recovered, switching back"),
             Event.interrupt f.interruptExternalConnections] ∧
          ((f.recoveryURL ≠ "" ∧ probe = [Event.urlTest 0 f.recoveryURL]) ∨
           (f.recoveryURL = "" ∧ ∃ c, dial 0 = Except.ok c ∧
             probe = [Event.dialContext 0 "tcp" "1.1.1.1:443", Event.connClose c]))) ∧
      (¬ (f.selected ≠ 0 ∧ f.ctxErr = false ∧ ctxErrAfter = false ∧
          ((f.recoveryURL ≠ "" ∧ ∃ d, urlTest 0 = Except.ok d) ∨
           (f.recoveryURL = "" ∧ ∃ c, dial 0 = Except.ok c))) →
        r.state = f ∧ interruptCount r.events = 0) ∧
      (∀ idx network destination,
        Event.dialContext idx network destination ∈ r.events → idx = 0) ∧
      (∀ idx url, Event.urlTest idx url ∈ r.events → idx = 0) := by
  obtain ⟨r, hr, hiff, hyes, hno, hd, hu⟩ :=
    checkPrimaryRecovery_by_probe f urlTest dial ctxErrAfter hf
  obtain ⟨hok, hev⟩ := probePrimary_ok_iff f urlTest dial
  rw [hok] at hiff hyes hno
  refine ⟨r, hr, hiff, ?_, hno, hd, hu⟩
  intro hc
  obtain ⟨hst, hc0, hcj, hint, primary, hprim, hevents⟩ := hyes hc
  refine ⟨hst, hc0, hcj, hint, primary, (probePrimary f urlTest dial).1, hprim, hevents, ?_⟩
  rcases hev with ⟨hurl, hp⟩ | ⟨hurl, ⟨c, hdc, hp⟩ | ⟨e, hde, -⟩⟩
  · exact Or.inl ⟨hurl, hp⟩
  · exact Or.inr ⟨hurl, c, hdc, hp⟩
  · rcases hc.2.2.2 with ⟨h, -⟩ | ⟨-, c, hdc⟩
    · exact absurd hurl h
    · rw [hde] at hdc
      cases hdc

/-- C10, witness: with the selection on B, a live context, no recovery URL
and a successful handshake through A, the probe moves the selection back to
A. -/
theorem checkPrimaryRecovery_changes_state_iff_witness :
    Started engineOnB ∧
    ∃ r, checkPrimaryRecovery engineOnB (failWith "unused") (connect 5) false = some r ∧
      (r.state ≠ engineOnB ↔
        (engineOnB.selected ≠ 0 ∧ engineOnB.ctxErr = false ∧ false = false ∧
          ((engineOnB.recoveryURL ≠ "" ∧ ∃ d : Nat, failWith "unused" 0 = Except.ok d) ∨
           (engineOnB.recoveryURL = "" ∧ ∃ c : Conn, connect 5 0 = Except.ok c)))) ∧
      r.state = engineAB :=
  ⟨by decide,
    match checkPrimaryRecovery_changes_state_iff engineOnB (failWith "unused") (connect 5)
      false (by decide) with
    | ⟨r, h1, h2, h3, _⟩ =>
      ⟨r, h1, h2,
        (h3 ⟨by decide, rfl, rfl, Or.inr ⟨rfl, ⟨{ id := 5 }, rfl⟩⟩⟩).1.trans (by decide)⟩⟩

/-! ## Lifecycle fields do not influence dialing -/

theorem switchScan_lifecycle (f : Failover) (ctxErr : Bool) (ticker : Option Bool)
    (closeClosed closeOnce : Bool) (wg : Nat) (cur : Nat) (is : List Nat) :
    switchScan { f with ctxErr := ctxErr, recoveryTicker := ticker, closeClosed := closeClosed,
                        closeOnce := closeOnce, wg := wg } cur is = switchScan f cur is := by
  induction is with
  | nil => rfl
  | cons i rest ih =>
    simp only [switchScan]
    cases f.consecutiveFailures[(cur + i) % f.outbounds.length]? with
    | none => rfl
    | some c =>
      simp only []
      rw [ih]

theorem switched_lifecycle (f : Failover) (ctxErr : Bool) (ticker : Option Bool)
    (closeClosed closeOnce : Bool) (wg : Nat) (fromNode toNode : String) (v : Int) :
    (some ({ state := { f with selected := v, ctxErr := ctxErr, recoveryTicker := ticker,
                               closeClosed := closeClosed, closeOnce := closeOnce, wg := wg }
             events :=
               [Event.log Level.warn ("🔄 switched from " ++ fromNode ++ " to " ++ toNode),
                Event.interrupt f.interruptExternalConnections]
               ++ notifySwitched { f with ctxErr := ctxErr, recoveryTicker := ticker,
                                          closeClosed := closeClosed, closeOnce := closeOnce,
                                          wg := wg } fromNode toNode
             value := () } : Ret Unit)) =
      (some ({ state := { f with selected := v }
               events :=
                 [Event.log Level.warn ("🔄 switched from " ++ fromNode ++ " to " ++ toNode),
                  Event.interrupt f.interruptExternalConnections]
                 ++ notifySwitched f fromNode toNode
               value := () } : Ret Unit)).map (fun r =>
        { r with state := { r.state with ctxErr := ctxErr, recoveryTicker := ticker,
                                         closeClosed := closeClosed, closeOnce := closeOnce,
                                         wg := wg } }) :=
  rfl

theorem switchToNext_lifecycle (f : Failover) (ctxErr : Bool) (ticker : Option Bool)
    (closeClosed closeOnce : Bool) (wg : Nat) (currentIdx : Int) :
    switchToNext { f with ctxErr := ctxErr, recoveryTicker := ticker,
                          closeClosed := closeClosed, closeOnce := closeOnce, wg := wg }
        currentIdx =
      (switchToNext f currentIdx).map (fun r =>
        { r with state := { r.state with ctxErr := ctxErr, recoveryTicker := ticker,
                                         closeClosed := closeClosed, closeOnce := closeOnce,
                                         wg := wg } }) := by
  unfold switchToNext
  simp only [switchScan_lifecycle]
  cases index? f.tags currentIdx with
  | none => rfl
  | some fromNode =>
    simp only []
    cases switchScan f currentIdx.toNat (List.range' 1 (f.outbounds.length - 1)) with
    | none => rfl
    | some found =>
      cases found with
      | none => rfl
      | some nextIdx =>
        simp only []
        cases f.tags[nextIdx]? with
        | none => rfl
        | some toNode =>
          simp only []
          exact switched_lifecycle f ctxErr ticker closeClosed closeOnce wg fromNode toNode _

theorem DialContext_lifecycle (f : Failover) (ctxErr : Bool) (ticker : Option Bool)
    (closeClosed closeOnce : Bool) (wg : Nat) (first retry : Nat → Except Error Conn)
    (isExternal : Bool) (network destination : String) :
    DialContext { f with ctxErr := ctxErr, recoveryTicker := ticker,
                         closeClosed := closeClosed, closeOnce := closeOnce, wg := wg }
        first retry isExternal network destination =
      (DialContext f first retry isExternal network destination).map (fun r =>
        { r with state := { r.state with ctxErr := ctxErr, recoveryTicker := ticker,
                                         closeClosed := closeClosed, closeOnce := closeOnce,
                                         wg := wg } }) := by
  unfold DialContext
  simp only []
  split
  · rfl
  · cases index? f.outbounds f.selected with
    | none => rfl
    | some selected =>
      simp only []
      cases first f.selected.toNat with
      | ok conn =>
        simp only []
        cases store? f.consecutiveFailures f.selected 0 <;> rfl
      | error err =>
        simp only []
        cases index? f.consecutiveFailures f.selected with
        | none => rfl
        | some c =>
          simp only []
          split
          · have hsw := switchToNext_lifecycle
              { f with consecutiveFailures :=
                  f.consecutiveFailures.set f.selected.toNat (wrapInt32 (c + 1)) }
              ctxErr ticker closeClosed closeOnce wg f.selected
            simp only [] at hsw
            rw [hsw]
            generalize switchToNext _ f.selected = osw
            cases osw with
            | none => rfl
            | some sw =>
              simp only [Option.map_some']
              split
              · cases index? sw.state.outbounds sw.state.selected with
                | none => rfl
                | some _ =>
                  simp only []
                  cases retry sw.state.selected.toNat with
                  | ok conn =>
                    simp only []
                    cases store? sw.state.consecutiveFailures sw.state.selected 0 <;> rfl
                  | error e2 => rfl
              · rfl
          · rfl

/-! ## Platform callbacks: claims -/

theorem probePrimary_no_callback (f : Failover) (urlTest : Nat → Except Error Nat)
    (dial : Nat → Except Error Conn) :
    Event.onAllNodesFailed ∉ (probePrimary f urlTest dial).1 ∧
    ∀ a b, Event.onNodeSwitched a b ∉ (probePrimary f urlTest dial).1 := by
  unfold probePrimary
  split
  · simp
  · cases dial 0 <;> simp

/-- A started engine always completes a recovery probe. -/
theorem checkPrimaryRecovery_total {f : Failover} (hf : Started f)
    (urlTest : Nat → Except Error Nat) (dial : Nat → Except Error Conn) (ctxErrAfter : Bool) :
    ∃ r, checkPrimaryRecovery f urlTest dial ctxErrAfter = some r := by
  obtain ⟨-, h1, -, ho, hc, -, -, -⟩ := hf
  have hstore : store? f.consecutiveFailures 0 0 = some (f.consecutiveFailures.set 0 0) :=
    store?_natCast f.consecutiveFailures 0 0 (by omega)
  unfold checkPrimaryRecovery
  split
  · exact ⟨_, rfl⟩
  · split
    · exact ⟨_, rfl⟩
    · split
      · exact ⟨_, rfl⟩
      · simp only []
        split
        · exact ⟨_, rfl⟩
        · split
          · exact ⟨_, rfl⟩
          · simp only [hstore]
            exact ⟨_, rfl⟩

/-- C11: whatever the engine state and the probe outcome, a run of
`checkPrimaryRecovery` (which exists on every started engine) calls neither
`OnNodeSwitched` nor `OnAllNodesFailed`, also when it moves the selection
back to 0. Nor does `Close`, `Start`, `NewConnectionEx` or
`NewPacketConnectionEx` call `OnNodeSwitched`; and every `OnNodeSwitched` in a
run of `DialContext` or `ListenPacket` is one made by the `switchToNext` it
calls after the failure has been counted. -/
theorem onNodeSwitched_only_from_switchToNext (f : Failover) :
    (∀ urlTest dial ctxErrAfter,
      (Started f → ∃ r, checkPrimaryRecovery f urlTest dial ctxErrAfter = some r) ∧
      ∀ r, checkPrimaryRecovery f urlTest dial ctxErrAfter = some r →
        Event.onAllNodesFailed ∉ r.events ∧ ∀ a b, Event.onNodeSwitched a b ∉ r.events) ∧
    (∀ exited a b, Event.onNodeSwitched a b ∉ (Close f exited).events) ∧
    (∀ outboundManager r a b, Start f outboundManager = some r →
      Event.onNodeSwitched a b ∉ r.events) ∧
    (∀ a b, Event.onNodeSwitched a b ∉ (NewConnectionEx f).events) ∧
    (∀ a b, Event.onNodeSwitched a b ∉ (NewPacketConnectionEx f).events) ∧
    (∀ first retry isExternal network destination r a b,
      DialContext f first retry isExternal network destination = some r →
      Event.onNodeSwitched a b ∈ r.events →
      ∃ c sw, index? f.consecutiveFailures f.selected = some c ∧
        switchToNext { f with consecutiveFailures :=
          f.consecutiveFailures.set f.selected.toNat (wrapInt32 (c + 1)) } f.selected
          = some sw ∧
        Event.onNodeSwitched a b ∈ sw.events) ∧
    (∀ first retry isExternal destination r a b,
      ListenPacket f first retry isExternal destination = some r →
      Event.onNodeSwitched a b ∈ r.events →
      ∃ c sw, index? f.consecutiveFailures f.selected = some c ∧
        switchToNext { f with consecutiveFailures :=
          f.consecutiveFailures.set f.selected.toNat (wrapInt32 (c + 1)) } f.selected
          = some sw ∧
        Event.onNodeSwitched a b ∈ sw.events) := by
  refine ⟨?_, ?_, ?_, ?_, ?_, ?_, ?_⟩
  · intro urlTest dial ctxErrAfter
    obtain ⟨hp1, hp2⟩ := probePrimary_no_callback f urlTest dial
    refine ⟨fun hf => ?_, ?_⟩
    · exact checkPrimaryRecovery_total hf urlTest dial ctxErrAfter
    · intro r h
      unfold checkPrimaryRecovery at h
      split at h
      · cases h; simp
      · split at h
        · cases h; simp
        · split at h
          · cases h; simp
          · simp only [] at h
            split at h
            · cases h; exact ⟨hp1, hp2⟩
            · split at h
              · cases h; exact ⟨hp1, hp2⟩
              · split at h
                · cases h
                · cases h
                  refine ⟨?_, ?_⟩
                  · simp only [List.mem_append, List.mem_cons, List.mem_singleton,
                      reduceCtorEq, or_self, or_false, List.not_mem_nil]
                    exact hp1
                  · intro a b
                    simp only [List.mem_append, List.mem_cons, List.mem_singleton,
                      reduceCtorEq, or_self, or_false, List.not_mem_nil]
                    exact hp2 a b
  · intro exited a b
    unfold Close
    split
    · simp
    · cases f.recoveryTicker <;> simp <;> split <;> simp
  · intro outboundManager r a b h
    unfold Start at h
    split at h
    · cases h; simp
    · split at h
      · cases h
      · split at h
        · cases h
        · cases h; simp
  · intro a b
    unfold NewConnectionEx
    split
    · simp
    · split <;> simp
  · intro a b
    unfold NewPacketConnectionEx
    split
    · simp
    · split <;> simp
  · intro first retry isExternal network destination r a b h hmem
    unfold DialContext at h
    simp only [] at h
    split at h
    · cases h; simp at hmem
    · cases hob : index? f.outbounds f.selected with
      | none => simp only [hob] at h; cases h
      | some selected =>
        simp only [hob] at h
        cases hfirst : first f.selected.toNat with
        | ok conn =>
          simp only [hfirst] at h
          cases hst : store? f.consecutiveFailures f.selected 0 with
          | none => simp only [hst] at h; cases h
          | some cs => simp only [hst] at h; cases h; simp at hmem
        | error err =>
          simp only [hfirst] at h
          cases hc : index? f.consecutiveFailures f.selected with
          | none => simp only [hc] at h; cases h
          | some c =>
            simp only [hc] at h
            split at h
            · generalize hsw : switchToNext _ f.selected = osw at h
              cases osw with
              | none => cases h
              | some sw =>
                simp only [] at h
                refine ⟨c, sw, rfl, hsw, ?_⟩
                split at h
                · cases hob2 : index? sw.state.outbounds sw.state.selected with
                  | none => simp only [hob2] at h; cases h
                  | some _ =>
                    simp only [hob2] at h
                    cases hretry : retry sw.state.selected.toNat with
                    | ok conn =>
                      simp only [hretry] at h
                      cases hst : store? sw.state.consecutiveFailures sw.state.selected 0 with
                      | none => simp only [hst] at h; cases h
                      | some cs =>
                        simp only [hst] at h
                        cases h
                        simpa using hmem
                    | error e2 =>
                      simp only [hretry] at h
                      cases h
                      simpa using hmem
                · cases h
                  simpa using hmem
            · cases h; simp at hmem
  · intro first retry isExternal destination r a b h hmem
    unfold ListenPacket at h
    simp only [] at h
    split at h
    · cases h; simp at hmem
    · cases hob : index? f.outbounds f.selected with
      | none => simp only [hob] at h; cases h
      | some selected =>
        simp only [hob] at h
        cases hfirst : first f.selected.toNat with
        | ok conn =>
          simp only [hfirst] at h
          cases hst : store? f.consecutiveFailures f.selected 0 with
          | none => simp only [hst] at h; cases h
          | some cs => simp only [hst] at h; cases h; simp at hmem
        | error err =>
          simp only [hfirst] at h
          cases hc : index? f.consecutiveFailures f.selected with
          | none => simp only [hc] at h; cases h
          | some c =>
            simp only [hc] at h
            split at h
            · generalize hsw : switchToNext _ f.selected = osw at h
              cases osw with
              | none => cases h
              | some sw =>
                simp only [] at h
                refine ⟨c, sw, rfl, hsw, ?_⟩
                split at h
                · cases hob2 : index? sw.state.outbounds sw.state.selected with
                  | none => simp only [hob2] at h; cases h
                  | some _ =>
                    simp only [hob2] at h
                    cases hretry : retry sw.state.selected.toNat with
                    | ok conn =>
                      simp only [hretry] at h
                      cases hst : store? sw.state.consecutiveFailures sw.state.selected 0 with
                      | none => simp only [hst] at h; cases h
                      | some cs =>
                        simp only [hst] at h
                        cases h
                        simpa using hmem
                    | error e2 =>
                      simp only [hretry] at h
                      cases h
                      simpa using hmem
                · cases h
                  simpa using hmem
            · cases h; simp at hmem

/-! ## Construction and lifecycle: claims -/

theorem DialContext_no_outbounds (f : Failover) (first retry : Nat → Except Error Conn)
    (isExternal : Bool) (network destination : String)
    (hout : f.outbounds = []) (hsel : f.selected = 0) :
    DialContext f first retry isExternal network destination =
      some { state := f, events := [], value := Except.error "no available outbound" } := by
  unfold DialContext
  simp [hout, hsel]

theorem ListenPacket_no_outbounds (f : Failover) (first retry : Nat → Except Error PacketConn)
    (isExternal : Bool) (destination : String)
    (hout : f.outbounds = []) (hsel : f.selected = 0) :
    ListenPacket f first retry isExternal destination =
      some { state := f, events := [], value := Except.error "no available outbound" } := by
  unfold ListenPacket
  simp [hout, hsel]

/-- What `NewFailover` builds when it accepts a configuration. -/
theorem NewFailover_ok {ctx : Context} {options : FailoverOutboundOptions} {f : Failover}
    (h : NewFailover ctx options = Except.ok f) :
    options.Outbounds ≠ [] ∧
    f = { tags := options.Outbounds
          maxFailures := if options.MaxFailures = 0 then 3 else options.MaxFailures
          recoveryInterval :=
            if options.RecoveryInterval = 0 then 5 * 60000000000 else options.RecoveryInterval
          recoveryURL := options.RecoveryURL
          outbounds := []
          selected := 0
          consecutiveFailures := List.replicate options.Outbounds.length 0
          interruptExternalConnections := options.InterruptExistConnections
          platformInterface := ctx.platformInterface
          ctxErr := ctx.err
          recoveryTicker := none
          closeClosed := false
          closeOnce := false
          started := false
          wg := 0 } := by
  unfold NewFailover at h
  split at h
  · cases h
  · rename_i hne
    simp only [Except.ok.injEq] at h
    exact ⟨fun he => hne (by simp [he]), h.symm⟩

/-- When the first tag is unknown, `Start` fails before resolving any handle. -/
theorem Start_first_unknown (f : Failover) (outboundManager : String → Option Outbound)
    (tag : String) (rest : List String) (htags : f.tags = tag :: rest)
    (hnone : outboundManager tag = none) :
    Start f outboundManager =
      some { state := { f with outbounds := [] }, events := [],
             value := Except.error ("outbound 0 not found: " ++ tag) } := by
  unfold Start
  simp only [htags, resolveTags, hnone]
  rfl

/-- C12 (amended): while no outbound handle is resolved, that is on a freshly
constructed engine and on an engine whose `Start` failed with the not-found
error at its first tag, `DialContext` and `ListenPacket` return the error
"no available outbound" without delegating to any candidate and without
changing the engine. -/
theorem dial_before_first_handle (ctx : Context) (options : FailoverOutboundOptions)
    (f0 : Failover) (hnew : NewFailover ctx options = Except.ok f0) :
    (∀ first retry isExternal network destination,
      DialContext f0 first retry isExternal network destination =
        some { state := f0, events := [], value := Except.error "no available outbound" }) ∧
    (∀ first retry isExternal destination,
      ListenPacket f0 first retry isExternal destination =
        some { state := f0, events := [], value := Except.error "no available outbound" }) ∧
    (∀ outboundManager tag, options.Outbounds.head? = some tag → outboundManager tag = none →
      ∃ r, Start f0 outboundManager = some r ∧
        r.value = Except.error ("outbound 0 not found: " ++ tag) ∧
        (∀ first retry isExternal network destination,
          DialContext r.state first retry isExternal network destination =
            some { state := r.state, events := [],
                   value := Except.error "no available outbound" }) ∧
        (∀ first retry isExternal destination,
          ListenPacket r.state first retry isExternal destination =
            some { state := r.state, events := [],
                   value := Except.error "no available outbound" })) := by
  obtain ⟨hne, hf0⟩ := NewFailover_ok hnew
  subst hf0
  refine ⟨fun first retry isExternal network destination =>
      DialContext_no_outbounds _ first retry isExternal network destination rfl rfl,
    fun first retry isExternal destination =>
      ListenPacket_no_outbounds _ first retry isExternal destination rfl rfl, ?_⟩
  intro outboundManager tag htag hnone
  obtain ⟨rest, hts⟩ : ∃ rest, options.Outbounds = tag :: rest := by
    cases hopt : options.Outbounds with
    | nil => exact absurd hopt hne
    | cons t rest =>
      rw [hopt] at htag
      simp only [List.head?_cons, Option.some.injEq] at htag
      exact ⟨rest, by rw [htag]⟩
  have hstart := Start_first_unknown
    { tags := options.Outbounds
      maxFailures := if options.MaxFailures = 0 then 3 else options.MaxFailures
      recoveryInterval :=
        if options.RecoveryInterval = 0 then 5 * 60000000000 else options.RecoveryInterval
      recoveryURL := options.RecoveryURL
      outbounds := []
      selected := 0
      consecutiveFailures := List.replicate options.Outbounds.length 0
      interruptExternalConnections := options.InterruptExistConnections
      platformInterface := ctx.platformInterface
      ctxErr := ctx.err
      recoveryTicker := none
      closeClosed := false
      closeOnce := false
      started := false
      wg := 0 } outboundManager tag rest hts hnone
  refine ⟨_, hstart, rfl, ?_, ?_⟩
  · intro first retry isExternal network destination
    exact DialContext_no_outbounds _ first retry isExternal network destination rfl rfl
  · intro first retry isExternal destination
    exact ListenPacket_no_outbounds _ first retry isExternal destination rfl rfl

/-- C12, witness: the engine built from `outbounds=[A,B]`. -/
theorem dial_before_first_handle_witness :
    NewFailover ctxPlatform optionsAB = Except.ok engineABFresh ∧
    DialContext engineABFresh (connect 7) (connect 8) false "tcp" "example.org:443" =
      some { state := engineABFresh, events := [],
             value := Except.error "no available outbound" } :=
  ⟨rfl, (dial_before_first_handle ctxPlatform optionsAB engineABFresh rfl).1
    (connect 7) (connect 8) false "tcp" "example.org:443"⟩

/-- C12, counterexample: with `outbounds=[A,B]` and an outbound manager that
knows A only, `Start` fails with "outbound 1 not found: B" and leaves the
handle of A behind; a dial on that engine is delegated to A and returns A's
connection. -/
theorem dial_after_failed_Start_delegates :
    NewFailover ctxPlatform optionsAB = Except.ok engineABFresh ∧
    (Start engineABFresh resolveOnlyA).map (fun r => (r.value, r.state.outbounds)) =
      some (Except.error "outbound 1 not found: B", [outboundOf "A"]) ∧
    ((Start engineABFresh resolveOnlyA).bind (fun r =>
        DialContext r.state (connect 7) (connect 8) false "tcp" "example.org:443")).map
      (fun r => (r.value, r.events)) =
      some (Except.ok { conn := { id := 7 }, isExternal := false },
        [Event.dialContext 0 "tcp" "example.org:443"]) :=
  ⟨rfl, rfl, rfl⟩

/-- C14 (amended): for every configuration `NewFailover` accepts, the
engine's threshold is 3 when `MaxFailures` is left unset (0) and otherwise
the configured value, whose sign is not checked; so the threshold is at
least 1 exactly when the configured value is not negative. -/
theorem NewFailover_maxFailures (ctx : Context) (options : FailoverOutboundOptions)
    (f : Failover) (h : NewFailover ctx options = Except.ok f) :
    f.maxFailures = (if options.MaxFailures = 0 then 3 else options.MaxFailures) ∧
    (1 ≤ f.maxFailures ↔ 0 ≤ options.MaxFailures) := by
  obtain ⟨-, hf⟩ := NewFailover_ok h
  subst hf
  refine ⟨rfl, ?_⟩
  show (1 ≤ (if options.MaxFailures = 0 then 3 else options.MaxFailures)) ↔ _
  split <;> omega

/-- C14, witness: `max_failures=1` is kept as it is. -/
theorem NewFailover_maxFailures_witness :
    NewFailover ctxPlatform optionsAB = Except.ok engineABFresh ∧
    (engineABFresh.maxFailures = (if optionsAB.MaxFailures = 0 then 3 else optionsAB.MaxFailures) ∧
      (1 ≤ engineABFresh.maxFailures ↔ 0 ≤ optionsAB.MaxFailures)) :=
  ⟨rfl, NewFailover_maxFailures ctxPlatform optionsAB engineABFresh rfl⟩

/-- C14, counterexample: `max_failures=-1` is accepted and becomes the
engine's threshold. -/
theorem NewFailover_accepts_negative_threshold :
    NewFailover ctxPlatform optionsNegativeThreshold =
      Except.ok { engineABFresh with maxFailures := -1 } ∧
    ¬ (1 ≤ ({ engineABFresh with maxFailures := -1 } : Failover).maxFailures) :=
  ⟨rfl, by decide⟩

/-- C15: `NewFailover` fails if and only if the configured outbound list is
empty, and then with the error "missing outbounds"; for every non-empty list
of `n` tags it succeeds with an engine over these tags whose counter vector
has `n` entries, all 0, whose selection is 0 and which is not started (no
handle resolved, no ticker). -/
theorem NewFailover_iff_outbounds (ctx : Context) (options : FailoverOutboundOptions) :
    (NewFailover ctx options = Except.error "missing outbounds" ↔ options.Outbounds = []) ∧
    (∀ e, NewFailover ctx options = Except.error e → e = "missing outbounds") ∧
    (options.Outbounds ≠ [] →
      ∃ f, NewFailover ctx options = Except.ok f ∧
        f.tags = options.Outbounds ∧
        f.consecutiveFailures.length = options.Outbounds.length ∧
        (∀ i, i < options.Outbounds.length → counter f i = 0) ∧
        (∀ c ∈ f.consecutiveFailures, c = 0) ∧
        f.selected = 0 ∧ f.started = false ∧ f.outbounds = [] ∧
        f.recoveryTicker = none) := by
  unfold NewFailover
  by_cases h : options.Outbounds.length = 0
  · have hnil : options.Outbounds = [] := List.length_eq_zero.mp h
    simp only [h, if_true, true_iff]
    refine ⟨hnil, ?_, fun hne => absurd hnil hne⟩
    intro e he
    simp only [Except.error.injEq] at he
    exact he.symm
  · have hne : options.Outbounds ≠ [] := fun he => h (by simp [he])
    simp only [h, if_false]
    refine ⟨⟨fun hx => (by cases hx), fun hx => absurd hx hne⟩, fun e he => (by cases he), ?_⟩
    intro _
    refine ⟨_, rfl, rfl, by simp, ?_, ?_, rfl, rfl, rfl, rfl⟩
    · intro i hi
      unfold counter
      simp [List.getD_eq_getElem?_getD, hi]
    · intro c hc
      exact List.eq_of_mem_replicate hc

theorem resolveTags_all (outboundManager : String → Option Outbound) (tags : List String)
    (i : Nat) (acc : List Outbound) (h : ∀ t ∈ tags, outboundManager t ≠ none) :
    resolveTags outboundManager tags i acc = (acc ++ tags.filterMap outboundManager, none) := by
  induction tags generalizing i acc with
  | nil => simp [resolveTags]
  | cons t rest ih =>
    unfold resolveTags
    cases hm : outboundManager t with
    | none => exact absurd hm (h t (List.mem_cons_self _ _))
    | some detour =>
      simp only []
      rw [ih _ _ (fun t' ht' => h t' (List.mem_cons_of_mem _ ht'))]
      simp [List.filterMap_cons, hm]

theorem resolveTags_all_imp (outboundManager : String → Option Outbound) (tags : List String)
    (i : Nat) (acc outbounds : List Outbound)
    (h : resolveTags outboundManager tags i acc = (outbounds, none)) :
    ∀ t ∈ tags, outboundManager t ≠ none := by
  induction tags generalizing i acc with
  | nil => intro t ht; cases ht
  | cons t rest ih =>
    unfold resolveTags at h
    cases hm : outboundManager t with
    | none => simp [hm] at h
    | some detour =>
      simp only [hm] at h
      intro t' ht'
      rcases List.mem_cons.mp ht' with rfl | hr
      · simp [hm]
      · exact ih _ _ h t' hr

theorem resolveTags_unknown (outboundManager : String → Option Outbound) (tags : List String)
    (i : Nat) (acc : List Outbound) (j : Nat) (tag : String)
    (hj : tags[j]? = some tag) (hnone : outboundManager tag = none)
    (hprev : ∀ k t, k < j → tags[k]? = some t → outboundManager t ≠ none) :
    resolveTags outboundManager tags i acc =
      (acc ++ (tags.take j).filterMap outboundManager, some (i + j, tag)) := by
  induction tags generalizing i acc j with
  | nil => simp at hj
  | cons t rest ih =>
    unfold resolveTags
    cases j with
    | zero =>
      simp only [List.getElem?_cons_zero, Option.some.injEq] at hj
      subst hj
      simp [hnone]
    | succ j =>
      simp only [List.getElem?_cons_succ] at hj
      cases hm : outboundManager t with
      | none => exact absurd hm (hprev 0 t (by omega) (by simp))
      | some detour =>
        simp only []
        rw [ih (i + 1) (acc ++ [detour]) j hj
          (fun k t' hk ht' => hprev (k + 1) t' (by omega) (by simpa using ht'))]
        simp [List.filterMap_cons, hm]
        omega

theorem filterMap_getElem? (outboundManager : String → Option Outbound) (tags : List String)
    (h : ∀ t ∈ tags, outboundManager t ≠ none) (k : Nat) :
    (tags.filterMap outboundManager)[k]? = tags[k]?.bind outboundManager := by
  induction tags generalizing k with
  | nil => simp
  | cons t rest ih =>
    cases hm : outboundManager t with
    | none => exact absurd hm (h t (List.mem_cons_self _ _))
    | some detour =>
      rw [List.filterMap_cons_some hm]
      cases k with
      | zero => simp [hm]
      | succ k =>
        simp only [List.getElem?_cons_succ]
        exact ih (fun t' ht' => h t' (List.mem_cons_of_mem _ ht')) k

theorem filterMap_length (outboundManager : String → Option Outbound) (tags : List String)
    (h : ∀ t ∈ tags, outboundManager t ≠ none) :
    (tags.filterMap outboundManager).length = tags.length := by
  induction tags with
  | nil => simp
  | cons t rest ih =>
    cases hm : outboundManager t with
    | none => exact absurd hm (h t (List.mem_cons_self _ _))
    | some detour =>
      rw [List.filterMap_cons_some hm]
      simp [ih (fun t' ht' => h t' (List.mem_cons_of_mem _ ht'))]

/-- What `Start` does when every tag is known and the ticker can be built. -/
theorem Start_all_known (f : Failover) (outboundManager : String → Option Outbound)
    (primaryTag : String) (hall : ∀ tag ∈ f.tags, outboundManager tag ≠ none)
    (hpos : ¬ f.recoveryInterval ≤ 0) (hprimary : f.tags[0]? = some primaryTag) :
    Start f outboundManager =
      some { state := { f with
               outbounds := f.tags.filterMap outboundManager
               selected := 0
               started := true
               recoveryTicker := some true
               wg := f.wg + 1 }
             events := [Event.log Level.info ("failover started with " ++
               toString (f.tags.filterMap outboundManager).length ++
               " outbounds, primary: " ++ primaryTag)]
             value := Except.ok () } := by
  have hres := resolveTags_all outboundManager f.tags 0 [] hall
  simp only [List.nil_append] at hres
  unfold Start
  simp only [hres, hpos, if_false, hprimary]

/-- What `Start` does when the tag at index `i` is the first unknown one. -/
theorem Start_unknown (f : Failover) (outboundManager : String → Option Outbound)
    (i : Nat) (tag : String) (hi : f.tags[i]? = some tag) (hnone : outboundManager tag = none)
    (hprev : ∀ j t, j < i → f.tags[j]? = some t → outboundManager t ≠ none) :
    Start f outboundManager =
      some { state := { f with outbounds := (f.tags.take i).filterMap outboundManager }
             events := []
             value := Except.error ("outbound " ++ toString i ++ " not found: " ++ tag) } := by
  have hres := resolveTags_unknown outboundManager f.tags 0 [] i tag hi hnone hprev
  simp only [List.nil_append, Nat.zero_add] at hres
  unfold Start
  simp only [hres]

/-- C16 (amended): on an engine built by `NewFailover` from a configuration
whose recovery interval is not negative, `Start` succeeds if and only if the
outbound manager knows every configured tag. On success the handle array has
length `n` with the handle of `tags[k]` at position `k`, the selection is 0
and the engine is started; otherwise `Start` fails with the error
"outbound <i> not found: <tag>" for the smallest index `i` whose tag is
unknown, `<tag>` being `tags[i]`. -/
theorem Start_iff_all_tags_known (ctx : Context) (options : FailoverOutboundOptions)
    (f : Failover) (outboundManager : String → Option Outbound)
    (hnew : NewFailover ctx options = Except.ok f)
    (hint : 0 ≤ options.RecoveryInterval) :
    ((∃ r, Start f outboundManager = some r ∧ r.value = Except.ok ()) ↔
      ∀ tag ∈ f.tags, outboundManager tag ≠ none) ∧
    ((∀ tag ∈ f.tags, outboundManager tag ≠ none) →
      ∃ r, Start f outboundManager = some r ∧ r.value = Except.ok () ∧
        r.state.outbounds.length = f.tags.length ∧
        (∀ k, k < f.tags.length →
          ∃ tag detour, f.tags[k]? = some tag ∧ outboundManager tag = some detour ∧
            r.state.outbounds[k]? = some detour) ∧
        r.state.selected = 0 ∧ r.state.started = true) ∧
    (∀ (i : Nat) (tag : String), f.tags[i]? = some tag → outboundManager tag = none →
      (∀ j t, j < i → f.tags[j]? = some t → outboundManager t ≠ none) →
      ∃ r, Start f outboundManager = some r ∧
        r.value = Except.error ("outbound " ++ toString i ++ " not found: " ++ tag)) := by
  obtain ⟨hne, hf⟩ := NewFailover_ok hnew
  have hpos : ¬ f.recoveryInterval ≤ 0 := by
    rw [hf]
    show ¬ (if options.RecoveryInterval = 0 then 5 * 60000000000
      else options.RecoveryInterval) ≤ 0
    split <;> omega
  have htags : f.tags = options.Outbounds := by rw [hf]
  obtain ⟨primaryTag, hprimary⟩ : ∃ t, f.tags[0]? = some t := by
    rw [htags]
    cases hopt : options.Outbounds with
    | nil => exact absurd hopt hne
    | cons t rest => exact ⟨t, by simp⟩
  have hsucc : (∀ tag ∈ f.tags, outboundManager tag ≠ none) →
      ∃ r, Start f outboundManager = some r ∧ r.value = Except.ok () ∧
        r.state.outbounds = f.tags.filterMap outboundManager ∧
        r.state.selected = 0 ∧ r.state.started = true := fun hall =>
    ⟨_, Start_all_known f outboundManager primaryTag hall hpos hprimary, rfl, rfl, rfl, rfl⟩
  refine ⟨⟨?_, fun hall => ?_⟩, fun hall => ?_, ?_⟩
  · rintro ⟨r, hr, hok⟩
    unfold Start at hr
    generalize hres : resolveTags outboundManager f.tags 0 [] = res at hr
    obtain ⟨outbounds, failed⟩ := res
    cases failed with
    | some p =>
      simp only [Option.some.injEq] at hr
      subst hr
      cases hok
    | none => exact resolveTags_all_imp _ _ _ _ _ hres
  · obtain ⟨r, hr, hok, -⟩ := hsucc hall
    exact ⟨r, hr, hok⟩
  · obtain ⟨r, hr, hok, hobs, hsel, hstarted⟩ := hsucc hall
    refine ⟨r, hr, hok, ?_, ?_, hsel, hstarted⟩
    · rw [hobs]
      exact filterMap_length _ _ hall
    · intro k hk
      have hmem : f.tags[k] ∈ f.tags := List.getElem_mem hk
      cases hm : outboundManager f.tags[k] with
      | none => exact absurd hm (hall _ hmem)
      | some detour =>
        refine ⟨f.tags[k], detour, List.getElem?_eq_getElem hk, hm, ?_⟩
        rw [hobs, filterMap_getElem? _ _ hall, List.getElem?_eq_getElem hk]
        simpa using hm
  · intro i tag hi hnone hprev
    exact ⟨_, Start_unknown f outboundManager i tag hi hnone hprev, rfl⟩

/-- C16, witness: `outbounds=[A,B]` with a manager that knows every tag. -/
theorem Start_iff_all_tags_known_witness :
    NewFailover ctxPlatform optionsAB = Except.ok engineABFresh ∧
    0 ≤ optionsAB.RecoveryInterval ∧
    ((∃ r, Start engineABFresh resolveAll = some r ∧ r.value = Except.ok ()) ↔
      ∀ tag ∈ engineABFresh.tags, resolveAll tag ≠ none) :=
  ⟨rfl, by decide,
    (Start_iff_all_tags_known ctxPlatform optionsAB engineABFresh resolveAll rfl
      (by decide)).1⟩

/-- C16, counterexample: with `recovery_interval` negative `NewFailover`
accepts the configuration and keeps the interval; `Start` resolves both tags,
which the manager knows, and then panics in `time.NewTicker` instead of
succeeding. -/
theorem Start_panics_on_negative_interval :
    NewFailover ctxPlatform optionsNegativeInterval =
      Except.ok { engineABFresh with recoveryInterval := -1000000000 } ∧
    (∀ tag ∈ ({ engineABFresh with recoveryInterval := -1000000000 } : Failover).tags,
      resolveAll tag ≠ none) ∧
    Start { engineABFresh with recoveryInterval := -1000000000 } resolveAll = none :=
  ⟨rfl, by intro tag _; simp [resolveAll], rfl⟩

theorem ListenPacket_lifecycle (f : Failover) (ctxErr : Bool) (ticker : Option Bool)
    (closeClosed closeOnce : Bool) (wg : Nat) (first retry : Nat → Except Error PacketConn)
    (isExternal : Bool) (destination : String) :
    ListenPacket { f with ctxErr := ctxErr, recoveryTicker := ticker,
                          closeClosed := closeClosed, closeOnce := closeOnce, wg := wg }
        first retry isExternal destination =
      (ListenPacket f first retry isExternal destination).map (fun r =>
        { r with state := { r.state with ctxErr := ctxErr, recoveryTicker := ticker,
                                         closeClosed := closeClosed, closeOnce := closeOnce,
                                         wg := wg } }) := by
  unfold ListenPacket
  simp only []
  split
  · rfl
  · cases index? f.outbounds f.selected with
    | none => rfl
    | some selected =>
      simp only []
      cases first f.selected.toNat with
      | ok conn =>
        simp only []
        cases store? f.consecutiveFailures f.selected 0 <;> rfl
      | error err =>
        simp only []
        cases index? f.consecutiveFailures f.selected with
        | none => rfl
        | some c =>
          simp only []
          split
          · have hsw := switchToNext_lifecycle
              { f with consecutiveFailures :=
                  f.consecutiveFailures.set f.selected.toNat (wrapInt32 (c + 1)) }
              ctxErr ticker closeClosed closeOnce wg f.selected
            simp only [] at hsw
            rw [hsw]
            generalize switchToNext _ f.selected = osw
            cases osw with
            | none => rfl
            | some sw =>
              simp only [Option.map_some']
              split
              · cases index? sw.state.outbounds sw.state.selected with
                | none => rfl
                | some _ =>
                  simp only []
                  cases retry sw.state.selected.toNat with
                  | ok conn =>
                    simp only []
                    cases store? sw.state.consecutiveFailures sw.state.selected 0 <;> rfl
                  | error e2 => rfl
              · rfl
          · rfl

/-- The state `Close` leaves differs from the one it found in lifecycle fields only. -/
theorem Close_state (f : Failover) (exited : Bool) :
    (Close f exited).state =
      { f with ctxErr := (Close f exited).state.ctxErr
               recoveryTicker := (Close f exited).state.recoveryTicker
               closeClosed := (Close f exited).state.closeClosed
               closeOnce := (Close f exited).state.closeOnce
               wg := (Close f exited).state.wg } := by
  unfold Close
  split <;> rfl

/-- On a started engine the first effect of a dial is the dial of the selected candidate. -/
theorem DialContext_first_event {f : Failover} (hf : Started f) {i : Nat}
    (hsel : f.selected = (i : Int))
    (first retry : Nat → Except Error Conn) (isExternal : Bool)
    (network destination : String) :
    ∃ r, DialContext f first retry isExternal network destination = some r ∧
      r.events.head? = some (Event.dialContext i network destination) := by
  have hi : i < f.tags.length := by
    obtain ⟨-, -, -, -, -, -, hlt, -⟩ := hf
    rw [hsel] at hlt
    exact_mod_cast hlt
  cases hfirst : first i with
  | ok conn =>
    exact ⟨_, DialContext_ok f first retry isExternal network destination i conn hf hsel hfirst,
      rfl⟩
  | error err =>
    by_cases hthr : f.maxFailures ≤ wrapInt32 (counter f i + 1)
    · have hf1 := addFailure_started hf i
      obtain ⟨sw, hsw⟩ := switchToNext_total hf1 hi
      obtain ⟨hsws, -, -, -⟩ := switchToNext_started hf1 hi hsw
      obtain ⟨i', hsel', -⟩ := started_selected hsws
      by_cases hne : i' = i
      · subst hne
        obtain ⟨_, -, hd⟩ := DialContext_no_retry f first retry isExternal network destination
          i' err sw hf hsel hfirst hthr hsw hsel'
        exact ⟨_, hd, rfl⟩
      · obtain ⟨_, -, hd⟩ := DialContext_retry f first retry isExternal network destination
          i i' err sw hf hsel hfirst hthr hsw hsel' hne
        rw [hd]
        cases retry i' <;> exact ⟨_, rfl, rfl⟩
    · obtain ⟨_, -, hd⟩ := DialContext_below f first retry isExternal network destination
        i err hf hsel hfirst (by omega)
      exact ⟨_, hd, rfl⟩

/-- C13 (amended): `Close` changes neither the selection, nor the counters,
nor the resolved handles, and the engine does not look at its closed state
when dialing: after `Close`, `DialContext` and `ListenPacket` return the same
value, make the same delegated calls and other effects, and leave the same
selection and counters as they would have without `Close`. On a started
engine a dial after `Close` is therefore still delegated to the selected
candidate. -/
theorem dial_after_Close_unchanged (f : Failover) (exited : Bool) :
    (Close f exited).state.selected = f.selected ∧
    (Close f exited).state.consecutiveFailures = f.consecutiveFailures ∧
    (Close f exited).state.outbounds = f.outbounds ∧
    (∀ first retry isExternal network destination,
      (DialContext (Close f exited).state first retry isExternal network destination).map
        (fun r => (r.value, r.events, r.state.selected, r.state.consecutiveFailures)) =
      (DialContext f first retry isExternal network destination).map
        (fun r => (r.value, r.events, r.state.selected, r.state.consecutiveFailures))) ∧
    (∀ first retry isExternal destination,
      (ListenPacket (Close f exited).state first retry isExternal destination).map
        (fun r => (r.value, r.events, r.state.selected, r.state.consecutiveFailures)) =
      (ListenPacket f first retry isExternal destination).map
        (fun r => (r.value, r.events, r.state.selected, r.state.consecutiveFailures))) ∧
    (∀ (i : Nat) first retry isExternal network destination,
      Started f → f.selected = (i : Int) →
      ∃ r, DialContext (Close f exited).state first retry isExternal network destination
          = some r ∧
        r.events.head? = some (Event.dialContext i network destination)) := by
  have hst := Close_state f exited
  have hsel : (Close f exited).state.selected = f.selected := by rw [hst]
  have hcs : (Close f exited).state.consecutiveFailures = f.consecutiveFailures := by rw [hst]
  have hob : (Close f exited).state.outbounds = f.outbounds := by rw [hst]
  have hdial : ∀ first retry isExternal network destination,
      (DialContext (Close f exited).state first retry isExternal network destination).map
        (fun r => (r.value, r.events, r.state.selected, r.state.consecutiveFailures)) =
      (DialContext f first retry isExternal network destination).map
        (fun r => (r.value, r.events, r.state.selected, r.state.consecutiveFailures)) := by
    intro first retry isExternal network destination
    rw [hst, DialContext_lifecycle]
    cases DialContext f first retry isExternal network destination <;> rfl
  refine ⟨hsel, hcs, hob, hdial, ?_, ?_⟩
  · intro first retry isExternal destination
    rw [hst, ListenPacket_lifecycle]
    cases ListenPacket f first retry isExternal destination <;> rfl
  · intro i first retry isExternal network destination hf hi
    obtain ⟨r, hr, hhead⟩ := DialContext_first_event hf hi first retry isExternal network
      destination
    have h := hdial first retry isExternal network destination
    rw [hr] at h
    cases hc : DialContext (Close f exited).state first retry isExternal network destination with
    | none => rw [hc] at h; cases h
    | some r' =>
      rw [hc] at h
      simp only [Option.map_some', Option.some.injEq, Prod.mk.injEq] at h
      exact ⟨r', rfl, by rw [h.2.1]; exact hhead⟩

/-- C13, counterexample: scenario S2's engine is closed, then dialed; the dial
is delegated to A, succeeds and returns A's connection instead of the error
"no available outbound". -/
theorem dial_after_Close_delegates :
    Started engineAB ∧
    (Close engineAB true).state.closeOnce = true ∧
    (DialContext (Close engineAB true).state (connect 7) (connect 8) false "tcp"
      "example.org:443").map (fun r => (r.value, r.events)) =
      some (Except.ok { conn := { id := 7 }, isExternal := false },
        [Event.dialContext 0 "tcp" "example.org:443"]) :=
  ⟨by decide, rfl, rfl⟩

/-! ## Attempts per dial: claims -/

theorem switchToNext_events_count {f : Failover} {currentIdx : Int} {sw : Ret Unit}
    (h : switchToNext f currentIdx = some sw) :
    dialCount sw.events = 0 ∧ interruptCount sw.events = 1 := by
  unfold switchToNext at h
  split at h
  · cases h
  · split at h
    · cases h
    · split at h
      · cases h
      · cases h
        unfold notifySwitched dialCount interruptCount
        split <;> simp
    · cases h
      unfold notifyAllFailed dialCount interruptCount
      split <;> simp

theorem dialCount_append (xs ys : List Event) :
    dialCount (xs ++ ys) = dialCount xs + dialCount ys := by
  unfold dialCount
  exact List.countP_append _ _ _

theorem interruptCount_append (xs ys : List Event) :
    interruptCount (xs ++ ys) = interruptCount xs + interruptCount ys := by
  unfold interruptCount
  exact List.countP_append _ _ _

/-- A started engine always answers a dial. -/
theorem DialContext_total {f : Failover} (hf : Started f)
    (first retry : Nat → Except Error Conn) (isExternal : Bool)
    (network destination : String) :
    ∃ r, DialContext f first retry isExternal network destination = some r := by
  obtain ⟨i, hsel, hi⟩ := started_selected hf
  cases hfirst : first i with
  | ok conn =>
    exact ⟨_, DialContext_ok f first retry isExternal network destination i conn hf hsel hfirst⟩
  | error err =>
    by_cases hthr : f.maxFailures ≤ wrapInt32 (counter f i + 1)
    · have hf1 := addFailure_started hf i
      obtain ⟨sw, hsw⟩ := switchToNext_total hf1 hi
      obtain ⟨hsws, -, -, -⟩ := switchToNext_started hf1 hi hsw
      obtain ⟨i', hsel', -⟩ := started_selected hsws
      by_cases hne : i' = i
      · subst hne
        obtain ⟨_, -, hd⟩ := DialContext_no_retry f first retry isExternal network destination
          i' err sw hf hsel hfirst hthr hsw hsel'
        exact ⟨_, hd⟩
      · obtain ⟨_, -, hd⟩ := DialContext_retry f first retry isExternal network destination
          i i' err sw hf hsel hfirst hthr hsw hsel' hne
        rw [hd]
        cases retry i' <;> exact ⟨_, rfl⟩
    · obtain ⟨_, -, hd⟩ := DialContext_below f first retry isExternal network destination
        i err hf hsel hfirst (by omega)
      exact ⟨_, hd⟩

/-- C17: a single `DialContext` call invokes the candidates' dial at most
twice and triggers at most one switch, in every engine state and whatever
the candidates answer. On a started engine with selection `i` it always
returns; the first attempt goes to `i`; there is exactly one attempt when
that one succeeds or leaves the failure count below `maxFailures`; and there
are two only when the first failed, the count reached the threshold and
`switchToNext` left the selection at an index `i' ≠ i`, the second attempt
being the last effect of the call: whatever it answers, no third attempt and
no second switch follow. -/
theorem DialContext_at_most_two_attempts (f : Failover)
    (first retry : Nat → Except Error Conn) (isExternal : Bool)
    (network destination : String) :
    (∀ r, DialContext f first retry isExternal network destination = some r →
      dialCount r.events ≤ 2 ∧ interruptCount r.events ≤ 1) ∧
    (∀ i : Nat, Started f → f.selected = (i : Int) →
      ∃ r, DialContext f first retry isExternal network destination = some r ∧
        r.events.head? = some (Event.dialContext i network destination) ∧
        (dialCount r.events = 1 ∨ dialCount r.events = 2) ∧
        ((∃ conn, first i = Except.ok conn) → dialCount r.events = 1) ∧
        (wrapInt32 (counter f i + 1) < f.maxFailures → dialCount r.events = 1) ∧
        (dialCount r.events = 2 →
          ∃ e sw, ∃ i' : Nat, first i = Except.error e ∧
            f.maxFailures ≤ wrapInt32 (counter f i + 1) ∧
            switchToNext { f with consecutiveFailures :=
              f.consecutiveFailures.set i (wrapInt32 (counter f i + 1)) } (i : Int) = some sw ∧
            sw.state.selected = (i' : Int) ∧ i' ≠ i ∧
            r.events.getLast? = some (Event.dialContext i' network destination))) := by
  constructor
  · intro r h
    unfold DialContext at h
    simp only [] at h
    split at h
    · cases h; simp [dialCount, interruptCount]
    · cases hob : index? f.outbounds f.selected with
      | none => simp only [hob] at h; cases h
      | some selected =>
        simp only [hob] at h
        cases hfirst : first f.selected.toNat with
        | ok conn =>
          simp only [hfirst] at h
          cases hst : store? f.consecutiveFailures f.selected 0 with
          | none => simp only [hst] at h; cases h
          | some cs => simp only [hst] at h; cases h; simp [dialCount, interruptCount]
        | error err =>
          simp only [hfirst] at h
          cases hc : index? f.consecutiveFailures f.selected with
          | none => simp only [hc] at h; cases h
          | some c =>
            simp only [hc] at h
            split at h
            · generalize hsw : switchToNext _ f.selected = osw at h
              cases osw with
              | none => cases h
              | some sw =>
                simp only [] at h
                obtain ⟨hd, hi⟩ := switchToNext_events_count hsw
                split at h
                · cases hob2 : index? sw.state.outbounds sw.state.selected with
                  | none => simp only [hob2] at h; cases h
                  | some _ =>
                    simp only [hob2] at h
                    cases hretry : retry sw.state.selected.toNat with
                    | ok conn =>
                      simp only [hretry] at h
                      cases hst : store? sw.state.consecutiveFailures sw.state.selected 0 with
                      | none => simp only [hst] at h; cases h
                      | some cs =>
                        simp only [hst] at h
                        cases h
                        simp only [dialCount_append, interruptCount_append, hd, hi]
                        simp [dialCount, interruptCount]
                    | error e2 =>
                      simp only [hretry] at h
                      cases h
                      simp only [dialCount_append, interruptCount_append, hd, hi]
                      simp [dialCount, interruptCount]
                · cases h
                  simp only [dialCount_append, interruptCount_append, hd, hi]
                  simp [dialCount, interruptCount]
            · cases h; simp [dialCount, interruptCount]
  · intro i hf hsel
    have hi : i < f.tags.length := by
      obtain ⟨-, -, -, -, -, -, hlt, -⟩ := hf
      rw [hsel] at hlt
      exact_mod_cast hlt
    cases hfirst : first i with
    | ok conn =>
      refine ⟨_, DialContext_ok f first retry isExternal network destination i conn hf hsel
        hfirst, rfl, Or.inl (by simp [dialCount]), fun _ => by simp [dialCount],
        fun _ => by simp [dialCount], ?_⟩
      intro h2
      simp [dialCount] at h2
    | error err =>
      by_cases hthr : f.maxFailures ≤ wrapInt32 (counter f i + 1)
      · have hf1 := addFailure_started hf i
        obtain ⟨sw, hsw⟩ := switchToNext_total hf1 hi
        obtain ⟨hsws, -, -, -⟩ := switchToNext_started hf1 hi hsw
        obtain ⟨hd, -⟩ := switchToNext_events_count hsw
        obtain ⟨i', hsel', -⟩ := started_selected hsws
        by_cases hne : i' = i
        · subst hne
          obtain ⟨selected, -, hdial⟩ := DialContext_no_retry f first retry isExternal network
            destination i' err sw hf hsel hfirst hthr hsw hsel'
          have hcount : dialCount ([Event.dialContext i' network destination,
              Event.log Level.warn (dialFailedMsg selected.tag (wrapInt32 (counter f i' + 1))
                f.maxFailures err)] ++ sw.events) = 1 := by
            rw [dialCount_append, hd]
            simp [dialCount]
          refine ⟨_, hdial, rfl, Or.inl hcount, fun _ => hcount, fun _ => hcount, ?_⟩
          intro h2
          rw [hcount] at h2
          cases h2
        · obtain ⟨_, -, hdial⟩ := DialContext_retry f first retry isExternal network
            destination i i' err sw hf hsel hfirst hthr hsw hsel' hne
          have hcount : ∀ tag, dialCount ([Event.dialContext i network destination,
              Event.log Level.warn (dialFailedMsg tag (wrapInt32 (counter f i + 1))
                f.maxFailures err)] ++ sw.events ++
              [Event.dialContext i' network destination]) = 2 := by
            intro tag
            rw [dialCount_append, dialCount_append, hd]
            simp [dialCount]
          cases hretry : retry i' with
          | ok conn =>
            rw [hretry] at hdial
            simp only [] at hdial
            refine ⟨_, hdial, rfl, Or.inr (hcount _), ?_, ?_, ?_⟩
            · rintro ⟨_, h⟩; cases h
            · intro h; omega
            · intro _
              exact ⟨err, sw, i', rfl, hthr, hsw, hsel', hne, List.getLast?_concat _⟩
          | error e2 =>
            rw [hretry] at hdial
            simp only [] at hdial
            refine ⟨_, hdial, rfl, Or.inr (hcount _), ?_, ?_, ?_⟩
            · rintro ⟨_, h⟩; cases h
            · intro h; omega
            · intro _
              exact ⟨err, sw, i', rfl, hthr, hsw, hsel', hne, List.getLast?_concat _⟩
      · obtain ⟨_, -, hdial⟩ := DialContext_below f first retry isExternal network destination
          i err hf hsel hfirst (by omega)
        refine ⟨_, hdial, rfl, Or.inl (by simp [dialCount]), fun _ => by simp [dialCount],
          fun _ => by simp [dialCount], ?_⟩
        intro h2
        simp [dialCount] at h2

/-! ## Packet listen against stream dial: claims -/

theorem signals_append (xs ys : List Event) :
    signals (xs ++ ys) = signals xs ++ signals ys := by
  unfold signals
  exact List.filter_append _ _

/-- C18: `ListenPacket` is the same transition as `DialContext`. For every
engine state, when each candidate's `ListenPacket` answers as its
`DialContext` does (both succeed, or both fail with the same error), the two
calls either both panic or both return, and then they leave the same engine
(the same selection and the one shared counter vector, updated alike), return
the same outcome (success, or the same error), and trigger the same
interrupts and platform callbacks in the same order. -/
theorem ListenPacket_same_transition (f : Failover)
    (firstL retryL : Nat → Except Error PacketConn)
    (firstD retryD : Nat → Except Error Conn)
    (isExternal : Bool) (network destination : String)
    (hfirst : ∀ i, errorOf (firstL i) = errorOf (firstD i))
    (hretry : ∀ i, errorOf (retryL i) = errorOf (retryD i)) :
    (ListenPacket f firstL retryL isExternal destination).map
      (fun r => (r.state, errorOf r.value, signals r.events)) =
    (DialContext f firstD retryD isExternal network destination).map
      (fun r => (r.state, errorOf r.value, signals r.events)) := by
  unfold ListenPacket DialContext
  simp only []
  split
  · rfl
  · cases index? f.outbounds f.selected with
    | none => rfl
    | some selected =>
      simp only []
      have h1 := hfirst f.selected.toNat
      cases hL : firstL f.selected.toNat with
      | ok connL =>
        cases hD : firstD f.selected.toNat with
        | error e => rw [hL, hD] at h1; cases h1
        | ok connD =>
          simp only []
          cases store? f.consecutiveFailures f.selected 0 <;> rfl
      | error eL =>
        cases hD : firstD f.selected.toNat with
        | ok c => rw [hL, hD] at h1; cases h1
        | error eD =>
          rw [hL, hD] at h1
          have he : eL = eD := by simpa [errorOf] using h1
          subst he
          simp only []
          cases index? f.consecutiveFailures f.selected with
          | none => rfl
          | some c =>
            simp only []
            split
            · generalize switchToNext _ f.selected = osw
              cases osw with
              | none => rfl
              | some sw =>
                simp only []
                split
                · cases index? sw.state.outbounds sw.state.selected with
                  | none => rfl
                  | some _ =>
                    simp only []
                    have h2 := hretry sw.state.selected.toNat
                    cases hL2 : retryL sw.state.selected.toNat with
                    | ok connL =>
                      cases hD2 : retryD sw.state.selected.toNat with
                      | error e => rw [hL2, hD2] at h2; cases h2
                      | ok connD =>
                        simp only []
                        cases store? sw.state.consecutiveFailures sw.state.selected 0 with
                        | none => rfl
                        | some cs =>
                          simp only [Option.map_some', signals_append]
                          rfl
                    | error eL2 =>
                      cases hD2 : retryD sw.state.selected.toNat with
                      | ok c => rw [hL2, hD2] at h2; cases h2
                      | error eD2 =>
                        rw [hL2, hD2] at h2
                        have he2 : eL2 = eD2 := by simpa [errorOf] using h2
                        subst he2
                        simp only [Option.map_some', signals_append]
                        rfl
                · simp only [Option.map_some', signals_append]
                  rfl
            · rfl

/-- C18, witness: scenario S1 with one failure of A counted by a dial and the
next by a listen: the second failure reaches `max_failures=2` on the shared
counter and the listen switches to B, exactly as a second failed dial does. -/
theorem ListenPacket_same_transition_witness :
    (∀ i, errorOf ((failWith "e1" : Nat → Except Error PacketConn) i) =
      errorOf ((failWith "e1" : Nat → Except Error Conn) i)) ∧
    ((DialContext engineABC (failWith "e1") (connect 7) false "tcp" "example.org:443").bind
      (fun d => ListenPacket d.state (failWith "e1") (failWith "e2") false
        "example.org:443")).map
      (fun r => (r.state.selected, r.state.consecutiveFailures, errorOf r.value,
        signals r.events)) =
      some (1, [2, 0, 0], some "e2",
        [Event.interrupt false, Event.onNodeSwitched "A" "B"]) ∧
    (ListenPacket engineABC (failWith "e1") (failWith "e2") false "example.org:443").map
      (fun r => (r.state, errorOf r.value, signals r.events)) =
    (DialContext engineABC (failWith "e1") (failWith "e2") false "tcp" "example.org:443").map
      (fun r => (r.state, errorOf r.value, signals r.events)) :=
  ⟨fun _ => rfl, rfl,
    ListenPacket_same_transition engineABC (failWith "e1") (failWith "e2") (failWith "e1")
      (failWith "e2") false "tcp" "example.org:443" (fun _ => rfl) (fun _ => rfl)⟩

/-! ## Close: claims -/

theorem Close_closeOnce (f : Failover) (exited : Bool) :
    (Close f exited).state.closeOnce = true := by
  unfold Close
  split
  · assumption
  · rfl

theorem closeTimes_closed (f : Failover) (hclosed : f.closeOnce = true) (calls : List Bool) :
    closeTimes f calls =
      { state := f, events := [], value := List.replicate calls.length (Except.ok ()) } := by
  induction calls with
  | nil => rfl
  | cons exited rest ih =>
    have hc : Close f exited = { state := f, events := [], value := Except.ok () } := by
      unfold Close
      simp [hclosed]
    simp only [closeTimes, hc, ih, List.nil_append, List.length_cons, List.replicate_succ]

/-- C19: `Close` is idempotent. For every engine state and every `k ≥ 1`
calls of `Close`, the engine is left as by the first call alone, the effects
of all calls together are those of the first, and every call returns nil. On
an engine not closed before, these effects hold exactly one cancellation of
the context and one closing of the `close` channel, and the engine ends
cancelled with the once-guard fired; on an engine closed before, nothing
happens. -/
theorem Close_idempotent (f : Failover) (exited : Bool) (rest : List Bool) :
    (closeTimes f (exited :: rest)).state = (Close f exited).state ∧
    (closeTimes f (exited :: rest)).events = (Close f exited).events ∧
    (closeTimes f (exited :: rest)).value =
      List.replicate (rest.length + 1) (Except.ok ()) ∧
    (f.closeOnce = false →
      (Close f exited).events.count Event.cancel = 1 ∧
      (Close f exited).events.count Event.closeChan = 1 ∧
      (Close f exited).state.ctxErr = true ∧
      (Close f exited).state.closeClosed = true ∧
      (Close f exited).state.closeOnce = true) ∧
    (f.closeOnce = true →
      (Close f exited).events = [] ∧ (Close f exited).state = f) := by
  have hv : (Close f exited).value = Except.ok () := by
    unfold Close
    split <;> rfl
  have hrest := closeTimes_closed (Close f exited).state (Close_closeOnce f exited) rest
  refine ⟨?_, ?_, ?_, ?_, ?_⟩
  · simp only [closeTimes, hrest]
  · simp only [closeTimes, hrest, List.append_nil]
  · simp only [closeTimes, hrest, hv, List.replicate_succ]
  · intro hopen
    unfold Close
    simp only [hopen, Bool.false_eq_true, if_false]
    refine ⟨?_, ?_, trivial, trivial, trivial⟩
    · cases f.recoveryTicker <;> simp [List.count_cons] <;> split <;> simp
    · cases f.recoveryTicker <;> simp [List.count_cons] <;> split <;> simp
  · intro hclosed
    unfold Close
    simp [hclosed]

/-! ## More candidates than the selection cell can name -/

/-- The switch branch of `switchToNext` when the candidate right after
`cur` is below the threshold, on any engine: the index stored is the next
index reduced to `int32`. -/
theorem switchToNext_next_available (f : Failover) (cur : Nat) (fromNode toNode : String)
    (c : Int) (hlen : 2 ≤ f.outbounds.length) (hfrom : f.tags[cur]? = some fromNode)
    (hc : f.consecutiveFailures[(cur + 1) % f.outbounds.length]? = some c)
    (hlow : c < f.maxFailures)
    (hto : f.tags[(cur + 1) % f.outbounds.length]? = some toNode) :
    switchToNext f (cur : Int) = some {
      state := { f with selected := wrapInt32 (((cur + 1) % f.outbounds.length : Nat) : Int) }
      events :=
        [Event.log Level.warn ("🔄 switched from " ++ fromNode ++ " to " ++ toNode),
         Event.interrupt f.interruptExternalConnections]
        ++ notifySwitched f fromNode toNode
      value := () } := by
  obtain ⟨m, hm⟩ : ∃ m, f.outbounds.length - 1 = m + 1 := ⟨f.outbounds.length - 2, by omega⟩
  have hscan : switchScan f cur (List.range' 1 (f.outbounds.length - 1)) =
      some (some ((cur + 1) % f.outbounds.length)) := by
    rw [hm, List.range'_succ]
    unfold switchScan
    simp only [hc]
    rw [if_neg (by omega)]
  unfold switchToNext
  rw [index?_natCast, hfrom]
  simp only [Int.toNat_ofNat, hscan, hto]

theorem engineMany_lengths (n : Nat) (s : Int) :
    (engineMany n s).tags.length = n ∧ (engineMany n s).outbounds.length = n ∧
    (engineMany n s).consecutiveFailures.length = n := by
  refine ⟨?_, ?_, ?_⟩
  · show ((List.range n).map tagOf).length = n
    rw [List.length_map, List.length_range]
  · show (((List.range n).map tagOf).map outboundOf).length = n
    rw [List.length_map, List.length_map, List.length_range]
  · show (List.replicate n (0 : Int)).length = n
    rw [List.length_replicate]

theorem engineMany_tag (n : Nat) (s : Int) (i : Nat) (hi : i < n) :
    (engineMany n s).tags[i]? = some (tagOf i) := by
  show ((List.range n).map tagOf)[i]? = some (tagOf i)
  rw [List.getElem?_map, List.getElem?_range hi]
  rfl

theorem engineMany_counter (n : Nat) (s : Int) (i : Nat) (hi : i < n) :
    (engineMany n s).consecutiveFailures[i]? = some 0 := by
  show (List.replicate n (0 : Int))[i]? = some 0
  rw [List.getElem?_replicate, if_pos hi]

theorem engineMany_selected (n : Nat) (s v : Int) :
    { engineMany n s with selected := v } = engineMany n v := rfl

/-- On the engine of `optionsMany n`, all counters 0, `switchToNext cur` takes
the switch branch to the next candidate and stores its index as an `int32`. -/
theorem switchToNext_engineMany (n cur : Nat) (s : Int) (hn : 2 ≤ n) (hcur : cur < n) :
    switchToNext (engineMany n s) (cur : Int) = some {
      state := engineMany n (wrapInt32 (((cur + 1) % n : Nat) : Int))
      events :=
        [Event.log Level.warn
           ("🔄 switched from " ++ tagOf cur ++ " to " ++ tagOf ((cur + 1) % n)),
         Event.interrupt false,
         Event.log Level.warn
           ("🔔 calling OnNodeSwitched callback: " ++ tagOf cur ++ " -> " ++
             tagOf ((cur + 1) % n)),
         Event.onNodeSwitched (tagOf cur) (tagOf ((cur + 1) % n))]
      value := () } := by
  obtain ⟨-, hlo, -⟩ := engineMany_lengths n s
  have hlt : (cur + 1) % n < n := Nat.mod_lt _ (by omega)
  have h := switchToNext_next_available (engineMany n s) cur (tagOf cur)
    (tagOf ((cur + 1) % n)) 0 (by rw [hlo]; exact hn) (engineMany_tag n s cur hcur)
    (by rw [hlo]; exact engineMany_counter n s _ hlt) (show (0 : Int) < 1 by decide)
    (by rw [hlo]; exact engineMany_tag n s _ hlt)
  rw [hlo, engineMany_selected] at h
  exact h

theorem optionsMany_length (n : Nat) : (optionsMany n).Outbounds.length = n := by
  show ((List.range n).map tagOf).length = n
  rw [List.length_map, List.length_range]

theorem engineMany_zero_counters (n : Nat) (s : Int) :
    ∀ c ∈ (engineMany n s).consecutiveFailures, c = 0 := by
  intro c hc
  exact List.eq_of_mem_replicate hc

/-- The engine of `optionsMany n` right after `NewFailover` and `Start`. -/
theorem engineMany_start (n : Nat) (hn : 1 ≤ n) :
    Reachable ctxPlatform (optionsMany n) resolveAll (engineMany n 0) := by
  have hnew : NewFailover ctxPlatform (optionsMany n) = Except.ok
      { engineMany n 0 with outbounds := [], recoveryTicker := none, started := false,
                            wg := 0 } := by
    unfold NewFailover
    rw [if_neg (by rw [optionsMany_length]; omega)]
    simp only [optionsMany_length]
    rfl
  have hstart := Start_all_known
    { engineMany n 0 with outbounds := [], recoveryTicker := none, started := false, wg := 0 }
    resolveAll (tagOf 0) (fun _ _ h => by cases h) (show ¬ (5 * 60000000000 : Int) ≤ 0 by decide)
    (engineMany_tag n 0 0 (by omega))
  have hmap : ((List.range n).map tagOf).filterMap resolveAll =
      ((List.range n).map tagOf).map outboundOf := by
    show ((List.range n).map tagOf).filterMap (some ∘ outboundOf) = _
    rw [List.filterMap_eq_map]
  have hres := Reachable.start _ _ hnew hstart rfl
  have hst : ({ engineMany n 0 with
      outbounds := ((List.range n).map tagOf).filterMap resolveAll, selected := 0,
      started := true, recoveryTicker := some true, wg := 0 + 1 } : Failover) =
      engineMany n 0 := by
    rw [hmap]
    rfl
  rw [← hst]
  exact hres

/-- The selection of the engine of `optionsMany n` walks up one candidate per
`switchToNext` on the selected index. -/
theorem engineMany_reachable (n k : Nat) (hn : 2 ≤ n) (hk : k < n) (hk2 : k ≤ 2147483647) :
    Reachable ctxPlatform (optionsMany n) resolveAll (engineMany n (k : Int)) := by
  induction k with
  | zero => exact engineMany_start n (by omega)
  | succ k ih =>
    have hsw := switchToNext_engineMany n k (k : Int) hn (by omega)
    have hmod : (k + 1) % n = k + 1 := Nat.mod_eq_of_lt hk
    have hv : wrapInt32 (((k + 1 : Nat)) : Int) = ((k + 1 : Nat) : Int) :=
      wrapInt32_natCast (by omega)
    rw [hmod, hv] at hsw
    exact Reachable.step _ _ (ih (by omega) (by omega)) (Step.switchToNext _ _ _ hsw)

/-- One `switchToNext` on the engine of `optionsMany n` as a step of a run. -/
theorem engineMany_step (n cur : Nat) (s : Int) (hn : 2 ≤ n) (hcur : cur < n) :
    Step (engineMany n s) (engineMany n (wrapInt32 (((cur + 1) % n : Nat) : Int))) :=
  Step.switchToNext _ _ _ (switchToNext_engineMany n cur s hn hcur)

theorem wrapInt32_next_index :
    wrapInt32 (((2147483647 + 1) % 2147483649 : Nat) : Int) = -2147483648 := by decide

/-- C6, counterexample to the claim as stated: 2147483649 candidates, every
counter 0, `max_failures=1`, the selection on candidate 2147483647. The first
offset with a counter below the threshold is 1, so the claim has the selection
set to `(2147483647 + 1) mod 2147483649 = 2147483648`; `switchToNext` stores
that index as an `int32`, which leaves -2147483648 in the selection. -/
theorem switchToNext_selection_wraps :
    (engineMany 2147483649 2147483647).started = true ∧
    (engineMany 2147483649 2147483647).tags.length = 2147483649 ∧
    (engineMany 2147483649 2147483647).outbounds.length = 2147483649 ∧
    (engineMany 2147483649 2147483647).consecutiveFailures.length = 2147483649 ∧
    (∀ c ∈ (engineMany 2147483649 2147483647).consecutiveFailures, c = 0) ∧
    (engineMany 2147483649 2147483647).maxFailures = 1 ∧
    (engineMany 2147483649 2147483647).selected = 2147483647 ∧
    (2147483647 + 1) % 2147483649 = 2147483648 ∧
    (switchToNext (engineMany 2147483649 2147483647) ((2147483647 : Nat) : Int)).map
      (fun r => r.state.selected) = some (-2147483648) := by
  obtain ⟨h1, h2, h3⟩ := engineMany_lengths 2147483649 2147483647
  refine ⟨rfl, h1, h2, h3, engineMany_zero_counters 2147483649 2147483647, rfl, rfl,
    by decide, ?_⟩
  rw [switchToNext_engineMany 2147483649 2147483647 2147483647 (by decide) (by decide),
    wrapInt32_next_index]
  rfl

/-- C8, counterexample to the claim as stated, in two engines. (1) 2147483649
candidates, every counter 0, the selection on candidate 2147483647, and
`switchToNext(2147483647)`: the switch branch calls `OnNodeSwitched` with the
tags of candidates 2147483647 and 2147483648, but the selection it leaves is
-2147483648, which names no candidate. (2) `outbounds=[A,B]`, the selection
already on B, and `switchToNext` called with the index of A: the switch branch
calls `OnNodeSwitched("A","B")`, but the selection is B before and after, and
the previously selected candidate is B, not the `from_tag` A. -/
theorem switchToNext_fires_without_move :
    (engineMany 2147483649 2147483647).selected = 2147483647 ∧
    (∃ r, switchToNext (engineMany 2147483649 2147483647) ((2147483647 : Nat) : Int) =
        some r ∧
      Event.onNodeSwitched (tagOf 2147483647) (tagOf 2147483648) ∈ r.events ∧
      r.state.selected = -2147483648 ∧ index? r.state.tags r.state.selected = none) ∧
    Started engineOnB ∧ engineOnB.selected = 1 ∧ engineOnB.tags[1]? = some "B" ∧
    (switchToNext engineOnB 0).map
      (fun r => (r.state.selected, decide (Event.onNodeSwitched "A" "B" ∈ r.events),
        decide (Event.onAllNodesFailed ∈ r.events))) = some (1, true, false) := by
  have hsw := switchToNext_engineMany 2147483649 2147483647 2147483647 (by decide)
    (by decide)
  have hmod : (2147483647 + 1) % 2147483649 = 2147483648 := by decide
  rw [wrapInt32_next_index, hmod] at hsw
  refine ⟨rfl, ⟨_, hsw, ?_, rfl, rfl⟩, by decide, rfl, rfl, by decide⟩
  simp

/-- C9, counterexample to the claim as stated: the configuration of
2147483649 outbounds with `max_failures=1` is accepted by `NewFailover` and
started by `Start`; 2147483647 calls of `switchToNext` on the selected index
take the selection to candidate 2147483647, and one more leaves -2147483648
in the selection, outside `0 ≤ selection < n`. -/
theorem selection_leaves_range :
    (optionsMany 2147483649).Outbounds.length = 2147483649 ∧
    Reachable ctxPlatform (optionsMany 2147483649) resolveAll
      (engineMany 2147483649 2147483647) ∧
    Step (engineMany 2147483649 2147483647) (engineMany 2147483649 (-2147483648)) ∧
    Reachable ctxPlatform (optionsMany 2147483649) resolveAll
      (engineMany 2147483649 (-2147483648)) ∧
    (engineMany 2147483649 (-2147483648)).selected = -2147483648 := by
  have hr := engineMany_reachable 2147483649 2147483647 (by decide) (by decide) (by decide)
  have hstep := engineMany_step 2147483649 2147483647 2147483647 (by decide) (by decide)
  rw [wrapInt32_next_index] at hstep
  exact ⟨optionsMany_length 2147483649, hr, hstep, Reachable.step _ _ hr hstep, rfl⟩

/-! ## Counter bounds: claims -/

/-- Clearing the counter of the candidate the selection is on, or is moved to. -/
theorem withinBudget_clear (f : Failover) {g : Failover} (i : Nat) (htags : g.tags = f.tags)
    (hmax : g.maxFailures = f.maxFailures) (hsel : g.selected = (i : Int))
    (hcs : g.consecutiveFailures = f.consecutiveFailures.set i 0)
    (hi : i < f.consecutiveFailures.length) (hm : 1 ≤ f.maxFailures)
    (hall : ∀ j : Nat, j < f.tags.length → 0 ≤ counter f j ∧ counter f j ≤ f.maxFailures) :
    WithinBudget g := by
  have hself : counter g i = 0 := by
    unfold counter
    rw [hcs]
    simp [List.getD_eq_getElem?_getD, hi]
  have hne : ∀ j : Nat, j ≠ i → counter g j = counter f j := by
    intro j hj
    unfold counter
    rw [hcs]
    simp [List.getD_eq_getElem?_getD, List.getElem?_set_ne (Ne.symm hj)]
  unfold WithinBudget
  rw [htags, hmax, hsel, Int.toNat_ofNat, hself]
  refine ⟨?_, by omega⟩
  intro j hj
  by_cases hji : j = i
  · subst hji
    rw [hself]
    omega
  · rw [hne j hji]
    exact hall j hj

theorem switchToNext_budget {f : Failover} {cur : Nat} {sw : Ret Unit} (hf : Started f)
    (hcur : cur < f.tags.length) (hm : 1 ≤ f.maxFailures)
    (hall : ∀ j : Nat, j < f.tags.length → 0 ≤ counter f j ∧ counter f j ≤ f.maxFailures)
    (h : switchToNext f (cur : Int) = some sw) :
    WithinBudget sw.state ∧ sw.state.maxFailures = f.maxFailures := by
  obtain ⟨fromNode, -, hsp⟩ := switchToNext_spec f cur hf hcur
  rcases hsp with ⟨k, toNode, hk1, hk2, hlt, -, -, hsw⟩ | ⟨-, hsw⟩
  · rw [hsw] at h
    cases h
    refine ⟨⟨hall, ?_⟩, rfl⟩
    show counter f (((cur + k) % f.tags.length : Nat) : Int).toNat < f.maxFailures
    rw [Int.toNat_ofNat]
    exact hlt
  · rw [hsw] at h
    cases h
    refine ⟨⟨?_, ?_⟩, rfl⟩
    · intro j _
      rw [counter_map_zero]
      exact ⟨le_refl _, by show (0 : Int) ≤ f.maxFailures; omega⟩
    · rw [counter_map_zero]
      show (0 : Int) < f.maxFailures
      omega

/-- The method `DialContext` keeps the counters within the threshold. -/
theorem DialContext_budget {f : Failover} {first retry : Nat → Except Error Conn}
    {isExternal : Bool} {network destination : String}
    {r : Ret (Except Error InterruptConn)} (hf : Started f)
    (hm1 : 1 ≤ f.maxFailures) (hm2 : f.maxFailures ≤ 2147483647) (hb : WithinBudget f)
    (h : DialContext f first retry isExternal network destination = some r) :
    WithinBudget r.state ∧ r.state.maxFailures = f.maxFailures := by
  obtain ⟨i, hsel, hi⟩ := started_selected hf
  obtain ⟨hall, hcur⟩ := hb
  rw [hsel, Int.toNat_ofNat] at hcur
  have hlen : i < f.consecutiveFailures.length := by
    obtain ⟨-, -, -, -, hc, -, -, -⟩ := hf
    omega
  have hci := hall i hi
  have hwrap : wrapInt32 (counter f i + 1) = counter f i + 1 := by
    unfold wrapInt32
    omega
  have hall1 : ∀ j : Nat, j < f.tags.length →
      0 ≤ counter { f with consecutiveFailures :=
        f.consecutiveFailures.set i (wrapInt32 (counter f i + 1)) } j ∧
      counter { f with consecutiveFailures :=
        f.consecutiveFailures.set i (wrapInt32 (counter f i + 1)) } j ≤ f.maxFailures := by
    intro j hj
    by_cases hji : j = i
    · subst hji
      rw [counter_set_self f j _ hlen, hwrap]
      omega
    · rw [counter_set_ne f i j _ hji]
      exact hall j hj
  cases hfirst : first i with
  | ok conn =>
    rw [DialContext_ok f first retry isExternal network destination i conn hf hsel hfirst] at h
    cases h
    exact ⟨withinBudget_clear f i rfl rfl hsel rfl hlen hm1 hall, rfl⟩
  | error err =>
    by_cases hthr : f.maxFailures ≤ wrapInt32 (counter f i + 1)
    · have hf1 := addFailure_started hf i
      obtain ⟨sw, hsw⟩ := switchToNext_total hf1 hi
      obtain ⟨hsws, -, -, -⟩ := switchToNext_started hf1 hi hsw
      obtain ⟨hbsw, hmsw⟩ := switchToNext_budget hf1 hi hm1 hall1 hsw
      obtain ⟨i', hsel', hi'⟩ := started_selected hsws
      by_cases hne : i' = i
      · subst hne
        obtain ⟨_, -, hd⟩ := DialContext_no_retry f first retry isExternal network destination
          i' err sw hf hsel hfirst hthr hsw hsel'
        rw [hd] at h
        cases h
        exact ⟨hbsw, hmsw⟩
      · obtain ⟨_, -, hd⟩ := DialContext_retry f first retry isExternal network destination
          i i' err sw hf hsel hfirst hthr hsw hsel' hne
        rw [hd] at h
        cases hretry : retry i' with
        | ok conn =>
          rw [hretry] at h
          cases h
          have hlen' : i' < sw.state.consecutiveFailures.length := by
            obtain ⟨-, -, -, -, hc, -, -, -⟩ := hsws
            omega
          have hm1' : 1 ≤ sw.state.maxFailures := by
            rw [hmsw]
            exact hm1
          exact ⟨withinBudget_clear sw.state i' rfl rfl hsel' rfl hlen' hm1' hbsw.1, hmsw⟩
        | error e2 =>
          rw [hretry] at h
          cases h
          exact ⟨hbsw, hmsw⟩
    · obtain ⟨_, -, hd⟩ := DialContext_below f first retry isExternal network destination
        i err hf hsel hfirst (by omega)
      rw [hd] at h
      cases h
      refine ⟨⟨hall1, ?_⟩, rfl⟩
      show counter { f with consecutiveFailures :=
        f.consecutiveFailures.set i (wrapInt32 (counter f i + 1)) } f.selected.toNat <
        f.maxFailures
      have htn : f.selected.toNat = i := by rw [hsel, Int.toNat_ofNat]
      rw [htn, counter_set_self f i _ hlen]
      omega

/-- The method `ListenPacket` keeps the counters within the threshold. -/
theorem ListenPacket_budget {f : Failover} {first retry : Nat → Except Error PacketConn}
    {isExternal : Bool} {destination : String}
    {r : Ret (Except Error InterruptPacketConn)} (hf : Started f)
    (hm1 : 1 ≤ f.maxFailures) (hm2 : f.maxFailures ≤ 2147483647) (hb : WithinBudget f)
    (h : ListenPacket f first retry isExternal destination = some r) :
    WithinBudget r.state ∧ r.state.maxFailures = f.maxFailures := by
  have hst := ListenPacket_state f first retry isExternal "udp" destination
  rw [h] at hst
  cases hd : DialContext f (fun i => (first i).map (fun p => { id := p.id }))
      (fun i => (retry i).map (fun p => { id := p.id })) isExternal "udp" destination with
  | none => rw [hd] at hst; cases hst
  | some r' =>
    rw [hd] at hst
    simp only [Option.map_some', Option.some.injEq] at hst
    rw [hst]
    exact DialContext_budget hf hm1 hm2 hb hd

/-- The method `checkPrimaryRecovery` keeps the counters within the threshold. -/
theorem checkPrimaryRecovery_budget {f : Failover} {urlTest : Nat → Except Error Nat}
    {dial : Nat → Except Error Conn} {ctxErrAfter : Bool} {r : Ret Unit} (hf : Started f)
    (hm1 : 1 ≤ f.maxFailures) (hb : WithinBudget f)
    (h : checkPrimaryRecovery f urlTest dial ctxErrAfter = some r) :
    WithinBudget r.state ∧ r.state.maxFailures = f.maxFailures := by
  unfold checkPrimaryRecovery at h
  split at h
  · cases h; exact ⟨hb, rfl⟩
  · split at h
    · cases h; exact ⟨hb, rfl⟩
    · split at h
      · cases h; exact ⟨hb, rfl⟩
      · simp only [] at h
        split at h
        · cases h; exact ⟨hb, rfl⟩
        · split at h
          · cases h; exact ⟨hb, rfl⟩
          · split at h
            · cases h
            · rename_i cs hcs
              cases h
              unfold store? at hcs
              split at hcs
              · cases hcs
                obtain ⟨-, h1, -, -, h4, -, -, -⟩ := hf
                exact ⟨withinBudget_clear f 0 rfl rfl rfl rfl (by omega) hm1 hb.1, rfl⟩
              · cases hcs

/-- Every dial, listen and recovery probe keeps the counters within the threshold. -/
theorem TrafficStep_budget {s t : Failover} (hs : Started s) (hm1 : 1 ≤ s.maxFailures)
    (hm2 : s.maxFailures ≤ 2147483647) (hb : WithinBudget s) (h : TrafficStep s t) :
    (Started t ∧ t.tags = s.tags) ∧ WithinBudget t ∧ t.maxFailures = s.maxFailures := by
  cases h with
  | dialContext first retry isExternal network destination r h =>
    exact ⟨DialContext_started hs h, DialContext_budget hs hm1 hm2 hb h⟩
  | listenPacket first retry isExternal destination r h =>
    exact ⟨ListenPacket_started hs h, ListenPacket_budget hs hm1 hm2 hb h⟩
  | checkPrimaryRecovery urlTest dial ctxErrAfter r h =>
    exact ⟨checkPrimaryRecovery_started hs h, checkPrimaryRecovery_budget hs hm1 hb h⟩

/-- A successful `Start` after `NewFailover` leaves every counter at 0 and the
threshold at the configured value, 3 when that is 0. -/
theorem Start_budget {ctx : Context} {options : FailoverOutboundOptions}
    {outboundManager : String → Option Outbound} {f0 : Failover}
    {r : Ret (Except Error Unit)}
    (hnew : NewFailover ctx options = Except.ok f0)
    (hstart : Start f0 outboundManager = some r) (hok : r.value = Except.ok ()) :
    r.state.maxFailures = (if options.MaxFailures = 0 then 3 else options.MaxFailures) ∧
    ∀ j : Nat, counter r.state j = 0 := by
  obtain ⟨hst, -⟩ := Start_ok hstart hok
  obtain ⟨-, hf0⟩ := NewFailover_ok hnew
  rw [hst]
  subst hf0
  refine ⟨rfl, ?_⟩
  intro j
  show (List.replicate options.Outbounds.length (0 : Int)).getD j 0 = 0
  rw [List.getD_eq_getElem?_getD, List.getElem?_replicate]
  split <;> rfl

theorem TrafficReachable_budget {ctx : Context} {options : FailoverOutboundOptions}
    {outboundManager : String → Option Outbound} {s : Failover}
    (hn : options.Outbounds.length ≤ 2147483648)
    (hlo : 0 ≤ options.MaxFailures) (hhi : options.MaxFailures ≤ 2147483647)
    (h : TrafficReachable ctx options outboundManager s) :
    (Started s ∧ s.tags = options.Outbounds) ∧
    s.maxFailures = (if options.MaxFailures = 0 then 3 else options.MaxFailures) ∧
    WithinBudget s := by
  have heff : 1 ≤ (if options.MaxFailures = 0 then 3 else options.MaxFailures) ∧
      (if options.MaxFailures = 0 then 3 else options.MaxFailures) ≤ 2147483647 := by
    split <;> omega
  induction h with
  | start f0 r hnew hstart hok =>
    obtain ⟨hmax, hzero⟩ := Start_budget hnew hstart hok
    refine ⟨Start_started hn hnew hstart hok, hmax, ?_, ?_⟩
    · intro j _
      rw [hzero j, hmax]
      omega
    · rw [hzero, hmax]
      omega
  | step s t _ hstep ih =>
    obtain ⟨⟨hs, htags⟩, hmax, hb⟩ := ih
    obtain ⟨⟨ht, htt⟩, hbt, hmt⟩ :=
      TrafficStep_budget hs (by rw [hmax]; exact heff.1) (by rw [hmax]; exact heff.2) hb hstep
    exact ⟨⟨ht, htt.trans htags⟩, hmt.trans hmax, hbt⟩

/-- A dial in which A and then B fail takes the freshly started engine of
`optionsAB` to `engineOnB`. -/
theorem engineOnB_trafficReachable :
    TrafficReachable ctxPlatform optionsAB resolveAll engineOnB :=
  TrafficReachable.step engineAB engineOnB
    (TrafficReachable.start
      { engineAB with outbounds := [], recoveryTicker := none, started := false, wg := 0 }
      { state := engineAB
        events := [Event.log Level.info "failover started with 2 outbounds, primary: A"]
        value := Except.ok () }
      rfl rfl rfl)
    (TrafficStep.dialContext engineAB (failWith "e1") (failWith "e2") false "tcp"
      "example.org:443"
      { state := engineOnB
        events :=
          [Event.dialContext 0 "tcp" "example.org:443",
           Event.log Level.warn "outbound A dial failed (1/1): e1",
           Event.log Level.warn "🔄 switched from A to B",
           Event.interrupt false,
           Event.log Level.warn "🔔 calling OnNodeSwitched callback: A -> B",
           Event.onNodeSwitched "A" "B",
           Event.dialContext 1 "tcp" "example.org:443"]
        value := Except.error "e2" }
      rfl)

/-- C23 (amended): for every configuration `NewFailover` accepts whose
effective threshold (the configured `max_failures`, 3 when that is 0) lies
between 1 and 2147483647, with a tag list short enough for 32-bit indices, in
every state reached from a successful `Start` by any sequence of
`DialContext`, `ListenPacket` and `checkPrimaryRecovery` steps, one after the
other and whatever the delegates answer, the threshold is the effective one,
every counter satisfies `0 ≤ consecutiveFailures[i] ≤ maxFailures`, the
selection names a candidate, and the selected candidate has budget left:
`consecutiveFailures[selected] < maxFailures`. -/
theorem counters_within_budget (ctx : Context) (options : FailoverOutboundOptions)
    (outboundManager : String → Option Outbound) (s : Failover)
    (hn : options.Outbounds.length ≤ 2147483648)
    (hlo : 0 ≤ options.MaxFailures) (hhi : options.MaxFailures ≤ 2147483647)
    (h : TrafficReachable ctx options outboundManager s) :
    s.maxFailures = (if options.MaxFailures = 0 then 3 else options.MaxFailures) ∧
    1 ≤ s.maxFailures ∧
    (∀ i : Nat, i < options.Outbounds.length →
      0 ≤ counter s i ∧ counter s i ≤ s.maxFailures) ∧
    0 ≤ s.selected ∧ s.selected < (options.Outbounds.length : Int) ∧
    counter s s.selected.toNat < s.maxFailures := by
  obtain ⟨⟨hs, htags⟩, hmax, hall, hsel⟩ := TrafficReachable_budget hn hlo hhi h
  obtain ⟨-, -, -, -, -, h5, h6, -⟩ := hs
  rw [htags] at hall h6
  refine ⟨hmax, ?_, hall, h5, h6, hsel⟩
  rw [hmax]
  split <;> omega

/-- C23, witness: `outbounds=[A,B]`, `max_failures=1`, after the dial in which
A and then B fail: A holds 1 of 1, the selection is on B, which holds 0. -/
theorem counters_within_budget_witness :
    optionsAB.Outbounds.length ≤ 2147483648 ∧ 0 ≤ optionsAB.MaxFailures ∧
    optionsAB.MaxFailures ≤ 2147483647 ∧
    (engineOnB.maxFailures = (if optionsAB.MaxFailures = 0 then 3 else optionsAB.MaxFailures) ∧
     1 ≤ engineOnB.maxFailures ∧
     (∀ i : Nat, i < optionsAB.Outbounds.length →
       0 ≤ counter engineOnB i ∧ counter engineOnB i ≤ engineOnB.maxFailures) ∧
     0 ≤ engineOnB.selected ∧ engineOnB.selected < (optionsAB.Outbounds.length : Int) ∧
     counter engineOnB engineOnB.selected.toNat < engineOnB.maxFailures) :=
  ⟨by decide, by decide, by decide,
   counters_within_budget ctxPlatform optionsAB resolveAll engineOnB (by decide) (by decide)
     (by decide) engineOnB_trafficReachable⟩

theorem engineHuge_started (c : Int) (hc : IsInt32 c) : Started (engineHuge c) := by
  have h1 : 1 ≤ ["A"].length := by decide
  have h2 : ["A"].length ≤ 2147483648 := by decide
  have h6 : (0 : Int) < ((["A"].length : Nat) : Int) := by decide
  refine ⟨rfl, h1, h2, rfl, rfl, le_refl _, h6, ?_⟩
  intro x hx
  have hx1 : x ∈ [c] := hx
  rw [List.mem_singleton] at hx1
  rw [hx1]
  exact hc

theorem engineHuge_set (c v : Int) :
    { engineHuge c with consecutiveFailures := (engineHuge c).consecutiveFailures.set 0 v } =
      engineHuge v := rfl

/-- A failed dial on the single outbound under the threshold 2147483648 only
counts: the `int32` counter stays below the threshold whatever it holds. -/
theorem engineHuge_step (c : Int) (hc : IsInt32 c) :
    TrafficStep (engineHuge c) (engineHuge (wrapInt32 (c + 1))) := by
  have hlow : wrapInt32 (counter (engineHuge c) 0 + 1) < (engineHuge c).maxFailures := by
    have h := wrapInt32_isInt32 (counter (engineHuge c) 0 + 1)
    unfold IsInt32 at h
    show _ < (2147483648 : Int)
    omega
  obtain ⟨_, -, hd⟩ := DialContext_below (engineHuge c) (failWith "refused")
    (failWith "refused") false "tcp" "example.org:443" 0 "refused" (engineHuge_started c hc)
    rfl rfl hlow
  have hcnt : counter (engineHuge c) 0 = c := rfl
  rw [hcnt, engineHuge_set] at hd
  exact TrafficStep.dialContext _ _ _ _ _ _ _ hd

theorem engineHuge_reachable (k : Nat) (hk : k ≤ 2147483647) :
    TrafficReachable ctxPlatform optionsHugeThreshold resolveAll (engineHuge (k : Int)) := by
  induction k with
  | zero =>
    exact TrafficReachable.start
      { engineHuge 0 with outbounds := [], recoveryTicker := none, started := false, wg := 0 }
      { state := engineHuge 0
        events := [Event.log Level.info "failover started with 1 outbounds, primary: A"]
        value := Except.ok () }
      rfl rfl rfl
  | succ k ih =>
    have hstep := engineHuge_step (k : Int) (by unfold IsInt32; omega)
    have hv : wrapInt32 ((k : Int) + 1) = ((k + 1 : Nat) : Int) := by
      unfold wrapInt32
      push_cast
      omega
    rw [hv] at hstep
    exact TrafficReachable.step _ _ (ih (by omega)) hstep

/-- C23, counterexample to the claim as stated: `outbounds=[A]` with
`max_failures=2147483648`. Every failed dial stays below the threshold, so A
is never switched away from and never reset; after 2147483647 failed dials its
counter holds 2147483647, and one more failed dial leaves -2147483648 there,
below 0. -/
theorem counter_below_zero_reachable :
    1 ≤ optionsHugeThreshold.MaxFailures ∧
    TrafficReachable ctxPlatform optionsHugeThreshold resolveAll (engineHuge 2147483647) ∧
    (DialContext (engineHuge 2147483647) (failWith "refused") (failWith "refused") false "tcp"
      "example.org:443").map (fun r => (r.value, r.state)) =
      some (Except.error "refused", engineHuge (-2147483648)) ∧
    TrafficReachable ctxPlatform optionsHugeThreshold resolveAll (engineHuge (-2147483648)) ∧
    (engineHuge (-2147483648)).maxFailures = 2147483648 ∧
    counter (engineHuge (-2147483648)) 0 = -2147483648 := by
  have hr := engineHuge_reachable 2147483647 (le_refl _)
  have hst := engineHuge_step 2147483647 (by decide)
  have hv : wrapInt32 ((2147483647 : Int) + 1) = -2147483648 := by decide
  rw [hv] at hst
  exact ⟨by decide, hr, rfl, TrafficReachable.step _ _ hr hst, rfl, rfl⟩

end Group

namespace Tracker

/-! ## Tracker totals: claims -/

theorem GetOrCreateStats_some {t : outboundTracker} {tag : String} {s : outboundStats}
    (h : t.stats tag = some s) : t.GetOrCreateStats tag = (t, s) := by
  unfold outboundTracker.GetOrCreateStats
  simp only [h]

theorem GetOrCreateStats_none {t : outboundTracker} {tag : String}
    (h : t.stats tag = none) :
    t.GetOrCreateStats tag =
      (t.put tag { Tag := tag, TotalAttempts := 0, SuccessCount := 0, FailureCount := 0,
                   LastSuccess := 0, LastFailure := 0, LastError := none,
                   ConsecutiveFailures := 0 },
       { Tag := tag, TotalAttempts := 0, SuccessCount := 0, FailureCount := 0,
         LastSuccess := 0, LastFailure := 0, LastError := none, ConsecutiveFailures := 0 }) := by
  unfold outboundTracker.GetOrCreateStats
  simp only [h]

/-- The totals the tracker holds for a tag, (0, 0, 0) while it has no record. -/
theorem GetOutboundStats_value (t : outboundTracker) (tag : String) :
    (GetOutboundStats t tag).value =
      match t.stats tag with
      | some s => (s.TotalAttempts, s.SuccessCount, s.FailureCount)
      | none => (0, 0, 0) := by
  unfold GetOutboundStats
  cases h : t.stats tag with
  | none => simp [GetOrCreateStats_none h, outboundStats.GetStats]
  | some s => simp [GetOrCreateStats_some h, outboundStats.GetStats]

theorem record_other (t : outboundTracker) (c : Call) (tag : String)
    (h : (match c with
          | Call.success x _ => x
          | Call.failure x _ _ => x) ≠ tag) :
    (record t c).stats tag = t.stats tag := by
  have hne : ∀ x : String, x ≠ tag → ¬ tag = x := fun x hx he => hx he.symm
  cases c with
  | success x now =>
    simp only [] at h
    unfold record RecordOutboundSuccess
    cases hx : t.stats x with
    | none => simp [GetOrCreateStats_none hx, outboundTracker.put, hne x h]
    | some s => simp [GetOrCreateStats_some hx, outboundTracker.put, hne x h]
  | failure x err now =>
    simp only [] at h
    unfold record RecordOutboundFailure
    cases hx : t.stats x with
    | none => simp [GetOrCreateStats_none hx, outboundTracker.put, hne x h]
    | some s => simp [GetOrCreateStats_some hx, outboundTracker.put, hne x h]

theorem wrapInt64_succ (x : Int) :
    Group.wrapInt64 (Group.wrapInt64 x + 1) = Group.wrapInt64 (x + 1) := by
  unfold Group.wrapInt64
  omega

theorem record_success_same (t : outboundTracker) (tag : String) (now : Int) :
    (GetOutboundStats (record t (Call.success tag now)) tag).value =
      (Group.wrapInt64 ((GetOutboundStats t tag).value.1 + 1),
        Group.wrapInt64 ((GetOutboundStats t tag).value.2.1 + 1),
        (GetOutboundStats t tag).value.2.2) := by
  rw [GetOutboundStats_value, GetOutboundStats_value]
  unfold record RecordOutboundSuccess
  cases hx : t.stats tag with
  | none => simp [GetOrCreateStats_none hx, outboundTracker.put, outboundStats.RecordSuccess]
  | some s => simp [GetOrCreateStats_some hx, outboundTracker.put, outboundStats.RecordSuccess]

theorem record_failure_same (t : outboundTracker) (tag : String) (err : Option String)
    (now : Int) :
    (GetOutboundStats (record t (Call.failure tag err now)) tag).value =
      (Group.wrapInt64 ((GetOutboundStats t tag).value.1 + 1),
        (GetOutboundStats t tag).value.2.1,
        Group.wrapInt64 ((GetOutboundStats t tag).value.2.2 + 1)) := by
  rw [GetOutboundStats_value, GetOutboundStats_value]
  unfold record RecordOutboundFailure
  cases hx : t.stats tag with
  | none => simp [GetOrCreateStats_none hx, outboundTracker.put, outboundStats.RecordFailure]
  | some s => simp [GetOrCreateStats_some hx, outboundTracker.put, outboundStats.RecordFailure]

theorem recordAll_append_one (t : outboundTracker) (calls : List Call) (c : Call) :
    recordAll t (calls ++ [c]) = record (recordAll t calls) c := by
  unfold recordAll
  rw [List.foldl_append]
  rfl

/-- The totals of a tag after any sequence of recording calls on the fresh
tracker: the numbers of calls made for the tag, each reduced to `int64`. -/
theorem recordAll_stats (calls : List Call) (tag : String) :
    (GetOutboundStats (recordAll globalTracker calls) tag).value =
      (Group.wrapInt64 ((successCalls tag calls + failureCalls tag calls : Nat) : Int),
        Group.wrapInt64 ((successCalls tag calls : Nat) : Int),
        Group.wrapInt64 ((failureCalls tag calls : Nat) : Int)) := by
  induction calls using List.reverseRecOn with
  | nil =>
    have h0 : recordAll globalTracker [] = globalTracker := rfl
    rw [h0, GetOutboundStats_value]
    simp [globalTracker, successCalls, failureCalls, Group.wrapInt64]
  | append_singleton calls c ih =>
    rw [recordAll_append_one]
    cases c with
    | success x now =>
      by_cases hx : x = tag
      · subst hx
        rw [record_success_same, ih]
        simp only [successCalls, failureCalls, List.countP_append, List.countP_cons,
          List.countP_nil, decide_True, if_true, Bool.false_eq_true, if_false, Prod.mk.injEq]
        push_cast
        refine ⟨?_, ?_, ?_⟩ <;> (try rw [wrapInt64_succ]) <;> congr 1 <;> ring
      · have hsame : (GetOutboundStats (record (recordAll globalTracker calls)
            (Call.success x now)) tag).value =
            (GetOutboundStats (recordAll globalTracker calls) tag).value := by
          rw [GetOutboundStats_value, GetOutboundStats_value,
            record_other _ (Call.success x now) tag hx]
        rw [hsame, ih]
        simp [successCalls, failureCalls, List.countP_append, List.countP_cons, hx]
    | failure x err now =>
      by_cases hx : x = tag
      · subst hx
        rw [record_failure_same, ih]
        simp only [successCalls, failureCalls, List.countP_append, List.countP_cons,
          List.countP_nil, decide_True, if_true, Bool.false_eq_true, if_false, Prod.mk.injEq]
        push_cast
        refine ⟨?_, ?_, ?_⟩ <;> (try rw [wrapInt64_succ]) <;> congr 1
      · have hsame : (GetOutboundStats (record (recordAll globalTracker calls)
            (Call.failure x err now)) tag).value =
            (GetOutboundStats (recordAll globalTracker calls) tag).value := by
          rw [GetOutboundStats_value, GetOutboundStats_value,
            record_other _ (Call.failure x err now) tag hx]
        rw [hsame, ih]
        simp [successCalls, failureCalls, List.countP_append, List.countP_cons, hx]

theorem failureCalls_replicate (tag : String) (err : Option String) (now : Int) (n : Nat) :
    failureCalls tag (List.replicate n (Call.failure tag err now)) = n ∧
    successCalls tag (List.replicate n (Call.failure tag err now)) = 0 := by
  induction n with
  | zero => exact ⟨rfl, rfl⟩
  | succ n ih =>
    obtain ⟨h1, h2⟩ := ih
    simp only [failureCalls, successCalls] at h1 h2 ⊢
    rw [List.replicate_succ, List.countP_cons, List.countP_cons, h1, h2]
    simp

/-- C20 (amended): for every tag and every finite sequence of
`RecordOutboundSuccess` and `RecordOutboundFailure` calls, on any tags, applied
to the fresh tracker, in which fewer than 9223372036854775808 calls are made
for the tag, `GetOutboundStats(tag)` is `(s + f, s, f)` with `s` and `f` the
numbers of success and failure calls made for that tag, so that total =
success + failure; and a call for one tag leaves the record of every other
tag as it was. -/
theorem GetOutboundStats_counts_calls (calls : List Call) (tag : String)
    (hlt : successCalls tag calls + failureCalls tag calls < 9223372036854775808) :
    (GetOutboundStats (recordAll globalTracker calls) tag).value =
      (((successCalls tag calls + failureCalls tag calls : Nat) : Int),
        ((successCalls tag calls : Nat) : Int), ((failureCalls tag calls : Nat) : Int)) ∧
    (GetOutboundStats (recordAll globalTracker calls) tag).value.1 =
      (GetOutboundStats (recordAll globalTracker calls) tag).value.2.1 +
        (GetOutboundStats (recordAll globalTracker calls) tag).value.2.2 ∧
    (∀ (t : outboundTracker) (other : String) (now : Int), other ≠ tag →
      (RecordOutboundSuccess t other now).tracker.stats tag = t.stats tag) ∧
    (∀ (t : outboundTracker) (other : String) (err : Option String) (now : Int),
      other ≠ tag →
      (RecordOutboundFailure t other err now).tracker.stats tag = t.stats tag) := by
  have h := recordAll_stats calls tag
  have hw : ∀ n : Nat, n < 9223372036854775808 → Group.wrapInt64 (n : Int) = (n : Int) := by
    intro n hn
    unfold Group.wrapInt64
    omega
  rw [hw _ hlt, hw _ (by omega), hw _ (by omega)] at h
  refine ⟨h, ?_, ?_, ?_⟩
  · rw [h]
    push_cast
    rfl
  · intro t other now hne
    exact record_other t (Call.success other now) tag hne
  · intro t other err now hne
    exact record_other t (Call.failure other err now) tag hne

/-- C20, witness: two successes and one failure of `A` among calls for `B`
give `A` the totals (3, 2, 1). -/
theorem GetOutboundStats_counts_calls_witness :
    successCalls "A" [Call.success "A" 1, Call.failure "B" none 2, Call.failure "A" none 3,
      Call.success "B" 4, Call.success "A" 5] +
      failureCalls "A" [Call.success "A" 1, Call.failure "B" none 2, Call.failure "A" none 3,
        Call.success "B" 4, Call.success "A" 5] < 9223372036854775808 ∧
    (GetOutboundStats (recordAll globalTracker
      [Call.success "A" 1, Call.failure "B" none 2, Call.failure "A" none 3,
       Call.success "B" 4, Call.success "A" 5]) "A").value = (3, 2, 1) :=
  ⟨by decide,
   (GetOutboundStats_counts_calls
      [Call.success "A" 1, Call.failure "B" none 2, Call.failure "A" none 3,
       Call.success "B" 4, Call.success "A" 5] "A" (by decide)).1.trans (by decide)⟩

/-- C20, counterexample to the claim as stated: after 9223372036854775808
calls of `RecordOutboundFailure("A", nil)` on the fresh tracker the numbers of
success and failure calls for `A` are 0 and 9223372036854775808, but
`GetOutboundStats("A")` is (-9223372036854775808, 0, -9223372036854775808):
the `int64` cells have wrapped. -/
theorem GetOutboundStats_wraps :
    successCalls "A" (List.replicate 9223372036854775808 (Call.failure "A" none 0)) = 0 ∧
    failureCalls "A" (List.replicate 9223372036854775808 (Call.failure "A" none 0)) =
      9223372036854775808 ∧
    (GetOutboundStats (recordAll globalTracker
      (List.replicate 9223372036854775808 (Call.failure "A" none 0))) "A").value =
      (-9223372036854775808, 0, -9223372036854775808) := by
  obtain ⟨hf, hs⟩ := failureCalls_replicate "A" none 0 9223372036854775808
  refine ⟨hs, hf, ?_⟩
  rw [recordAll_stats, hf, hs]
  have h1 : Group.wrapInt64 ((0 + 9223372036854775808 : Nat) : Int) =
      -9223372036854775808 := by
    unfold Group.wrapInt64
    omega
  have h2 : Group.wrapInt64 ((0 : Nat) : Int) = 0 := by
    unfold Group.wrapInt64
    omega
  rw [h1, h2]

/-! ## Consecutive failures: claims -/

theorem statsOf_some {t : outboundTracker} {tag : String} {s : outboundStats}
    (h : t.stats tag = some s) : statsOf t tag = s := by
  unfold statsOf
  rw [GetOrCreateStats_some h]

theorem statsOf_none {t : outboundTracker} {tag : String} (h : t.stats tag = none) :
    statsOf t tag =
      { Tag := tag, TotalAttempts := 0, SuccessCount := 0, FailureCount := 0,
        LastSuccess := 0, LastFailure := 0, LastError := none, ConsecutiveFailures := 0 } := by
  unfold statsOf
  rw [GetOrCreateStats_none h]

theorem GetConsecutiveFailures_statsOf (t : outboundTracker) (tag : String) :
    (GetConsecutiveFailures t tag).value = (statsOf t tag).ConsecutiveFailures := rfl

theorem GetOutboundStatus_statsOf (t : outboundTracker) (tag : String) (now1 now2 : Int) :
    (GetOutboundStatus t tag now1 now2).value = (statsOf t tag).GetStatus now1 now2 := rfl

theorem RecordOutboundSuccess_stats (t : outboundTracker) (tag : String) (now : Int) :
    (RecordOutboundSuccess t tag now).tracker.stats tag =
      some ((statsOf t tag).RecordSuccess now) := by
  unfold RecordOutboundSuccess statsOf
  simp [outboundTracker.put]

theorem RecordOutboundFailure_stats (t : outboundTracker) (tag : String)
    (err : Option String) (now : Int) :
    (RecordOutboundFailure t tag err now).tracker.stats tag =
      some ((statsOf t tag).RecordFailure err now) := by
  unfold RecordOutboundFailure statsOf
  simp [outboundTracker.put]

theorem statsOf_record_other (t : outboundTracker) (c : Call) (tag : String)
    (h : (match c with
          | Call.success x _ => x
          | Call.failure x _ _ => x) ≠ tag) :
    statsOf (record t c) tag = statsOf t tag := by
  have hs := record_other t c tag h
  cases hx : t.stats tag with
  | none => rw [statsOf_none hx, statsOf_none (hs.trans hx)]
  | some s => rw [statsOf_some hx, statsOf_some (hs.trans hx)]

theorem wrapInt32_succ (x : Int) :
    Group.wrapInt32 (Group.wrapInt32 x + 1) = Group.wrapInt32 (x + 1) := by
  unfold Group.wrapInt32
  omega

theorem recordAll_snoc (t : outboundTracker) (calls : List Call) (c : Call) :
    recordAll t (calls ++ [c]) = record (recordAll t calls) c := by
  unfold recordAll
  rw [List.foldl_append]
  rfl

theorem sinceLastSuccess_snoc (tag : String) (calls : List Call) (c : Call) :
    sinceLastSuccess tag (calls ++ [c]) =
      if c.isSuccessFor tag then [] else sinceLastSuccess tag calls ++ [c] := by
  unfold sinceLastSuccess
  rw [List.reverse_append, List.reverse_singleton, List.singleton_append, List.takeWhile_cons]
  cases c.isSuccessFor tag <;> simp

theorem failuresSinceLastSuccess_success (tag : String) (calls : List Call) (now : Int) :
    failuresSinceLastSuccess tag (calls ++ [Call.success tag now]) = 0 := by
  unfold failuresSinceLastSuccess
  rw [sinceLastSuccess_snoc]
  simp [Call.isSuccessFor, failureCalls]

theorem failuresSinceLastSuccess_failure (tag : String) (calls : List Call)
    (err : Option String) (now : Int) :
    failuresSinceLastSuccess tag (calls ++ [Call.failure tag err now]) =
      failuresSinceLastSuccess tag calls + 1 := by
  unfold failuresSinceLastSuccess
  rw [sinceLastSuccess_snoc]
  simp [Call.isSuccessFor, failureCalls, List.countP_append]

theorem failuresSinceLastSuccess_other (tag : String) (calls : List Call) (c : Call)
    (h : (match c with
          | Call.success x _ => x
          | Call.failure x _ _ => x) ≠ tag) :
    failuresSinceLastSuccess tag (calls ++ [c]) = failuresSinceLastSuccess tag calls := by
  unfold failuresSinceLastSuccess
  rw [sinceLastSuccess_snoc]
  cases c with
  | success x now =>
    simp only [] at h
    simp [Call.isSuccessFor, failureCalls, List.countP_append, h]
  | failure x err now =>
    simp only [] at h
    simp [Call.isSuccessFor, failureCalls, List.countP_append, h]

/-- The counter of a tag after any sequence of recording calls on the fresh
tracker: the number of failures since the tag's last success, reduced to
`int32`. -/
theorem GetConsecutiveFailures_recordAll (calls : List Call) (tag : String) :
    (GetConsecutiveFailures (recordAll globalTracker calls) tag).value =
      Group.wrapInt32 (failuresSinceLastSuccess tag calls : Nat) := by
  induction calls using List.reverseRecOn with
  | nil =>
    have h0 : failuresSinceLastSuccess tag [] = 0 := rfl
    have h1 : recordAll globalTracker [] = globalTracker := rfl
    rw [h0, h1, GetConsecutiveFailures_statsOf,
      statsOf_none (rfl : globalTracker.stats tag = none)]
    simp [Group.wrapInt32]
  | append_singleton calls c ih =>
    rw [GetConsecutiveFailures_statsOf] at ih ⊢
    rw [recordAll_snoc]
    by_cases hc : (match c with
          | Call.success x _ => x
          | Call.failure x _ _ => x) = tag
    · cases c with
      | success x now =>
        simp only [] at hc
        subst hc
        rw [failuresSinceLastSuccess_success]
        have h : (record (recordAll globalTracker calls) (Call.success x now)).stats x =
            some ((statsOf (recordAll globalTracker calls) x).RecordSuccess now) :=
          RecordOutboundSuccess_stats (recordAll globalTracker calls) x now
        rw [statsOf_some h]
        simp [outboundStats.RecordSuccess, Group.wrapInt32]
      | failure x err now =>
        simp only [] at hc
        subst hc
        rw [failuresSinceLastSuccess_failure]
        have h : (record (recordAll globalTracker calls) (Call.failure x err now)).stats x =
            some ((statsOf (recordAll globalTracker calls) x).RecordFailure err now) :=
          RecordOutboundFailure_stats (recordAll globalTracker calls) x err now
        rw [statsOf_some h]
        show Group.wrapInt32
          ((statsOf (recordAll globalTracker calls) x).ConsecutiveFailures + 1) = _
        rw [ih, wrapInt32_succ]
        push_cast
        rfl
    · rw [statsOf_record_other _ _ _ hc, failuresSinceLastSuccess_other _ _ _ hc, ih]

theorem failuresSinceLastSuccess_replicate (tag : String) (err : Option String) (now : Int)
    (n : Nat) :
    failuresSinceLastSuccess tag (List.replicate n (Call.failure tag err now)) = n := by
  induction n with
  | zero => rfl
  | succ n ih =>
    rw [List.replicate_succ', failuresSinceLastSuccess_failure, ih]

/-- C21 (amended): `RecordOutboundSuccess(tag)` sets the consecutive-failure
count of the tag to 0; `RecordOutboundFailure(tag, err)` replaces the count
`c` by `c + 1` reduced to `int32`, which is `c + 1` whenever `c` is an `int32`
below 2147483647, and stores the message of a non-null `err` as the last error
(a null `err` leaves the last error as it was); a tag without a record reads
0. Hence, for every sequence of recording calls on the fresh tracker in which
fewer than 2147483648 failures of the tag follow its most recent success (or
the start, if it has none), `GetConsecutiveFailures(tag)` is the number of
those failures. -/
theorem GetConsecutiveFailures_counts_failures (calls : List Call) (tag : String)
    (h : failuresSinceLastSuccess tag calls < 2147483648) :
    (GetConsecutiveFailures (recordAll globalTracker calls) tag).value =
      ((failuresSinceLastSuccess tag calls : Nat) : Int) ∧
    (∀ (t : outboundTracker) (now : Int),
      (GetConsecutiveFailures (RecordOutboundSuccess t tag now).tracker tag).value = 0) ∧
    (∀ (t : outboundTracker) (err : Option String) (now : Int),
      (GetConsecutiveFailures (RecordOutboundFailure t tag err now).tracker tag).value =
        Group.wrapInt32 ((GetConsecutiveFailures t tag).value + 1)) ∧
    (∀ (t : outboundTracker) (err : Option String) (now : Int),
      -2147483648 ≤ (GetConsecutiveFailures t tag).value →
      (GetConsecutiveFailures t tag).value < 2147483647 →
      (GetConsecutiveFailures (RecordOutboundFailure t tag err now).tracker tag).value =
        (GetConsecutiveFailures t tag).value + 1) ∧
    (∀ (t : outboundTracker) (msg : String) (now : Int),
      (statsOf (RecordOutboundFailure t tag (some msg) now).tracker tag).LastError =
        some msg) ∧
    (∀ (t : outboundTracker) (now : Int),
      (statsOf (RecordOutboundFailure t tag none now).tracker tag).LastError =
        (statsOf t tag).LastError) ∧
    (∀ t : outboundTracker, t.stats tag = none →
      (GetConsecutiveFailures t tag).value = 0) := by
  have hstep : ∀ (t : outboundTracker) (err : Option String) (now : Int),
      (GetConsecutiveFailures (RecordOutboundFailure t tag err now).tracker tag).value =
        Group.wrapInt32 ((GetConsecutiveFailures t tag).value + 1) := by
    intro t err now
    rw [GetConsecutiveFailures_statsOf, GetConsecutiveFailures_statsOf,
      statsOf_some (RecordOutboundFailure_stats t tag err now)]
    rfl
  refine ⟨?_, ?_, hstep, ?_, ?_, ?_, ?_⟩
  · rw [GetConsecutiveFailures_recordAll]
    unfold Group.wrapInt32
    omega
  · intro t now
    rw [GetConsecutiveFailures_statsOf, statsOf_some (RecordOutboundSuccess_stats t tag now)]
    rfl
  · intro t err now hlo hhi
    rw [hstep]
    unfold Group.wrapInt32
    omega
  · intro t msg now
    rw [statsOf_some (RecordOutboundFailure_stats t tag (some msg) now)]
    rfl
  · intro t now
    rw [statsOf_some (RecordOutboundFailure_stats t tag none now)]
    rfl
  · intro t ht
    rw [GetConsecutiveFailures_statsOf, statsOf_none ht]

/-- C21, witness: failure, success, failure, a failure of another tag, failure:
two failures of `A` follow its last success, and the count of `A` is 2. -/
theorem GetConsecutiveFailures_counts_failures_witness :
    failuresSinceLastSuccess "A"
      [Call.failure "A" (some "timeout") 10, Call.success "A" 11, Call.failure "A" none 12,
       Call.failure "B" none 13, Call.failure "A" (some "refused") 14] < 2147483648 ∧
    (GetConsecutiveFailures (recordAll globalTracker
      [Call.failure "A" (some "timeout") 10, Call.success "A" 11, Call.failure "A" none 12,
       Call.failure "B" none 13, Call.failure "A" (some "refused") 14]) "A").value = 2 :=
  ⟨by decide,
   (GetConsecutiveFailures_counts_failures
      [Call.failure "A" (some "timeout") 10, Call.success "A" 11, Call.failure "A" none 12,
       Call.failure "B" none 13, Call.failure "A" (some "refused") 14] "A"
      (by decide)).1.trans (by decide)⟩

/-- C21, counterexample to the claim as stated: after 2147483648 calls of
`RecordOutboundFailure("A", nil)` on the fresh tracker, with no success in
between, the number of failures since the last success is 2147483648 but
`GetConsecutiveFailures("A")` is -2147483648; the last of these calls found
the count at 2147483647 and did not increase it by 1. -/
theorem GetConsecutiveFailures_wraps :
    failuresSinceLastSuccess "A" (List.replicate 2147483648 (Call.failure "A" none 0)) =
      2147483648 ∧
    (GetConsecutiveFailures (recordAll globalTracker
      (List.replicate 2147483648 (Call.failure "A" none 0))) "A").value = -2147483648 ∧
    (GetConsecutiveFailures (recordAll globalTracker
      (List.replicate 2147483647 (Call.failure "A" none 0))) "A").value = 2147483647 ∧
    (GetConsecutiveFailures (RecordOutboundFailure (recordAll globalTracker
      (List.replicate 2147483647 (Call.failure "A" none 0))) "A" none 0).tracker "A").value =
      -2147483648 := by
  have h1 := GetConsecutiveFailures_recordAll
    (List.replicate 2147483648 (Call.failure "A" none 0)) "A"
  have h2 := GetConsecutiveFailures_recordAll
    (List.replicate 2147483647 (Call.failure "A" none 0)) "A"
  rw [failuresSinceLastSuccess_replicate] at h1 h2
  have h3 : (GetConsecutiveFailures (RecordOutboundFailure (recordAll globalTracker
      (List.replicate 2147483647 (Call.failure "A" none 0))) "A" none 0).tracker "A").value =
      Group.wrapInt32 ((GetConsecutiveFailures (recordAll globalTracker
        (List.replicate 2147483647 (Call.failure "A" none 0))) "A").value + 1) := by
    rw [GetConsecutiveFailures_statsOf, GetConsecutiveFailures_statsOf,
      statsOf_some (RecordOutboundFailure_stats _ "A" none 0)]
    rfl
  refine ⟨failuresSinceLastSuccess_replicate "A" none 0 2147483648, ?_, ?_, ?_⟩
  · rw [h1]
    unfold Group.wrapInt32
    omega
  · rw [h2]
    unfold Group.wrapInt32
    omega
  · rw [h3, h2]
    unfold Group.wrapInt32
    omega

/-! ## Status: claims -/

theorem GetStatus_cases (s : outboundStats) (now1 now2 : Int) :
    (s.GetStatus now1 now2 = 2 ∧ 1 ≤ s.ConsecutiveFailures) ∨
    (s.GetStatus now1 now2 = 1 ∧ s.ConsecutiveFailures < 1 ∧
      0 < s.LastSuccess ∧ now1 - s.LastSuccess < 30) ∨
    (s.GetStatus now1 now2 = 0 ∧ s.ConsecutiveFailures < 1 ∧
      ¬ (0 < s.LastSuccess ∧ now1 - s.LastSuccess < 30)) := by
  unfold outboundStats.GetStatus
  by_cases h1 : s.ConsecutiveFailures ≥ 1
  · left
    rw [if_pos h1]
    exact ⟨rfl, h1⟩
  · by_cases h2 : s.LastSuccess > 0 ∧ now1 - s.LastSuccess < 30
    · right; left
      rw [if_neg h1, if_pos h2]
      exact ⟨rfl, by omega, h2.1, h2.2⟩
    · right; right
      rw [if_neg h1, if_neg h2]
      exact ⟨by split <;> rfl, by omega, h2⟩

theorem statsOf_GetOutboundStatus (t : outboundTracker) (tag : String) (now1 now2 : Int) :
    statsOf (GetOutboundStatus t tag now1 now2).tracker tag = statsOf t tag := by
  cases h : t.stats tag with
  | some s =>
    have h1 : (GetOutboundStatus t tag now1 now2).tracker = t := by
      unfold GetOutboundStatus
      rw [GetOrCreateStats_some h]
    rw [h1]
  | none =>
    have h1 : (GetOutboundStatus t tag now1 now2).tracker.stats tag = some (statsOf t tag) := by
      unfold GetOutboundStatus statsOf
      rw [GetOrCreateStats_none h]
      simp [outboundTracker.put]
    rw [statsOf_some h1]

/-- C22 (amended): `GetOutboundStatus(tag)` is the value of `GetStatus` on the
record of the tag and the clock, it leaves that record as it was, and it is
0, 1 or 2: Failed (2) exactly when consecutive-failures is at least 1, however
recent the last success; Healthy (1) exactly when consecutive-failures is
below 1, the last-success stamp is positive and the clock is below that stamp
plus 30; Unknown (0) in every other case. A tag without a record is Unknown.
After `RecordOutboundFailure` the status is Failed exactly when the increased
count, reduced to `int32`, is at least 1, in particular whenever the count
before was between 0 and 2147483646; in a run from the fresh tracker that is
the case while fewer than 2147483647 failures of the tag precede the call
since its last success. After `RecordOutboundSuccess` at clock reading `now`
the status is Healthy exactly when `now` is positive and the status call
reads a clock below `now + 30`. -/
theorem GetOutboundStatus_by_cases (t : outboundTracker) (tag : String) (now1 now2 : Int) :
    (GetOutboundStatus t tag now1 now2).value = (statsOf t tag).GetStatus now1 now2 ∧
    statsOf (GetOutboundStatus t tag now1 now2).tracker tag = statsOf t tag ∧
    ((GetOutboundStatus t tag now1 now2).value = 0 ∨
      (GetOutboundStatus t tag now1 now2).value = 1 ∨
      (GetOutboundStatus t tag now1 now2).value = 2) ∧
    ((GetOutboundStatus t tag now1 now2).value = 2 ↔
      1 ≤ (GetConsecutiveFailures t tag).value) ∧
    ((GetOutboundStatus t tag now1 now2).value = 1 ↔
      (GetConsecutiveFailures t tag).value < 1 ∧ 0 < (statsOf t tag).LastSuccess ∧
        now1 - (statsOf t tag).LastSuccess < 30) ∧
    ((GetOutboundStatus t tag now1 now2).value = 0 ↔
      (GetConsecutiveFailures t tag).value < 1 ∧
        ¬ (0 < (statsOf t tag).LastSuccess ∧ now1 - (statsOf t tag).LastSuccess < 30)) ∧
    (t.stats tag = none → (GetOutboundStatus t tag now1 now2).value = 0) ∧
    (∀ (err : Option String) (now : Int),
      ((GetOutboundStatus (RecordOutboundFailure t tag err now).tracker tag now1 now2).value = 2 ↔
        1 ≤ Group.wrapInt32 ((GetConsecutiveFailures t tag).value + 1)) ∧
      (0 ≤ (GetConsecutiveFailures t tag).value →
        (GetConsecutiveFailures t tag).value < 2147483647 →
        (GetOutboundStatus (RecordOutboundFailure t tag err now).tracker tag now1 now2).value =
          2)) ∧
    (∀ (calls : List Call) (err : Option String) (now : Int),
      failuresSinceLastSuccess tag calls < 2147483647 →
      (GetOutboundStatus (recordAll globalTracker (calls ++ [Call.failure tag err now]))
        tag now1 now2).value = 2) ∧
    (∀ now : Int,
      ((GetOutboundStatus (RecordOutboundSuccess t tag now).tracker tag now1 now2).value = 1 ↔
        0 < now ∧ now1 - now < 30) ∧
      ((GetOutboundStatus (RecordOutboundSuccess t tag now).tracker tag now1 now2).value = 1 ∨
        (GetOutboundStatus (RecordOutboundSuccess t tag now).tracker tag now1 now2).value =
          0)) := by
  have key : ∀ (t : outboundTracker),
      ((GetOutboundStatus t tag now1 now2).value = 2 ↔
        1 ≤ (statsOf t tag).ConsecutiveFailures) ∧
      ((GetOutboundStatus t tag now1 now2).value = 1 ↔
        (statsOf t tag).ConsecutiveFailures < 1 ∧ 0 < (statsOf t tag).LastSuccess ∧
          now1 - (statsOf t tag).LastSuccess < 30) ∧
      ((GetOutboundStatus t tag now1 now2).value = 0 ↔
        (statsOf t tag).ConsecutiveFailures < 1 ∧
          ¬ (0 < (statsOf t tag).LastSuccess ∧
            now1 - (statsOf t tag).LastSuccess < 30)) := by
    intro t
    rw [GetOutboundStatus_statsOf]
    rcases GetStatus_cases (statsOf t tag) now1 now2 with ⟨hv, hc⟩ | ⟨hv, hc, hs⟩ | ⟨hv, hc, hs⟩
    · rw [hv]
      refine ⟨⟨fun _ => hc, fun _ => rfl⟩, ⟨fun h => by omega, fun h => by omega⟩,
        ⟨fun h => by omega, fun h => by omega⟩⟩
    · rw [hv]
      refine ⟨⟨fun h => by omega, fun h => by omega⟩, ⟨fun _ => ⟨hc, hs⟩, fun _ => rfl⟩,
        ⟨fun h => by omega, fun h => absurd hs h.2⟩⟩
    · rw [hv]
      refine ⟨⟨fun h => by omega, fun h => by omega⟩,
        ⟨fun h => by omega, fun h => absurd ⟨h.2.1, h.2.2⟩ hs⟩, ⟨fun _ => ⟨hc, hs⟩, fun _ => rfl⟩⟩
  have hfail : ∀ (t : outboundTracker) (err : Option String) (now : Int),
      (statsOf (RecordOutboundFailure t tag err now).tracker tag).ConsecutiveFailures =
        Group.wrapInt32 ((statsOf t tag).ConsecutiveFailures + 1) := by
    intro t err now
    rw [statsOf_some (RecordOutboundFailure_stats t tag err now)]
    rfl
  refine ⟨rfl, statsOf_GetOutboundStatus t tag now1 now2, ?_, (key t).1, (key t).2.1,
    (key t).2.2, ?_, ?_, ?_, ?_⟩
  · rw [GetOutboundStatus_statsOf]
    rcases GetStatus_cases (statsOf t tag) now1 now2 with ⟨hv, -⟩ | ⟨hv, -⟩ | ⟨hv, -⟩
    · exact Or.inr (Or.inr hv)
    · exact Or.inr (Or.inl hv)
    · exact Or.inl hv
  · intro ht
    rw [GetOutboundStatus_statsOf, statsOf_none ht]
    rfl
  · intro err now
    have h2 := (key (RecordOutboundFailure t tag err now).tracker).1
    rw [hfail] at h2
    refine ⟨h2, ?_⟩
    intro hlo hhi
    rw [GetConsecutiveFailures_statsOf] at hlo hhi
    apply h2.mpr
    unfold Group.wrapInt32
    omega
  · intro calls err now hlt
    have hc := GetConsecutiveFailures_recordAll (calls ++ [Call.failure tag err now]) tag
    rw [failuresSinceLastSuccess_failure, GetConsecutiveFailures_statsOf] at hc
    apply (key _).1.mpr
    rw [hc]
    unfold Group.wrapInt32
    omega
  · intro now
    have h1 := (key (RecordOutboundSuccess t tag now).tracker).2.1
    have h0 := (key (RecordOutboundSuccess t tag now).tracker).2.2
    rw [statsOf_some (RecordOutboundSuccess_stats t tag now)] at h1 h0
    have hcf : ((statsOf t tag).RecordSuccess now).ConsecutiveFailures = 0 := rfl
    have hls : ((statsOf t tag).RecordSuccess now).LastSuccess = now := rfl
    rw [hcf, hls] at h1 h0
    refine ⟨⟨fun h => (h1.mp h).2, fun h => h1.mpr ⟨by omega, h⟩⟩, ?_⟩
    by_cases hh : 0 < now ∧ now1 - now < 30
    · exact Or.inl (h1.mpr ⟨by omega, hh⟩)
    · exact Or.inr (h0.mpr ⟨by omega, hh⟩)

/-- C22, witness: after a failure, a success at second 100 and a failure at
second 101 of `A`, the status read at second 102 is Failed although the last
success is two seconds old; after a success at second 100 it is Healthy at
second 129; and a tag never referenced is Unknown. -/
theorem GetOutboundStatus_by_cases_witness :
    (GetOutboundStatus (recordAll globalTracker
      ([Call.failure "A" none 99, Call.success "A" 100] ++ [Call.failure "A" none 101]))
      "A" 102 102).value = 2 ∧
    (GetOutboundStatus (RecordOutboundSuccess globalTracker "A" 100).tracker "A" 129 129).value =
      1 ∧
    (GetOutboundStatus globalTracker "A" 102 102).value = 0 :=
  ⟨(GetOutboundStatus_by_cases globalTracker "A" 102 102).2.2.2.2.2.2.2.2.1
      [Call.failure "A" none 99, Call.success "A" 100] none 101 (by decide),
   ((GetOutboundStatus_by_cases globalTracker "A" 129 129).2.2.2.2.2.2.2.2.2 100).1.mpr
      (by decide),
   (GetOutboundStatus_by_cases globalTracker "A" 102 102).2.2.2.2.2.2.1 rfl⟩

/-- C22, counterexample to the claim as stated: a success recorded while the
clock reads 0 leaves the status Unknown, not Healthy, when read at once; and
the status read right after the last of 2147483648 consecutive
`RecordOutboundFailure("A", nil)` calls is not Failed, the count having
wrapped to -2147483648. -/
theorem GetOutboundStatus_not_healthy_not_failed :
    (GetOutboundStatus (RecordOutboundSuccess globalTracker "A" 0).tracker "A" 0 0).value = 0 ∧
    (GetConsecutiveFailures (recordAll globalTracker
      (List.replicate 2147483648 (Call.failure "A" none 1))) "A").value = -2147483648 ∧
    (GetOutboundStatus (recordAll globalTracker
      (List.replicate 2147483648 (Call.failure "A" none 1))) "A" 1 1).value ≠ 2 := by
  have hc := GetConsecutiveFailures_recordAll
    (List.replicate 2147483648 (Call.failure "A" none 1)) "A"
  rw [failuresSinceLastSuccess_replicate] at hc
  have hv : Group.wrapInt32 ((2147483648 : Nat) : Int) = -2147483648 := by
    unfold Group.wrapInt32
    omega
  rw [hv] at hc
  refine ⟨?_, hc, ?_⟩
  · rw [GetOutboundStatus_statsOf,
      statsOf_some (RecordOutboundSuccess_stats globalTracker "A" 0)]
    rfl
  · rw [GetConsecutiveFailures_statsOf] at hc
    rw [GetOutboundStatus_statsOf]
    rcases GetStatus_cases (statsOf (recordAll globalTracker
      (List.replicate 2147483648 (Call.failure "A" none 1))) "A") 1 1 with
      ⟨-, h⟩ | ⟨hv1, -⟩ | ⟨hv0, -⟩
    · rw [hc] at h
      omega
    · rw [hv1]
      decide
    · rw [hv0]
      decide

end Tracker
